import Mathlib

/-!
# TNCG015-GI: sphere intersection and the path integrator

A shallow embedding of `ImplicitSphere.cpp` and `Scene.cpp`.

Conventions of the embedding.

* `float` and `double` are both read as one ordered field `F` with exact
  arithmetic; the theorems are stated at `F = ℝ`.  Rounding is not modelled.
* The library functions `sqrt`, `sin`, `cos`, `asin` are arguments of the
  model (at `ℝ` they are instantiated with `Real.sqrt` and friends).
* An operation that has no real value in C++ (a division by zero, `sqrt` of a
  negative number, `asin` outside `[-1, 1]`) makes the model return an error
  instead of a number: IEEE arithmetic would produce `inf` or `NaN` there.
* Headers (`Ray.h`, `Triangle.h`, `Definitions.h`, ...) are not part of the
  sources.  Constants they declare (`EPSILON`, `MAX_DEPTH`,
  `SHADOW_RAY_COUNT`, `M_PI`) are arguments of the model, and classes they
  declare are records of the members the two source files use.
-/

namespace GI

/-! ## Errors -/

/-- Reasons for which a model run has no value. -/
inductive FpError where
  /-- A floating-point division whose divisor is zero. -/
  | divByZero
  /-- A library function applied outside its real domain. -/
  | domain
  /-- The recursion budget of the model (not of the program) ran out. -/
  | outOfFuel
  deriving DecidableEq, Repr

section Arithmetic

variable {F : Type} [LinearOrderedField F]

/-- Division `x / y` of two floating-point values; no real value when `y = 0`. -/
def fdiv (x y : F) : Except FpError F :=
  if y = 0 then .error .divByZero else .ok (x / y)

/-- The call `sqrt(x)`; no real value when `x < 0`. -/
def fsqrt (sqrt : F → F) (x : F) : Except FpError F :=
  if x < 0 then .error .domain else .ok (sqrt x)

/-- The call `asin(x)`; no real value outside `[-1, 1]`. -/
def fasin (asin : F → F) (x : F) : Except FpError F :=
  if x < -1 ∨ 1 < x then .error .domain else .ok (asin x)

/-- The statement `if (x0 > x1) std::swap(x0, x1)` as a function on the pair. -/
def swapIfGt (x0 x1 : F) : F × F :=
  if x0 > x1 then (x1, x0) else (x0, x1)

end Arithmetic

/-! ## glm vectors -/

/-- The type `glm::vec3` (also `Direction`). -/
structure Vec3 (F : Type) where
  x : F
  y : F
  z : F
  deriving DecidableEq, Repr

/-- The type `glm::vec4` (also `Vertex`). -/
structure Vec4 (F : Type) where
  x : F
  y : F
  z : F
  w : F
  deriving DecidableEq, Repr

section Vectors

variable {F : Type} [LinearOrderedField F]

/-- The function `glm::dot` on `vec3`. -/
def Vec3.dot (u v : Vec3 F) : F := u.x * v.x + u.y * v.y + u.z * v.z

/-- The difference of two `vec3`. -/
def Vec3.sub (u v : Vec3 F) : Vec3 F := ⟨u.x - v.x, u.y - v.y, u.z - v.z⟩

/-- The sum of two `vec3`. -/
def Vec3.add (u v : Vec3 F) : Vec3 F := ⟨u.x + v.x, u.y + v.y, u.z + v.z⟩

/-- Component-wise `operator*` on `vec3` (used for colours). -/
def Vec3.mul (u v : Vec3 F) : Vec3 F := ⟨u.x * v.x, u.y * v.y, u.z * v.z⟩

/-- Scalar `operator*` on `vec3`. -/
def Vec3.smul (k : F) (u : Vec3 F) : Vec3 F := ⟨k * u.x, k * u.y, k * u.z⟩

/-- Unary minus on `vec3`. -/
def Vec3.neg (u : Vec3 F) : Vec3 F := ⟨-u.x, -u.y, -u.z⟩

/-- The function `glm::cross`. -/
def Vec3.cross (u v : Vec3 F) : Vec3 F :=
  ⟨u.y * v.z - v.y * u.z, u.z * v.x - v.z * u.x, u.x * v.y - v.x * u.y⟩

/-- The function `glm::dot` on `vec4`. -/
def Vec4.dot (u v : Vec4 F) : F := u.x * v.x + u.y * v.y + u.z * v.z + u.w * v.w

/-- The difference of two `vec4`. -/
def Vec4.sub (u v : Vec4 F) : Vec4 F := ⟨u.x - v.x, u.y - v.y, u.z - v.z, u.w - v.w⟩

/-- The sum of two `vec4`. -/
def Vec4.add (u v : Vec4 F) : Vec4 F := ⟨u.x + v.x, u.y + v.y, u.z + v.z, u.w + v.w⟩

/-- Scalar `operator*` on `vec4`. -/
def Vec4.smul (k : F) (u : Vec4 F) : Vec4 F := ⟨k * u.x, k * u.y, k * u.z, k * u.w⟩

/-- Unary minus on `vec4`. -/
def Vec4.neg (u : Vec4 F) : Vec4 F := ⟨-u.x, -u.y, -u.z, -u.w⟩

/-- The conversion `glm::vec3(v)` of a `vec4`: the `w` component is dropped. -/
def Vec4.xyz (u : Vec4 F) : Vec3 F := ⟨u.x, u.y, u.z⟩

/-- The constructor `glm::vec4(v, w)` from a `vec3` and a scalar. -/
def Vec3.toVec4 (u : Vec3 F) (w : F) : Vec4 F := ⟨u.x, u.y, u.z, w⟩

end Vectors

/-! ## Rays -/

/-- The material tags switched on by `Scene::castRay`. -/
inductive Material where
  | LAMBERTIAN
  | PERFECT_REFLECTOR
  | LIGHT_SOURCE
  deriving DecidableEq, Repr

/-- Modelled from the spec: the class `Ray` (`Ray.h` is not in the sources).
Section 3 of the specification lists an origin, a target point and the mutable
intersection state: nearest hit distance, hit point, hit normal, hit material,
colour and a hit flag.  Each field is what the getter of the same name
returns; `direction` is the value of `getDirection()`. -/
structure Ray (F : Type) where
  start : Vec4 F
  target : Vec4 F
  direction : Vec3 F
  closestIntersection : F
  intersectionPoint : Vec4 F
  intersectionNormal : Vec3 F
  intersectionMaterial : Material
  color : Vec3 F
  hasIntersection : Bool
  deriving DecidableEq, Repr

/-- Modelled from the spec: `Ray::updateIntersection(distance, point, colour,
normal, material)` overwrites the hit state and sets the hit flag. -/
def Ray.updateIntersection {F : Type} (r : Ray F) (closest : F) (point : Vec4 F)
    (color : Vec3 F) (normal : Vec3 F) (material : Material) : Ray F :=
  { r with
    closestIntersection := closest
    intersectionPoint := point
    color := color
    intersectionNormal := normal
    intersectionMaterial := material
    hasIntersection := true }

/-! ## `ImplicitSphere.cpp` -/

/-- The members of `ImplicitSphere` read by `rayIntersection`. -/
structure ImplicitSphere (F : Type) where
  center : Vec4 F
  radiusSquared : F
  deriving DecidableEq, Repr

section Sphere

variable {F : Type} [LinearOrderedField F]

/-- The function `ImplicitSphere::stableQuadraticSolver(a, b, c, x0, x1)`.  The result is
the returned `bool` together with the values of the reference parameters `x0`
and `x1` after the call. -/
def stableQuadraticSolver (sqrt : F → F) (EPSILON : F) (a b c x0 x1 : F) :
    Except FpError (Bool × F × F) :=
  let discriminant := b * b - 4 * a * c
  if discriminant < 0 then .ok (false, x0, x1)
  else if |discriminant| < EPSILON then do
    let x ← fdiv (-(1 / 2) * b) a
    let (x0, x1) := swapIfGt x x
    .ok (true, x0, x1)
  else do
    let s ← fsqrt sqrt discriminant
    let q := if b > 0 then -(1 / 2) * (b + s) else -(1 / 2) * (b - s)
    let x0 ← fdiv q a
    let x1 ← fdiv c q
    let (x0, x1) := swapIfGt x0 x1
    .ok (true, x0, x1)

/-- The function `ImplicitSphere::rayIntersection(r)`.  The result is the returned `bool`
together with the ray after the call.  The locals `d0`, `d1` start
uninitialised; the solver overwrites them whenever it returns `true`, so the
model passes `0` for both.  The unqualified `abs(d0)` is read as the
floating-point absolute value. -/
def ImplicitSphere.rayIntersection (sqrt : F → F) (EPSILON : F)
    (s : ImplicitSphere F) (r : Ray F) : Except FpError (Bool × Ray F) := do
  let a : F := 1
  let L : Vec3 F := (r.start.sub s.center).xyz
  let b : F := 2 * r.direction.dot L
  let c : F := L.dot L - s.radiusSquared
  let (ok, d0, d1) ← stableQuadraticSolver sqrt EPSILON a b c 0 0
  if !ok then .ok (false, r)
  else
    let (d0, d1) := swapIfGt d0 d1
    if d0 < 0 then
      let d0 := d1
      if d0 < 0 then .ok (false, r)
      else if |d0| < EPSILON then .ok (false, r)
      else .ok (true, r)
    else if |d0| < EPSILON then .ok (false, r)
    else .ok (true, r)

end Sphere

/-! ## Declarations used by `Scene.cpp` -/

/-- Constants, library functions and the `Ray` constructor that `Scene.cpp`
uses and that are declared outside the two source files.  `G` is the state of
the random generator behind `randMinMax` and `getRandomPoint`. -/
structure Env (F G : Type) where
  EPSILON : F
  M_PI : F
  MAX_DEPTH : Nat
  SHADOW_RAY_COUNT : Nat
  sqrt : F → F
  sin : F → F
  cos : F → F
  asin : F → F
  /-- The call `randMinMax(lo, hi)`: the drawn value and the next generator state. -/
  randMinMax : F → F → G → F × G
  /-- The constructor `Ray(start, end)`. -/
  newRay : Vec4 F → Vec4 F → Ray F

/-- The members of `Triangle` used by `Scene.cpp`. -/
structure Triangle (F G : Type) where
  rayIntersection : Ray F → Except FpError (Bool × Ray F)
  getArea : F
  getRandomPoint : G → Vec4 F × G

/-- The members of `LightSource` used by `Scene.cpp`. -/
structure LightSource (F G : Type) where
  rayIntersection : Ray F → Except FpError (Bool × Ray F)
  getTriangles : List (Triangle F G)

/-- The abstract class `Object`: its virtual member `rayIntersection`. -/
structure Object (F : Type) where
  rayIntersection : Ray F → Except FpError (Bool × Ray F)

/-- The data members of `Scene` read by `castRay` and `castShadowRay`. -/
structure Scene (F G : Type) where
  _triangles : List (Triangle F G)
  _objects : List (Object F)
  _lightSources : List (LightSource F G)

/-- An `ImplicitSphere` seen through the `Object` interface. -/
def ImplicitSphere.toObject {F : Type} [LinearOrderedField F] (sqrt : F → F) (EPSILON : F)
    (s : ImplicitSphere F) : Object F :=
  ⟨ImplicitSphere.rayIntersection sqrt EPSILON s⟩

/-- A call made while a function runs, recorded in program order. -/
inductive Call where
  /-- A call `castRay(_, depth)`. -/
  | castRay (depth : Nat)
  /-- A call `castShadowRay(_, _)`. -/
  | castShadowRay
  deriving DecidableEq, Repr

/-- What a call of `castRay` leaves behind: the returned `bool`, the ray
argument after the call, the generator state, and the calls of `castRay` and
`castShadowRay` made during the call (the call itself is not listed). -/
structure CastResult (F G : Type) where
  hit : Bool
  ray : Ray F
  gen : G
  calls : List Call

/-- What a call of `castShadowRay` leaves behind: the returned colour, the
generator state, the number of shadow rays counted in `lightCount`, and the
calls made during the call. -/
structure ShadowResult (F G : Type) where
  color : Vec3 F
  gen : G
  lightCount : Nat
  calls : List Call

/-- The locals of `castShadowRay` that its loops update. -/
structure ShadowState (F G : Type) where
  lightContribution : Vec3 F
  lightCount : Nat
  lightArea : F
  gen : G
  calls : List Call

/-- The shadow-ray depth `-1` converted to `size_t`. -/
def SHADOW_DEPTH : Nat := 2 ^ 64 - 1

/-- A 4x4 matrix `glm::mat4`, indexed by row and column. -/
abbrev Mat4 (F : Type) := Matrix (Fin 4) (Fin 4) F

section SceneModel

variable {F G : Type} [LinearOrderedField F]

/-- The components of a `vec4` as a function on indices. -/
def Vec4.toFun (v : Vec4 F) : Fin 4 → F := ![v.x, v.y, v.z, v.w]

/-- The `vec4` with the given components. -/
def Vec4.ofFun (f : Fin 4 → F) : Vec4 F := ⟨f 0, f 1, f 2, f 3⟩

/-- The constructor `glm::mat4(c0, c1, c2, c3)` from four columns. -/
def Mat4.ofColumns (c0 c1 c2 c3 : Vec4 F) : Mat4 F :=
  Matrix.of fun i j => (![c0, c1, c2, c3] j).toFun i

/-- The product `M * v` of a `mat4` and a `vec4`. -/
def Mat4.mulVec4 (M : Mat4 F) (v : Vec4 F) : Vec4 F := Vec4.ofFun (M.mulVec v.toFun)

/-- The function `glm::inverse` on `mat4`: the adjugate scaled by one over the determinant. -/
def Mat4.inverse (M : Mat4 F) : Except FpError (Mat4 F) := do
  let oneOverDeterminant ← fdiv 1 M.det
  .ok (oneOverDeterminant • M.adjugate)

/-- The function `glm::normalize` on `vec3`: `v * inversesqrt(dot(v, v))`. -/
def Vec3.normalize (sqrt : F → F) (v : Vec3 F) : Except FpError (Vec3 F) := do
  let n ← fsqrt sqrt (v.dot v)
  let k ← fdiv 1 n
  .ok (Vec3.smul k v)

/-- The function `glm::normalize` on `vec4`: `v * inversesqrt(dot(v, v))`. -/
def Vec4.normalize (sqrt : F → F) (v : Vec4 F) : Except FpError (Vec4 F) := do
  let n ← fsqrt sqrt (v.dot v)
  let k ← fdiv 1 n
  .ok (Vec4.smul k v)

/-- The function `glm::reflect(I, N) = I - N * dot(N, I) * 2`. -/
def Vec3.reflect (I N : Vec3 F) : Vec3 F := I.sub (Vec3.smul (N.dot I * 2) N)

/-- The quotient `ColorDbl / double`, component by component. -/
def Vec3.divScalar (c : Vec3 F) (d : F) : Except FpError (Vec3 F) := do
  let x ← fdiv c.x d
  let y ← fdiv c.y d
  let z ← fdiv c.z d
  .ok ⟨x, y, z⟩

/-- One of the three loops at the top of `castRay`: every primitive of a list
tests the ray in turn; the returned `bool`s are discarded. -/
def traceAll (fs : List (Ray F → Except FpError (Bool × Ray F))) (ray : Ray F) :
    Except FpError (Ray F) :=
  match fs with
  | [] => .ok ray
  | f :: rest => do
    let (_, ray) ← f ray
    traceAll rest ray

/-- Lines 21-34 of `castRay`: trace the room, the objects and the light sources. -/
def Scene.intersect (scene : Scene F G) (ray : Ray F) : Except FpError (Ray F) := do
  let ray ← traceAll (scene._triangles.map fun t => t.rayIntersection) ray
  let ray ← traceAll (scene._objects.map fun o => o.rayIntersection) ray
  traceAll (scene._lightSources.map fun l => l.rayIntersection) ray

/-- One pass through the body of the innermost loop of `castShadowRay`
(lines 182-203) for the light triangle `tri`.  `cast` is `Scene::castRay`. -/
def shadowSample (env : Env F G) (cast : Ray F → Nat → G → Except FpError (CastResult F G))
    (origin : Vec4 F) (normal : Vec3 F) (tri : Triangle F G) (st : ShadowState F G) :
    Except FpError (ShadowState F G) := do
  let lightCount := st.lightCount + 1
  let (lightPoint, gen) := tri.getRandomPoint st.gen
  let shadowRay := env.newRay (origin.add (Vec4.smul (1 / 10) (normal.toVec4 0))) lightPoint
  let res ← cast shadowRay SHADOW_DEPTH gen
  let shadowRay := res.ray
  let calls := st.calls ++ Call.castRay SHADOW_DEPTH :: res.calls
  if shadowRay.hasIntersection && shadowRay.intersectionMaterial == Material.LIGHT_SOURCE then do
    let lightNormal := shadowRay.intersectionNormal
    let shadowRayDir := (← Vec4.normalize env.sqrt (shadowRay.target.sub shadowRay.start)).xyz
    let dt := shadowRayDir.dot lightNormal
    let dt := if dt < 0 then dt * -1 else dt
    .ok { lightContribution := st.lightContribution.add (Vec3.smul dt shadowRay.color)
          lightCount := lightCount
          lightArea := st.lightArea
          gen := res.gen
          calls := calls }
  else
    .ok { lightContribution := st.lightContribution
          lightCount := lightCount
          lightArea := st.lightArea
          gen := res.gen
          calls := calls }

/-- The loop `for (int i = 0; i < SHADOW_RAY_COUNT; i++)` with `n` passes left. -/
def shadowSamples (env : Env F G) (cast : Ray F → Nat → G → Except FpError (CastResult F G))
    (origin : Vec4 F) (normal : Vec3 F) (tri : Triangle F G) :
    Nat → ShadowState F G → Except FpError (ShadowState F G)
  | 0, st => .ok st
  | n + 1, st => do
    let st ← shadowSample env cast origin normal tri st
    shadowSamples env cast origin normal tri n st

/-- The loop over the triangles of one light source (lines 176-205). -/
def shadowTriangles (env : Env F G) (cast : Ray F → Nat → G → Except FpError (CastResult F G))
    (origin : Vec4 F) (normal : Vec3 F) :
    List (Triangle F G) → ShadowState F G → Except FpError (ShadowState F G)
  | [], st => .ok st
  | lightTriangle :: rest, st => do
    let st := { st with lightArea := st.lightArea + lightTriangle.getArea }
    let st ← shadowSamples env cast origin normal lightTriangle env.SHADOW_RAY_COUNT st
    shadowTriangles env cast origin normal rest st

/-- The loop over the light sources (lines 175-206). -/
def shadowLights (env : Env F G) (cast : Ray F → Nat → G → Except FpError (CastResult F G))
    (origin : Vec4 F) (normal : Vec3 F) :
    List (LightSource F G) → ShadowState F G → Except FpError (ShadowState F G)
  | [], st => .ok st
  | light :: rest, st => do
    let st ← shadowTriangles env cast origin normal light.getTriangles st
    shadowLights env cast origin normal rest st

/-- The function `Scene::castShadowRay(origin, normal)`, with `Scene::castRay` passed as
`cast` and the generator state passed explicitly. -/
def castShadowRayWith (env : Env F G) (scene : Scene F G)
    (cast : Ray F → Nat → G → Except FpError (CastResult F G))
    (origin : Vec4 F) (normal : Vec3 F) (gen : G) : Except FpError (ShadowResult F G) := do
  let st ← shadowLights env cast origin normal scene._lightSources
    { lightContribution := ⟨0, 0, 0⟩, lightCount := 0, lightArea := 0, gen := gen, calls := [] }
  let color ← st.lightContribution.divScalar (st.lightCount : F)
  .ok { color := color, gen := st.gen, lightCount := st.lightCount, calls := st.calls }

/-- The bounce direction sampled in the Lambertian case (lines 68-94): the
point `globalCoordinates` from the two variates `xi`, `yj`. -/
def lambertianTarget (env : Env F G) (ray : Ray F) (xi yj : F) : Except FpError (Vec4 F) := do
  let altitude := 2 * env.M_PI * xi
  let azimuth ← fasin env.asin (← fsqrt env.sqrt yj)
  let localX := env.cos azimuth * env.sin altitude
  let localY := env.sin azimuth * env.sin altitude
  let localZ := env.cos altitude
  let localCoordinates : Vec4 F := ⟨localX, localY, localZ, 1⟩
  let Z : Vec4 F := ray.intersectionNormal.toVec4 0
  let I : Vec4 F := ray.intersectionPoint.sub ray.start
  let X ← Vec4.normalize env.sqrt (I.sub (Vec4.smul (I.dot Z) Z))
  let Y : Vec4 F := (X.neg.xyz.cross Z.xyz).toVec4 0
  let modIP : Vec4 F := ray.intersectionPoint.neg.xyz.toVec4 1
  let M : Mat4 F := Mat4.ofColumns X Y Z ⟨0, 0, 0, 1⟩ *
    Mat4.ofColumns ⟨1, 0, 0, 0⟩ ⟨0, 1, 0, 0⟩ ⟨0, 0, 1, 0⟩ modIP
  let invM ← Mat4.inverse M
  .ok (invM.mulVec4 localCoordinates)

/-- The function `Scene::castRay(ray, depth)`.  `depth` is a `size_t`, so `depth + 1` is
taken modulo `2 ^ 64`.  The first argument bounds the nesting of calls in the
model; the program has no such bound. -/
def castRay (env : Env F G) (scene : Scene F G) :
    Nat → Ray F → Nat → G → Except FpError (CastResult F G)
  | 0, _, _, _ => .error .outOfFuel
  | fuel + 1, ray, depth, gen => do
    let ray ← scene.intersect ray
    if !ray.hasIntersection then
      .ok { hit := false, ray := ray, gen := gen, calls := [] }
    else if depth = SHADOW_DEPTH then
      .ok { hit := true, ray := ray, gen := gen, calls := [] }
    else
      match ray.intersectionMaterial with
      | Material.LAMBERTIAN => do
        let sh ← castShadowRayWith env scene (castRay env scene fuel)
          ray.intersectionPoint ray.intersectionNormal gen
        let lightContribution := sh.color
        let calls := Call.castShadowRay :: sh.calls
        let ray := ray.updateIntersection ray.closestIntersection ray.intersectionPoint
          (ray.color.mul lightContribution) ray.intersectionNormal ray.intersectionMaterial
        let alpha : F := 1 / 4
        let (u, gen) := env.randMinMax 0 1 sh.gen
        if 1 - alpha > u then do
          let (xi, gen) := env.randMinMax env.EPSILON (2 * env.M_PI - env.EPSILON) gen
          let (yj, gen) := env.randMinMax env.EPSILON (2 * env.M_PI - env.EPSILON) gen
          let globalCoordinates ← lambertianTarget env ray xi yj
          let reflectedRay := env.newRay
            (ray.intersectionPoint.add
              (Vec4.smul (1 / 1000) (globalCoordinates.sub ray.intersectionPoint)))
            globalCoordinates
          let res ← castRay env scene fuel reflectedRay ((depth + 1) % 2 ^ 64) gen
          let reflectedRay := res.ray
          let REFLECTIVITY ← fdiv (8 / 10) (env.M_PI * ((depth : F) + 1))
          let ray := ray.updateIntersection ray.closestIntersection ray.intersectionPoint
            ((Vec3.smul (1 - REFLECTIVITY) ray.color).add
              (Vec3.smul REFLECTIVITY reflectedRay.color))
            ray.intersectionNormal ray.intersectionMaterial
          .ok { hit := true, ray := ray, gen := res.gen
                calls := calls ++ Call.castRay ((depth + 1) % 2 ^ 64) :: res.calls }
        else
          .ok { hit := true, ray := ray, gen := gen, calls := calls }
      | Material.PERFECT_REFLECTOR => do
        let sh ← castShadowRayWith env scene (castRay env scene fuel)
          ray.intersectionPoint ray.intersectionNormal gen
        let lightContribution := sh.color
        let calls := Call.castShadowRay :: sh.calls
        if depth < env.MAX_DEPTH then do
          let inDirection : Vec3 F := (ray.intersectionPoint.sub ray.start).xyz
          let outDirection : Vec3 F := inDirection.reflect ray.intersectionNormal
          let reflectedRay := env.newRay
            (ray.intersectionPoint.add
              (Vec4.smul (1 / 1000) ((outDirection.toVec4 1).sub ray.intersectionPoint)))
            (outDirection.toVec4 1)
          let res ← castRay env scene fuel reflectedRay ((depth + 1) % 2 ^ 64) sh.gen
          let reflectedRay := res.ray
          let ray := ray.updateIntersection ray.closestIntersection ray.intersectionPoint
            ((Vec3.smul (2 / 10) lightContribution).add (Vec3.smul (8 / 10) reflectedRay.color))
            ray.intersectionNormal ray.intersectionMaterial
          .ok { hit := true, ray := ray, gen := res.gen
                calls := calls ++ Call.castRay ((depth + 1) % 2 ^ 64) :: res.calls }
        else
          let ray := ray.updateIntersection ray.closestIntersection ray.intersectionPoint
            lightContribution ray.intersectionNormal ray.intersectionMaterial
          .ok { hit := true, ray := ray, gen := sh.gen, calls := calls }
      | Material.LIGHT_SOURCE =>
        let LIGHT_EMISSION : F := 255
        let ray := ray.updateIntersection ray.closestIntersection ray.intersectionPoint
          (Vec3.smul LIGHT_EMISSION ray.color) ray.intersectionNormal ray.intersectionMaterial
        .ok { hit := true, ray := ray, gen := gen, calls := [] }

/-- The function `Scene::castShadowRay(origin, normal)`; the calls of `castRay` it makes
may nest `fuel` deep. -/
def castShadowRay (env : Env F G) (scene : Scene F G) (fuel : Nat)
    (origin : Vec4 F) (normal : Vec3 F) (gen : G) : Except FpError (ShadowResult F G) :=
  castShadowRayWith env scene (castRay env scene fuel) origin normal gen

end SceneModel

/-! ## Names for the statements and example inputs -/

section Examples

variable {F : Type} [LinearOrderedField F]

/-- The local `L` of `rayIntersection`: ray origin minus sphere centre. -/
def ImplicitSphere.offset (s : ImplicitSphere F) (r : Ray F) : Vec3 F :=
  (r.start.sub s.center).xyz

/-- The local `b` of `rayIntersection`. -/
def ImplicitSphere.coeffB (s : ImplicitSphere F) (r : Ray F) : F :=
  2 * r.direction.dot (s.offset r)

/-- The local `c` of `rayIntersection`. -/
def ImplicitSphere.coeffC (s : ImplicitSphere F) (r : Ray F) : F :=
  (s.offset r).dot (s.offset r) - s.radiusSquared

/-- The discriminant `b * b - 4 * a * c` that the solver computes for the
sphere's quadratic (`a = 1`). -/
def ImplicitSphere.discriminant (s : ImplicitSphere F) (r : Ray F) : F :=
  s.coeffB r * s.coeffB r - 4 * 1 * s.coeffC r

/-- The smaller root `(-b - sqrt D) / 2` of the sphere's quadratic. -/
def ImplicitSphere.nearRoot (sqrt : F → F) (s : ImplicitSphere F) (r : Ray F) : F :=
  (-s.coeffB r - sqrt (s.discriminant r)) / (2 * 1)

/-- The larger root `(-b + sqrt D) / 2` of the sphere's quadratic. -/
def ImplicitSphere.farRoot (sqrt : F → F) (s : ImplicitSphere F) (r : Ray F) : F :=
  (-s.coeffB r + sqrt (s.discriminant r)) / (2 * 1)

/-- A ray from `start` along `direction` that has no hit recorded yet: the hit
flag is clear and the nearest-hit distance is `1000`. -/
def rayWithoutHit (start : Vec4 F) (direction : Vec3 F) : Ray F :=
  { start := start
    target := start.add (direction.toVec4 0)
    direction := direction
    closestIntersection := 1000
    intersectionPoint := ⟨0, 0, 0, 1⟩
    intersectionNormal := ⟨0, 0, 0⟩
    intersectionMaterial := Material.LAMBERTIAN
    color := ⟨0, 0, 0⟩
    hasIntersection := false }

/-- The ray from the origin along `+z`. -/
def zRay : Ray F := rayWithoutHit ⟨0, 0, 0, 1⟩ ⟨0, 0, 1⟩

/-- The ray along `+z` that starts at `(0, 0, -h)`. -/
def zRayFrom (h : F) : Ray F := rayWithoutHit ⟨0, 0, -h, 1⟩ ⟨0, 0, 1⟩

/-- The sphere of radius `1` about `(0, 0, 5)`: `zRay` runs through its centre. -/
def sphereAhead : ImplicitSphere F := ⟨⟨0, 0, 5, 1⟩, 1⟩

/-- The sphere of radius `1` about `(0, 0, 1)`: `zRay` starts on its surface
and runs through its centre. -/
def sphereTouchingOrigin : ImplicitSphere F := ⟨⟨0, 0, 1, 1⟩, 1⟩

/-- The sphere of radius `R` about the origin. -/
def sphereAtOrigin (R : F) : ImplicitSphere F := ⟨⟨0, 0, 0, 1⟩, R * R⟩

/-- A light source without triangles; nothing hits it. -/
def lightWithoutTriangles {G : Type} : LightSource F G :=
  { rayIntersection := fun r => .ok (false, r), getTriangles := [] }

/-- A scene whose only content is one light source without triangles. -/
def sceneWithEmptyLight {G : Type} : Scene F G :=
  { _triangles := [], _objects := [], _lightSources := [lightWithoutTriangles] }

/-- An environment for examples: `EPSILON = 1/1000`, `MAX_DEPTH = 5`,
`SHADOW_RAY_COUNT = 2`, a generator without state whose `randMinMax(lo, hi)`
is always `lo`, and a `Ray` constructor that records no hit.  The value of
`M_PI` and the library functions are passed in. -/
def exampleEnv (pi : F) (sqrt sin cos asin : F → F) : Env F Unit :=
  { EPSILON := 1 / 1000
    M_PI := pi
    MAX_DEPTH := 5
    SHADOW_RAY_COUNT := 2
    sqrt := sqrt
    sin := sin
    cos := cos
    asin := asin
    randMinMax := fun lo _ g => (lo, g)
    newRay := fun start target => rayWithoutHit start (target.sub start).xyz }

end Examples

/-! ## Names for the statements about the scene -/

section SceneNames

variable {F G : Type} [LinearOrderedField F]

/-- The number `N` of light triangles of a scene, summed over its light sources. -/
def Scene.lightTriangleCount (scene : Scene F G) : Nat :=
  (scene._lightSources.map fun l => l.getTriangles.length).sum

/-- The triangles of one light source in the order the sample loop visits
them: each triangle `K` times in a row. -/
def scheduleOfTriangles (K : Nat) : List (Triangle F G) → List (Triangle F G)
  | [] => []
  | t :: rest => List.replicate K t ++ scheduleOfTriangles K rest

/-- The light triangles of a list of light sources in the order the sample
loop visits them. -/
def scheduleOfLights (K : Nat) : List (LightSource F G) → List (Triangle F G)
  | [] => []
  | l :: rest => scheduleOfTriangles K l.getTriangles ++ scheduleOfLights K rest

/-- The value of `lightArea` after the loop over the triangles of one light. -/
def areaOfTriangles (area : F) (tris : List (Triangle F G)) : F :=
  tris.foldl (fun acc t => acc + t.getArea) area

/-- The value of `lightArea` after the loop over the light sources. -/
def areaOfLights (area : F) (lights : List (LightSource F G)) : F :=
  lights.foldl (fun acc l => areaOfTriangles acc l.getTriangles) area

/-- The start point of every shadow ray: `origin + Vertex(normal, 0) * 0.1f`. -/
def shadowOrigin (origin : Vec4 F) (normal : Vec3 F) : Vec4 F :=
  origin.add (Vec4.smul (1 / 10) (normal.toVec4 0))

/-- Specification of the weight of one shadow ray: the absolute value of the
dot product of the normalised shadow-ray direction with the normal `n`. -/
def shadowWeightSpec (sqrt : F → F) (shadowRay : Ray F) (n : Vec3 F) : Except FpError F := do
  let dir ← Vec4.normalize sqrt (shadowRay.target.sub shadowRay.start)
  .ok |dir.xyz.dot n|

/-- Specification of the contribution of one traced shadow ray: its colour
times the weight when its nearest hit is a light source, zero otherwise. -/
def shadowContributionSpec (sqrt : F → F) (shadowRay : Ray F) : Except FpError (Vec3 F) :=
  if shadowRay.hasIntersection = true ∧
      shadowRay.intersectionMaterial = Material.LIGHT_SOURCE then do
    let w ← shadowWeightSpec sqrt shadowRay shadowRay.intersectionNormal
    .ok (Vec3.smul w shadowRay.color)
  else .ok ⟨0, 0, 0⟩

/-- Specification of the shadow samples: for each scheduled light triangle in
turn, draw a point on it, trace the shadow ray towards the point through the
scene, and take its contribution.  The result is the list of contributions
and the generator state after the last draw. -/
def shadowContributionsSpec (env : Env F G) (scene : Scene F G) (origin : Vec4 F)
    (normal : Vec3 F) : List (Triangle F G) → G → Except FpError (List (Vec3 F) × G)
  | [], gen => .ok ([], gen)
  | tri :: rest, gen => do
    let (lightPoint, gen) := tri.getRandomPoint gen
    let traced ← scene.intersect (env.newRay (shadowOrigin origin normal) lightPoint)
    let c ← shadowContributionSpec env.sqrt traced
    let (cs, gen) ← shadowContributionsSpec env scene origin normal rest gen
    .ok (c :: cs, gen)

/-- Specification of `castShadowRay`: the sum of the contributions of all
shadow samples divided by their number. -/
def shadowAverageSpec (env : Env F G) (scene : Scene F G) (origin : Vec4 F)
    (normal : Vec3 F) (gen : G) : Except FpError (Vec3 F) := do
  let (cs, _) ← shadowContributionsSpec env scene origin normal
    (scheduleOfLights env.SHADOW_RAY_COUNT scene._lightSources) gen
  Vec3.divScalar (cs.foldl Vec3.add ⟨0, 0, 0⟩) (cs.length : F)

/-- The locals of `castShadowRay` after further samples: `cs` lists their
contributions in order, `area` is the new `lightArea` and `gen` the new
generator state; every sample counts once and logs one `castRay` call at the
shadow depth. -/
def ShadowState.advance (st : ShadowState F G) (area : F) (cs : List (Vec3 F)) (gen : G) :
    ShadowState F G :=
  { lightContribution := cs.foldl Vec3.add st.lightContribution
    lightCount := st.lightCount + cs.length
    lightArea := area
    gen := gen
    calls := st.calls ++ List.replicate cs.length (Call.castRay SHADOW_DEPTH) }

/-- The local `outDirection` of the perfect-reflector case (lines 121-122). -/
def mirrorOutDirection (ray : Ray F) : Vec3 F :=
  (ray.intersectionPoint.sub ray.start).xyz.reflect ray.intersectionNormal

/-- The first constructor argument of the bounce ray of the perfect-reflector
case (line 124). -/
def mirrorBounceStart (ray : Ray F) : Vec4 F :=
  ray.intersectionPoint.add
    (Vec4.smul (1 / 1000) (((mirrorOutDirection ray).toVec4 1).sub ray.intersectionPoint))

/-- The second constructor argument of the bounce ray of the perfect-reflector
case (line 124). -/
def mirrorBounceTarget (ray : Ray F) : Vec4 F :=
  (mirrorOutDirection ray).toVec4 1

/-- The ray with the colour replaced; the other hit fields are kept and the
hit flag is set, as `updateIntersection` does in `castRay`. -/
def Ray.withColor (ray : Ray F) (color : Vec3 F) : Ray F :=
  ray.updateIntersection ray.closestIntersection ray.intersectionPoint color
    ray.intersectionNormal ray.intersectionMaterial

/-- The local vector `I - dot(I, Z) * Z` that line 85 normalises into `X`. -/
def frameProjection (ray : Ray F) : Vec4 F :=
  (ray.intersectionPoint.sub ray.start).sub
    (Vec4.smul ((ray.intersectionPoint.sub ray.start).dot (ray.intersectionNormal.toVec4 0))
      (ray.intersectionNormal.toVec4 0))

/-- The local `X` of the Lambertian case (line 85). -/
def frameX (sqrt : F → F) (ray : Ray F) : Except FpError (Vec4 F) :=
  Vec4.normalize sqrt (frameProjection ray)

/-- The local `Y` of the Lambertian case (line 86), from `X` and the normal. -/
def frameY (X : Vec4 F) (ray : Ray F) : Vec4 F :=
  (X.neg.xyz.cross (ray.intersectionNormal.toVec4 0).xyz).toVec4 0

/-- The locally sampled direction `(localX, localY, localZ)` of lines 76-78. -/
def localDirection (sin cos : F → F) (azimuth altitude : F) : Vec3 F :=
  ⟨cos azimuth * sin altitude, sin azimuth * sin altitude, cos altitude⟩

end SceneNames

/-! ## Example scenes -/

section SceneExamples

variable {F : Type} [LinearOrderedField F]

/-- A primitive that every ray hits: it records a hit of material `m` at
distance `1`, at the point `(0, 0, 0)`, with normal `+z` and white colour. -/
def alwaysHit (m : Material) (r : Ray F) : Except FpError (Bool × Ray F) :=
  .ok (true, r.updateIntersection 1 ⟨0, 0, 0, 1⟩ ⟨1, 1, 1⟩ ⟨0, 0, 1⟩ m)

/-- A primitive that no ray hits. -/
def neverHit (r : Ray F) : Except FpError (Bool × Ray F) := .ok (false, r)

/-- A light triangle whose sampled point is always `(0, 0, 2)` and that no ray hits. -/
def exampleLightTriangle : Triangle F Unit :=
  { rayIntersection := neverHit, getArea := 1, getRandomPoint := fun g => (⟨0, 0, 2, 1⟩, g) }

/-- A light source made of `exampleLightTriangle`. -/
def exampleLight : LightSource F Unit :=
  { rayIntersection := neverHit, getTriangles := [exampleLightTriangle] }

/-- A room triangle of material `m` that every ray hits. -/
def wallOf (m : Material) : Triangle F Unit :=
  { rayIntersection := alwaysHit m, getArea := 1, getRandomPoint := fun g => (⟨0, 0, 0, 1⟩, g) }

/-- A scene with one wall of material `m` that every ray hits, and one light
source with one triangle. -/
def sceneOf (m : Material) : Scene F Unit :=
  { _triangles := [wallOf m], _objects := [], _lightSources := [exampleLight] }

/-- A scene without triangles, objects and light sources. -/
def emptyScene : Scene F Unit :=
  { _triangles := [], _objects := [], _lightSources := [] }

/-- The environment `exampleEnv` with a generator whose `randMinMax(lo, hi)` is
always `hi`. -/
def exampleEnvHigh (pi : F) (sqrt sin cos asin : F → F) : Env F Unit :=
  { exampleEnv pi sqrt sin cos asin with randMinMax := fun _ hi g => (hi, g) }

/-- A ray that already has a hit of material `m` on record (distance `1`,
point `(0, 0, 0)`, normal `+z`, white). -/
def rayWithHit (m : Material) : Ray F :=
  (zRay : Ray F).updateIntersection 1 ⟨0, 0, 0, 1⟩ ⟨1, 1, 1⟩ ⟨0, 0, 1⟩ m

/-- A ray that came from `(1, 0, 1)` straight down onto the point `(1, 0, 0)`
of a surface with normal `+z`. -/
def rayOntoFloor (m : Material) : Ray F :=
  (rayWithoutHit ⟨1, 0, 1, 1⟩ ⟨0, 0, -1⟩ : Ray F).updateIntersection 1 ⟨1, 0, 0, 1⟩ ⟨1, 1, 1⟩
    ⟨0, 0, 1⟩ m

end SceneExamples

/-! ## The path integrator with the empty average carried on

`castShadowRay` divides the accumulated colour by `lightCount`.  With no
shadow sample this is `0 / 0`: the program gets a `NaN` colour and carries on,
while `castRay` above has no value from there.  The definitions below are
the same two functions with that one quotient given a colour, so that runs
through scenes without light triangles can be followed to their end. -/

section Lenient

variable {F G : Type} [LinearOrderedField F]

/-- The function `Scene::castShadowRay(origin, normal)` as `castShadowRayWith`,
except for the quotient of line 208 when `lightCount` is `0`: with
`undefinedColor = some c` the colour `c` stands for the result of `0 / 0` and
is returned, with `none` the call has no value. -/
def castShadowRayLenient (env : Env F G) (scene : Scene F G)
    (cast : Ray F → Nat → G → Except FpError (CastResult F G))
    (undefinedColor : Option (Vec3 F))
    (origin : Vec4 F) (normal : Vec3 F) (gen : G) : Except FpError (ShadowResult F G) := do
  let st ← shadowLights env cast origin normal scene._lightSources
    { lightContribution := ⟨0, 0, 0⟩, lightCount := 0, lightArea := 0, gen := gen, calls := [] }
  if st.lightCount = 0 then
    match undefinedColor with
    | some c => .ok { color := c, gen := st.gen, lightCount := st.lightCount, calls := st.calls }
    | none => .error .divByZero
  else do
    let color ← st.lightContribution.divScalar (st.lightCount : F)
    .ok { color := color, gen := st.gen, lightCount := st.lightCount, calls := st.calls }

/-- The function `Scene::castRay(ray, depth)` as `castRay`, line for line, with
`castShadowRayLenient` for the two calls of `castShadowRay`. -/
def castRayLenient (env : Env F G) (scene : Scene F G) (undefinedColor : Option (Vec3 F)) :
    Nat → Ray F → Nat → G → Except FpError (CastResult F G)
  | 0, _, _, _ => .error .outOfFuel
  | fuel + 1, ray, depth, gen => do
    let ray ← scene.intersect ray
    if !ray.hasIntersection then
      .ok { hit := false, ray := ray, gen := gen, calls := [] }
    else if depth = SHADOW_DEPTH then
      .ok { hit := true, ray := ray, gen := gen, calls := [] }
    else
      match ray.intersectionMaterial with
      | Material.LAMBERTIAN => do
        let sh ← castShadowRayLenient env scene (castRayLenient env scene undefinedColor fuel)
          undefinedColor ray.intersectionPoint ray.intersectionNormal gen
        let lightContribution := sh.color
        let calls := Call.castShadowRay :: sh.calls
        let ray := ray.updateIntersection ray.closestIntersection ray.intersectionPoint
          (ray.color.mul lightContribution) ray.intersectionNormal ray.intersectionMaterial
        let alpha : F := 1 / 4
        let (u, gen) := env.randMinMax 0 1 sh.gen
        if 1 - alpha > u then do
          let (xi, gen) := env.randMinMax env.EPSILON (2 * env.M_PI - env.EPSILON) gen
          let (yj, gen) := env.randMinMax env.EPSILON (2 * env.M_PI - env.EPSILON) gen
          let globalCoordinates ← lambertianTarget env ray xi yj
          let reflectedRay := env.newRay
            (ray.intersectionPoint.add
              (Vec4.smul (1 / 1000) (globalCoordinates.sub ray.intersectionPoint)))
            globalCoordinates
          let res ← castRayLenient env scene undefinedColor fuel reflectedRay
            ((depth + 1) % 2 ^ 64) gen
          let reflectedRay := res.ray
          let REFLECTIVITY ← fdiv (8 / 10) (env.M_PI * ((depth : F) + 1))
          let ray := ray.updateIntersection ray.closestIntersection ray.intersectionPoint
            ((Vec3.smul (1 - REFLECTIVITY) ray.color).add
              (Vec3.smul REFLECTIVITY reflectedRay.color))
            ray.intersectionNormal ray.intersectionMaterial
          .ok { hit := true, ray := ray, gen := res.gen
                calls := calls ++ Call.castRay ((depth + 1) % 2 ^ 64) :: res.calls }
        else
          .ok { hit := true, ray := ray, gen := gen, calls := calls }
      | Material.PERFECT_REFLECTOR => do
        let sh ← castShadowRayLenient env scene (castRayLenient env scene undefinedColor fuel)
          undefinedColor ray.intersectionPoint ray.intersectionNormal gen
        let lightContribution := sh.color
        let calls := Call.castShadowRay :: sh.calls
        if depth < env.MAX_DEPTH then do
          let inDirection : Vec3 F := (ray.intersectionPoint.sub ray.start).xyz
          let outDirection : Vec3 F := inDirection.reflect ray.intersectionNormal
          let reflectedRay := env.newRay
            (ray.intersectionPoint.add
              (Vec4.smul (1 / 1000) ((outDirection.toVec4 1).sub ray.intersectionPoint)))
            (outDirection.toVec4 1)
          let res ← castRayLenient env scene undefinedColor fuel reflectedRay
            ((depth + 1) % 2 ^ 64) sh.gen
          let reflectedRay := res.ray
          let ray := ray.updateIntersection ray.closestIntersection ray.intersectionPoint
            ((Vec3.smul (2 / 10) lightContribution).add (Vec3.smul (8 / 10) reflectedRay.color))
            ray.intersectionNormal ray.intersectionMaterial
          .ok { hit := true, ray := ray, gen := res.gen
                calls := calls ++ Call.castRay ((depth + 1) % 2 ^ 64) :: res.calls }
        else
          let ray := ray.updateIntersection ray.closestIntersection ray.intersectionPoint
            lightContribution ray.intersectionNormal ray.intersectionMaterial
          .ok { hit := true, ray := ray, gen := sh.gen, calls := calls }
      | Material.LIGHT_SOURCE =>
        let LIGHT_EMISSION : F := 255
        let ray := ray.updateIntersection ray.closestIntersection ray.intersectionPoint
          (Vec3.smul LIGHT_EMISSION ray.color) ray.intersectionNormal ray.intersectionMaterial
        .ok { hit := true, ray := ray, gen := gen, calls := [] }

/-- The shadow rays that `castShadowRay` constructs (line 187), in order, for a
schedule of light triangles: each ends at the point drawn on its triangle. -/
def shadowRaysCast (env : Env F G) (origin : Vec4 F) (normal : Vec3 F) :
    List (Triangle F G) → G → List (Ray F)
  | [], _ => []
  | tri :: rest, gen =>
    env.newRay (shadowOrigin origin normal) (tri.getRandomPoint gen).1
      :: shadowRaysCast env origin normal rest (tri.getRandomPoint gen).2

end Lenient

/-! ## Example scenes with walls that keep nearer hits -/

section EnclosureExamples

variable {F : Type} [LinearOrderedField F]

/-- A primitive at distance `1` from every ray: it records its hit (material
`m`, point `(0, 0, 0)`, normal `+z`, white) unless the ray already carries a
hit at distance at most `1`, which it leaves untouched. -/
def hitIfNearer (m : Material) (r : Ray F) : Except FpError (Bool × Ray F) :=
  if r.hasIntersection = true ∧ r.closestIntersection ≤ 1 then .ok (false, r)
  else .ok (true, r.updateIntersection 1 ⟨0, 0, 0, 1⟩ ⟨1, 1, 1⟩ ⟨0, 0, 1⟩ m)

/-- A room triangle of material `m` that keeps nearer hits. -/
def nearerWallOf (m : Material) : Triangle F Unit :=
  { rayIntersection := hitIfNearer m, getArea := 1
    getRandomPoint := fun g => (⟨0, 0, 0, 1⟩, g) }

/-- An enclosure: one wall of material `m` that keeps nearer hits, no objects,
and the given light sources. -/
def enclosureOf (m : Material) (lights : List (LightSource F Unit)) : Scene F Unit :=
  { _triangles := [nearerWallOf m], _objects := [], _lightSources := lights }

/-- A light source with the given triangles that records a `LIGHT_SOURCE` hit
on every ray. -/
def brightLight (tris : List (Triangle F Unit)) : LightSource F Unit :=
  { rayIntersection := alwaysHit Material.LIGHT_SOURCE, getTriangles := tris }

/-- A scene with two light sources in view, of two triangles and of one
triangle (`N = 3`). -/
def litScene : Scene F Unit :=
  { _triangles := [], _objects := []
    _lightSources :=
      [brightLight [exampleLightTriangle, exampleLightTriangle],
       brightLight [exampleLightTriangle]] }

end EnclosureExamples

/-! # Theorems -/

section SolverLemmas

variable {F : Type} [LinearOrderedField F]

theorem swapIfGt_of_le {x y : F} (h : x ≤ y) : swapIfGt x y = (x, y) := by
  simp [swapIfGt, not_lt.mpr h]

theorem swapIfGt_of_gt {x y : F} (h : y < x) : swapIfGt x y = (y, x) := by
  simp [swapIfGt, h]

theorem swapIfGt_sorted (x y : F) : (swapIfGt x y).1 ≤ (swapIfGt x y).2 := by
  unfold swapIfGt
  split
  · rename_i h; exact le_of_lt h
  · rename_i h; exact not_lt.mp h

/-- Negative discriminant: the solver fails and does not touch `x0`, `x1`. -/
theorem solver_neg (sqrt : F → F) (ε a b c x0 x1 : F) (hD : b * b - 4 * a * c < 0) :
    stableQuadraticSolver sqrt ε a b c x0 x1 = .ok (false, x0, x1) := by
  simp [stableQuadraticSolver, hD]

/-- Discriminant in `[0, ε)`: the solver reports the repeated root `-b / (2a)`. -/
theorem solver_near (sqrt : F → F) (ε a b c x0 x1 : F) (ha : a ≠ 0)
    (hD : 0 ≤ b * b - 4 * a * c) (hε : b * b - 4 * a * c < ε) :
    stableQuadraticSolver sqrt ε a b c x0 x1
      = .ok (true, -(1 / 2) * b / a, -(1 / 2) * b / a) := by
  have h1 : ¬ (b * b - 4 * a * c < 0) := not_lt.mpr hD
  have h2 : |b * b - 4 * a * c| < ε := by rwa [abs_of_nonneg hD]
  simp only [stableQuadraticSolver, h1, h2, if_true, if_false, fdiv, ha, swapIfGt]
  simp [bind, Except.bind]

/-- Discriminant at least `ε > 0`: the solver reports the two textbook roots,
smaller first; `s` is the value of `sqrt` at the discriminant. -/
theorem solver_far (sqrt : F → F) (ε a b c x0 x1 s : F) (ha : 0 < a) (hε : 0 < ε)
    (hD : ε ≤ b * b - 4 * a * c) (hsq : sqrt (b * b - 4 * a * c) = s)
    (hs : 0 ≤ s) (hss : s * s = b * b - 4 * a * c) :
    stableQuadraticSolver sqrt ε a b c x0 x1
      = .ok (true, (-b - s) / (2 * a), (-b + s) / (2 * a)) := by
  have hD0 : 0 < b * b - 4 * a * c := lt_of_lt_of_le hε hD
  have h1 : ¬ (b * b - 4 * a * c < 0) := not_lt.mpr hD0.le
  have h2 : ¬ (|b * b - 4 * a * c| < ε) := by
    rw [abs_of_pos hD0]; exact not_lt.mpr hD
  have hs0 : 0 < s := by
    rcases hs.lt_or_eq with h | h
    · exact h
    · rw [← h] at hss; simp at hss; rw [← hss] at hD0; exact absurd hD0 (lt_irrefl _)
  have ha0 : a ≠ 0 := ha.ne'
  have h2a : (2 * a) ≠ 0 := by positivity
  simp only [stableQuadraticSolver, h1, h2, if_false, fsqrt, fdiv, ha0, hsq]
  by_cases hb : b > 0
  · have hq : -(1 / 2) * (b + s) ≠ 0 := by
      have : 0 < b + s := by linarith
      intro h; linarith
    have e0 : -(1 / 2) * (b + s) / a = (-b - s) / (2 * a) := by
      rw [div_eq_div_iff ha0 h2a]; ring
    have e1 : c / (-(1 / 2) * (b + s)) = (-b + s) / (2 * a) := by
      rw [div_eq_div_iff hq h2a]
      linear_combination (1 / 2) * hss
    have hle : (-b - s) / (2 * a) ≤ (-b + s) / (2 * a) := by
      apply div_le_div_of_nonneg_right _ (by linarith)
      linarith
    simp only [bind, Except.bind, hb, hq, e0, e1, swapIfGt_of_le hle, if_true, if_false]
  · have hb' : b ≤ 0 := not_lt.mp hb
    have hq : -(1 / 2) * (b - s) ≠ 0 := by
      intro h; linarith
    have e0 : -(1 / 2) * (b - s) / a = (-b + s) / (2 * a) := by
      rw [div_eq_div_iff ha0 h2a]; ring
    have e1 : c / (-(1 / 2) * (b - s)) = (-b - s) / (2 * a) := by
      rw [div_eq_div_iff hq h2a]
      linear_combination (1 / 2) * hss
    have hlt : (-b - s) / (2 * a) < (-b + s) / (2 * a) := by
      apply div_lt_div_of_pos_right _ (by linarith)
      linarith
    simp only [bind, Except.bind, hb, hq, e0, e1, swapIfGt_of_gt hlt, if_true, if_false]

/-- The far branch at `ℝ` with `Real.sqrt`. -/
theorem solver_far_real (ε a b c x0 x1 : ℝ) (ha : 0 < a) (hε : 0 < ε)
    (hD : ε ≤ b * b - 4 * a * c) :
    stableQuadraticSolver Real.sqrt ε a b c x0 x1
      = .ok (true, (-b - Real.sqrt (b * b - 4 * a * c)) / (2 * a),
          (-b + Real.sqrt (b * b - 4 * a * c)) / (2 * a)) :=
  solver_far Real.sqrt ε a b c x0 x1 _ ha hε hD rfl (Real.sqrt_nonneg _)
    (Real.mul_self_sqrt (le_trans hε.le hD))

end SolverLemmas

/-! ## The root solver -/

/-- C3. For real `a > 0`, `b`, `c` the solver returns `false` exactly when the
discriminant `b^2 - 4ac` is negative; when it returns `false` the output
parameters keep the values they had, and when the discriminant is
non-negative it returns `true`. -/
theorem solver_false_iff_discriminant_neg (ε a b c x0 x1 : ℝ) (ha : 0 < a) (hε : 0 < ε) :
    ∃ ok y0 y1, stableQuadraticSolver Real.sqrt ε a b c x0 x1 = .ok (ok, y0, y1) ∧
      (ok = false ↔ b ^ 2 - 4 * a * c < 0) ∧
      (ok = false → y0 = x0 ∧ y1 = x1) ∧
      (0 ≤ b ^ 2 - 4 * a * c → ok = true) := by
  have hsq : b ^ 2 - 4 * a * c = b * b - 4 * a * c := by ring
  rw [hsq]
  rcases lt_or_le (b * b - 4 * a * c) 0 with hneg | hnn
  · exact ⟨false, x0, x1, solver_neg _ _ _ _ _ _ _ hneg, by simp [hneg], by simp,
      fun h => absurd hneg (not_lt.mpr h)⟩
  · rcases lt_or_le (b * b - 4 * a * c) ε with hlt | hge
    · exact ⟨true, _, _, solver_near _ _ _ _ _ _ _ ha.ne' hnn hlt,
        by simp [not_lt.mpr hnn], by simp, fun _ => rfl⟩
    · exact ⟨true, _, _, solver_far_real _ _ _ _ _ _ ha hε hge,
        by simp [not_lt.mpr hnn], by simp, fun _ => rfl⟩

/-- Witness for C3 at `a = 1`, `b = 0`, `c = 1` (discriminant `-4`). -/
theorem solver_false_iff_discriminant_neg_witness :
    (0 : ℝ) < 1 ∧ (0 : ℝ) < 1 / 1000 ∧
    ∃ ok y0 y1, stableQuadraticSolver Real.sqrt (1 / 1000) 1 0 1 7 8 = .ok (ok, y0, y1) ∧
      (ok = false ↔ (0 : ℝ) ^ 2 - 4 * 1 * 1 < 0) ∧
      (ok = false → y0 = 7 ∧ y1 = 8) ∧
      ((0 : ℝ) ≤ 0 ^ 2 - 4 * 1 * 1 → ok = true) :=
  ⟨by norm_num, by norm_num,
    solver_false_iff_discriminant_neg (1 / 1000) 1 0 1 7 8 (by norm_num) (by norm_num)⟩

/-- C4. For real `a > 0`, `b`, `c` with `b^2 - 4ac ≥ 0` the solver succeeds and
the values it returns satisfy `x0 ≤ x1`, in the repeated-root branch and in
the `q` branch alike. -/
theorem solver_roots_ordered (ε a b c x0 x1 : ℝ) (ha : 0 < a) (hε : 0 < ε)
    (hD : 0 ≤ b ^ 2 - 4 * a * c) :
    ∃ y0 y1, stableQuadraticSolver Real.sqrt ε a b c x0 x1 = .ok (true, y0, y1) ∧ y0 ≤ y1 := by
  have hsq : b ^ 2 - 4 * a * c = b * b - 4 * a * c := by ring
  rw [hsq] at hD
  rcases lt_or_le (b * b - 4 * a * c) ε with hlt | hge
  · exact ⟨_, _, solver_near _ _ _ _ _ _ _ ha.ne' hD hlt, le_refl _⟩
  · refine ⟨_, _, solver_far_real _ _ _ _ _ _ ha hε hge, ?_⟩
    apply div_le_div_of_nonneg_right _ (by linarith)
    have := Real.sqrt_nonneg (b * b - 4 * a * c)
    linarith

/-- Witness for C4 at `a = 1`, `b = -2`, `c = 0` (discriminant `4`). -/
theorem solver_roots_ordered_witness :
    (0 : ℝ) < 1 ∧ (0 : ℝ) < 1 / 1000 ∧ (0 : ℝ) ≤ (-2) ^ 2 - 4 * 1 * 0 ∧
    ∃ y0 y1, stableQuadraticSolver Real.sqrt (1 / 1000) 1 (-2) 0 7 8 = .ok (true, y0, y1) ∧
      y0 ≤ y1 :=
  ⟨by norm_num, by norm_num, by norm_num,
    solver_roots_ordered (1 / 1000) 1 (-2) 0 7 8 (by norm_num) (by norm_num) (by norm_num)⟩

/-- C5. For real `a > 0`, `b`, `c` with `D = b^2 - 4ac ≥ 0`, each value `x` the
solver returns has residual `a x^2 + b x + c` equal to `0` when `D = 0` or
`D ≥ EPSILON`; in the remaining branch `0 < D < EPSILON` the residual has
magnitude `D / (4a)`, which is below `EPSILON / (4a)`. -/
theorem solver_residual (ε a b c x0 x1 : ℝ) (ha : 0 < a) (hε : 0 < ε)
    (hD : 0 ≤ b ^ 2 - 4 * a * c) :
    ∃ y0 y1, stableQuadraticSolver Real.sqrt ε a b c x0 x1 = .ok (true, y0, y1) ∧
      ((b ^ 2 - 4 * a * c = 0 ∨ ε ≤ b ^ 2 - 4 * a * c) →
        a * y0 ^ 2 + b * y0 + c = 0 ∧ a * y1 ^ 2 + b * y1 + c = 0) ∧
      (0 < b ^ 2 - 4 * a * c → b ^ 2 - 4 * a * c < ε →
        |a * y0 ^ 2 + b * y0 + c| = (b ^ 2 - 4 * a * c) / (4 * a) ∧
        |a * y1 ^ 2 + b * y1 + c| = (b ^ 2 - 4 * a * c) / (4 * a) ∧
        (b ^ 2 - 4 * a * c) / (4 * a) < ε / (4 * a)) := by
  have hsq : b ^ 2 - 4 * a * c = b * b - 4 * a * c := by ring
  rw [hsq] at hD ⊢
  have ha0 : a ≠ 0 := ha.ne'
  have h4a : 0 < 4 * a := by linarith
  rcases lt_or_le (b * b - 4 * a * c) ε with hlt | hge
  · -- repeated-root branch: the residual is `-D / (4a)`
    have hres : a * (-(1 / 2) * b / a) ^ 2 + b * (-(1 / 2) * b / a) + c
        = -((b * b - 4 * a * c) / (4 * a)) := by
      field_simp; ring
    refine ⟨_, _, solver_near _ _ _ _ _ _ _ ha0 hD hlt, ?_, ?_⟩
    · rintro (h0 | hε')
      · rw [hres, h0]; simp
      · exact absurd hlt (not_lt.mpr hε')
    · intro hpos _
      have hq : 0 ≤ (b * b - 4 * a * c) / (4 * a) := div_nonneg hD h4a.le
      rw [hres, abs_neg, abs_of_nonneg hq]
      exact ⟨rfl, rfl, div_lt_div_of_pos_right hlt h4a⟩
  · -- `q` branch: both values are exact roots
    have hss := Real.mul_self_sqrt (le_trans hε.le hge)
    refine ⟨_, _, solver_far_real _ _ _ _ _ _ ha hε hge, ?_, ?_⟩
    · intro _
      generalize Real.sqrt (b * b - 4 * a * c) = s at hss
      constructor
      · field_simp
        linear_combination ((2 : ℝ) * a ^ 2) * hss
      · field_simp
        linear_combination ((2 : ℝ) * a ^ 2) * hss
    · intro _ hlt
      exact absurd hlt (not_lt.mpr hge)

/-- Witness for C5 at `a = 1`, `b = -2`, `c = 0` (discriminant `4`). -/
theorem solver_residual_witness :
    (0 : ℝ) < 1 ∧ (0 : ℝ) < 1 / 1000 ∧ (0 : ℝ) ≤ (-2) ^ 2 - 4 * 1 * 0 ∧
    ∃ y0 y1, stableQuadraticSolver Real.sqrt (1 / 1000) 1 (-2) 0 7 8 = .ok (true, y0, y1) ∧
      (((-2 : ℝ) ^ 2 - 4 * 1 * 0 = 0 ∨ 1 / 1000 ≤ (-2 : ℝ) ^ 2 - 4 * 1 * 0) →
        1 * y0 ^ 2 + (-2) * y0 + 0 = 0 ∧ 1 * y1 ^ 2 + (-2) * y1 + 0 = 0) ∧
      (0 < (-2 : ℝ) ^ 2 - 4 * 1 * 0 → (-2 : ℝ) ^ 2 - 4 * 1 * 0 < 1 / 1000 →
        |1 * y0 ^ 2 + (-2) * y0 + 0| = ((-2) ^ 2 - 4 * 1 * 0) / (4 * 1) ∧
        |1 * y1 ^ 2 + (-2) * y1 + 0| = ((-2) ^ 2 - 4 * 1 * 0) / (4 * 1) ∧
        ((-2 : ℝ) ^ 2 - 4 * 1 * 0) / (4 * 1) < 1 / 1000 / (4 * 1)) :=
  ⟨by norm_num, by norm_num, by norm_num,
    solver_residual (1 / 1000) 1 (-2) 0 7 8 (by norm_num) (by norm_num) (by norm_num)⟩

/-! ## The sphere -/

section SphereLemmas

variable {F : Type} [LinearOrderedField F]

/-- The sphere test runs the solver on `a = 1`, `coeffB`, `coeffC`; when the
solver fails the sphere reports a miss and the ray is the one passed in. -/
theorem rayIntersection_of_solver_false (sqrt : F → F) (ε : F) (s : ImplicitSphere F)
    (r : Ray F) (y0 y1 : F)
    (h : stableQuadraticSolver sqrt ε 1 (s.coeffB r) (s.coeffC r) 0 0 = .ok (false, y0, y1)) :
    s.rayIntersection sqrt ε r = .ok (false, r) := by
  simp only [ImplicitSphere.coeffB, ImplicitSphere.coeffC, ImplicitSphere.offset] at h
  simp [ImplicitSphere.rayIntersection, h, bind, Except.bind]

/-- When the solver succeeds with `y0 ≤ y1`, the sphere reports a hit exactly
when the selected root (`y0` if it is non-negative, else `y1`) is at least
`ε`; the ray is the one passed in. -/
theorem rayIntersection_of_solver_true (sqrt : F → F) (ε : F) (s : ImplicitSphere F)
    (r : Ray F) (y0 y1 : F) (hε : 0 ≤ ε) (hle : y0 ≤ y1)
    (h : stableQuadraticSolver sqrt ε 1 (s.coeffB r) (s.coeffC r) 0 0 = .ok (true, y0, y1)) :
    s.rayIntersection sqrt ε r = .ok (decide (ε ≤ if 0 ≤ y0 then y0 else y1), r) := by
  simp only [ImplicitSphere.coeffB, ImplicitSphere.coeffC, ImplicitSphere.offset] at h
  simp only [ImplicitSphere.rayIntersection, h, bind, Except.bind, swapIfGt_of_le hle]
  by_cases h0 : y0 < 0
  · have h0' : ¬ (0 ≤ y0) := not_le.mpr h0
    by_cases h1 : y1 < 0
    · have : ¬ (ε ≤ y1) := fun h => absurd (lt_of_le_of_lt (le_trans hε h) h1) (lt_irrefl _)
      simp [h0, h0', h1, this]
    · have h1' : 0 ≤ y1 := not_lt.mp h1
      by_cases h2 : y1 < ε
      · simp [h0, h0', h1, abs_of_nonneg h1', h2]
      · simp [h0, h0', h1, abs_of_nonneg h1', h2, not_lt.mp h2]
  · have h0' : 0 ≤ y0 := not_lt.mp h0
    by_cases h2 : y0 < ε
    · simp [h0, h0', abs_of_nonneg h0', h2]
    · simp [h0, h0', abs_of_nonneg h0', h2, not_lt.mp h2]

end SphereLemmas

/-- The three cases of `rayIntersection` over `ℝ`, by the discriminant
`D = b^2 - 4c` of the intersection quadratic. -/
theorem rayIntersection_real (ε : ℝ) (s : ImplicitSphere ℝ) (r : Ray ℝ) (hε : 0 < ε) :
    (s.coeffB r * s.coeffB r - 4 * 1 * s.coeffC r < 0 →
      s.rayIntersection Real.sqrt ε r = .ok (false, r)) ∧
    (0 ≤ s.coeffB r * s.coeffB r - 4 * 1 * s.coeffC r →
      s.coeffB r * s.coeffB r - 4 * 1 * s.coeffC r < ε →
      s.rayIntersection Real.sqrt ε r = .ok (decide (ε ≤ -(1 / 2) * s.coeffB r / 1), r)) ∧
    (ε ≤ s.coeffB r * s.coeffB r - 4 * 1 * s.coeffC r →
      s.rayIntersection Real.sqrt ε r = .ok (decide (ε ≤
        if 0 ≤ (-s.coeffB r - Real.sqrt (s.coeffB r * s.coeffB r - 4 * 1 * s.coeffC r)) / (2 * 1)
        then (-s.coeffB r - Real.sqrt (s.coeffB r * s.coeffB r - 4 * 1 * s.coeffC r)) / (2 * 1)
        else (-s.coeffB r + Real.sqrt (s.coeffB r * s.coeffB r - 4 * 1 * s.coeffC r)) / (2 * 1)),
        r)) := by
  refine ⟨fun hneg => ?_, fun hnn hlt => ?_, fun hge => ?_⟩
  · exact rayIntersection_of_solver_false _ _ _ _ _ _ (solver_neg _ _ _ _ _ _ _ hneg)
  · have h := rayIntersection_of_solver_true Real.sqrt ε s r _ _ hε.le (le_refl _)
      (solver_near Real.sqrt ε 1 _ _ 0 0 one_ne_zero hnn hlt)
    simpa using h
  · have hs := Real.sqrt_nonneg (s.coeffB r * s.coeffB r - 4 * 1 * s.coeffC r)
    exact rayIntersection_of_solver_true Real.sqrt ε s r _ _ hε.le
      (div_le_div_of_nonneg_right (by linarith) (by norm_num))
      (solver_far_real ε 1 _ _ 0 0 one_pos hε hge)

/-- The solver and the sphere test over `ℝ`: the solver returns (with sorted
values), and the sphere reports a hit exactly when the solver succeeded and
the selected root is at least `ε`; the ray is the one passed in. -/
theorem rayIntersection_with_solver (ε : ℝ) (s : ImplicitSphere ℝ) (r : Ray ℝ) (hε : 0 < ε) :
    ∃ solved y0 y1,
      stableQuadraticSolver Real.sqrt ε 1 (s.coeffB r) (s.coeffC r) 0 0
        = .ok (solved, y0, y1) ∧ y0 ≤ y1 ∧
      s.rayIntersection Real.sqrt ε r
        = .ok (solved && decide (ε ≤ if 0 ≤ y0 then y0 else y1), r) := by
  rcases lt_or_le (s.coeffB r * s.coeffB r - 4 * 1 * s.coeffC r) 0 with hneg | hnn
  · have hsolve := solver_neg Real.sqrt ε 1 (s.coeffB r) (s.coeffC r) 0 0 hneg
    exact ⟨false, 0, 0, hsolve, le_refl _, by
      rw [rayIntersection_of_solver_false _ _ _ _ _ _ hsolve]; rfl⟩
  · rcases lt_or_le (s.coeffB r * s.coeffB r - 4 * 1 * s.coeffC r) ε with hlt | hge
    · have hsolve := solver_near Real.sqrt ε 1 (s.coeffB r) (s.coeffC r) 0 0 one_ne_zero hnn hlt
      exact ⟨true, _, _, hsolve, le_refl _, by
        rw [rayIntersection_of_solver_true _ _ _ _ _ _ hε.le (le_refl _) hsolve]; rfl⟩
    · have hs := Real.sqrt_nonneg (s.coeffB r * s.coeffB r - 4 * 1 * s.coeffC r)
      have hsolve := solver_far_real ε 1 (s.coeffB r) (s.coeffC r) 0 0 one_pos hε hge
      have hle : (-s.coeffB r - Real.sqrt (s.coeffB r * s.coeffB r - 4 * 1 * s.coeffC r))
          / (2 * 1)
          ≤ (-s.coeffB r + Real.sqrt (s.coeffB r * s.coeffB r - 4 * 1 * s.coeffC r))
          / (2 * 1) :=
        div_le_div_of_nonneg_right (by linarith) (by norm_num)
      exact ⟨true, _, _, hsolve, hle, by
        rw [rayIntersection_of_solver_true _ _ _ _ _ _ hε.le hle hsolve]; rfl⟩

/-- C8. `rayIntersection` returns `true` exactly when the root solver succeeds
and the selected root (the smaller root if it is non-negative, otherwise the
larger one) is at least `EPSILON`, so a reported hit is never at a
non-positive or near-zero distance.  It returns `false` when the solver
fails, when both roots are negative, and when the selected root is within
`EPSILON` of zero; whenever it returns `false` the ray is unchanged. -/
theorem sphere_hit_iff_selected_root (ε : ℝ) (s : ImplicitSphere ℝ) (r : Ray ℝ) (hε : 0 < ε) :
    ∃ ok r' solved y0 y1,
      s.rayIntersection Real.sqrt ε r = .ok (ok, r') ∧
      stableQuadraticSolver Real.sqrt ε 1 (s.coeffB r) (s.coeffC r) 0 0
        = .ok (solved, y0, y1) ∧
      y0 ≤ y1 ∧
      (ok = true ↔ solved = true ∧ ε ≤ (if 0 ≤ y0 then y0 else y1)) ∧
      (ok = true → 0 < (if 0 ≤ y0 then y0 else y1) ∧ ¬ |if 0 ≤ y0 then y0 else y1| < ε) ∧
      (solved = false → ok = false) ∧
      (y0 < 0 → y1 < 0 → ok = false) ∧
      (|if 0 ≤ y0 then y0 else y1| < ε → ok = false) ∧
      (ok = false → r' = r) := by
  obtain ⟨solved, y0, y1, hsolve, hle, hres⟩ := rayIntersection_with_solver ε s r hε
  refine ⟨_, r, solved, y0, y1, hres, hsolve, hle, ?_, ?_, ?_, ?_, ?_, fun _ => rfl⟩
  · simp
  · intro h
    simp only [Bool.and_eq_true, decide_eq_true_eq] at h
    have hpos : 0 < (if 0 ≤ y0 then y0 else y1) := lt_of_lt_of_le hε h.2
    exact ⟨hpos, by rw [abs_of_pos hpos]; exact not_lt.mpr h.2⟩
  · intro h; simp [h]
  · intro h0 h1
    have hsel : ¬ ε ≤ (if 0 ≤ y0 then y0 else y1) := by
      rw [if_neg (not_le.mpr h0)]; intro h; linarith
    simp [hsel]
  · intro h
    have hsel : ¬ ε ≤ (if 0 ≤ y0 then y0 else y1) := by
      intro h'; exact absurd (lt_of_le_of_lt (le_abs_self _) h) (not_lt.mpr h')
    simp [hsel]

/-- The square root of a square of a non-negative real. -/
theorem sqrt_of_mul_self {x s : ℝ} (hs : 0 ≤ s) (h : x = s * s) : Real.sqrt x = s := by
  rw [h]; exact Real.sqrt_mul_self hs

/-- C1 (the code at a failing input). `zRay` meets `sphereAhead` at distances
`4` and `6`; `rayIntersection` returns `true`, and the ray it leaves behind is
the ray it was given: the hit flag is still clear and the nearest-hit distance
is still `1000`, not `4`. -/
theorem sphere_hit_not_recorded :
    (sphereAhead : ImplicitSphere ℝ).rayIntersection Real.sqrt (1 / 1000) zRay
      = .ok (true, zRay) ∧
    stableQuadraticSolver Real.sqrt (1 / 1000) 1
      ((sphereAhead : ImplicitSphere ℝ).coeffB zRay) ((sphereAhead : ImplicitSphere ℝ).coeffC zRay)
      0 0 = .ok (true, 4, 6) ∧
    (zRay : Ray ℝ).hasIntersection = false ∧
    (zRay : Ray ℝ).closestIntersection = 1000 := by
  have hb : (sphereAhead : ImplicitSphere ℝ).coeffB zRay = -10 := by
    norm_num [ImplicitSphere.coeffB, ImplicitSphere.offset, Vec3.dot, Vec4.sub, Vec4.xyz, zRay,
      rayWithoutHit, sphereAhead]
  have hc : (sphereAhead : ImplicitSphere ℝ).coeffC zRay = 24 := by
    norm_num [ImplicitSphere.coeffC, ImplicitSphere.offset, Vec3.dot, Vec4.sub, Vec4.xyz, zRay,
      rayWithoutHit, sphereAhead]
  have hsolve : stableQuadraticSolver Real.sqrt (1 / 1000) 1
      ((sphereAhead : ImplicitSphere ℝ).coeffB zRay)
      ((sphereAhead : ImplicitSphere ℝ).coeffC zRay) 0 0 = .ok (true, 4, 6) := by
    rw [hb, hc]
    have h := solver_far Real.sqrt (1 / 1000) 1 (-10) 24 0 0 2 (by norm_num) (by norm_num)
      (by norm_num) (sqrt_of_mul_self (by norm_num) (by norm_num)) (by norm_num) (by norm_num)
    rw [h]; norm_num
  refine ⟨?_, hsolve, rfl, rfl⟩
  have h := rayIntersection_of_solver_true Real.sqrt (1 / 1000) sphereAhead zRay 4 6
    (by norm_num) (by norm_num) hsolve
  rw [h]; norm_num

/-- The sphere test over `ℝ` in terms of the discriminant and the two roots
of the sphere's quadratic. -/
theorem rayIntersection_by_roots (ε : ℝ) (s : ImplicitSphere ℝ) (r : Ray ℝ) (hε : 0 < ε) :
    (s.discriminant r < 0 → s.rayIntersection Real.sqrt ε r = .ok (false, r)) ∧
    (0 ≤ s.discriminant r → s.discriminant r < ε →
      s.rayIntersection Real.sqrt ε r = .ok (decide (ε ≤ -(s.coeffB r / 2)), r)) ∧
    (ε ≤ s.discriminant r →
      s.rayIntersection Real.sqrt ε r = .ok (decide (ε ≤
        if 0 ≤ s.nearRoot Real.sqrt r then s.nearRoot Real.sqrt r
        else s.farRoot Real.sqrt r), r)) := by
  obtain ⟨h1, h2, h3⟩ := rayIntersection_real ε s r hε
  refine ⟨h1, fun hnn hlt => ?_, h3⟩
  have e : -(1 / 2) * s.coeffB r / 1 = -(s.coeffB r / 2) := by ring
  rw [← e]
  exact h2 hnn hlt

/-- A ray aimed at the centre from distance `dist`: the coefficients of the
sphere's quadratic are `b = -2 dist` and `c = dist^2 - R^2`. -/
theorem through_centre_coeffs (s : ImplicitSphere ℝ) (r : Ray ℝ) (R dist : ℝ)
    (hpos : 0 < dist) (hRs : s.radiusSquared = R * R)
    (hdist : (s.offset r).dot (s.offset r) = dist * dist)
    (hdir : r.direction = Vec3.smul (1 / dist) (Vec3.neg (s.offset r))) :
    s.coeffB r = -(2 * dist) ∧ s.coeffC r = dist * dist - R * R ∧
    s.discriminant r = (2 * R) * (2 * R) := by
  have hb : s.coeffB r = -(2 * dist) := by
    have e : r.direction.dot (s.offset r) = -(1 / dist) * ((s.offset r).dot (s.offset r)) := by
      rw [hdir]; simp only [Vec3.dot, Vec3.smul, Vec3.neg]; ring
    simp only [ImplicitSphere.coeffB, e, hdist]
    field_simp
    ring
  have hc : s.coeffC r = dist * dist - R * R := by
    simp only [ImplicitSphere.coeffC, hdist, hRs]
  refine ⟨hb, hc, ?_⟩
  simp only [ImplicitSphere.discriminant, hb, hc]; ring

/-- The solver and the sphere on a ray aimed at the centre from at least
`R + ε` away. -/
theorem through_centre_eval (ε : ℝ) (s : ImplicitSphere ℝ) (r : Ray ℝ) (R dist : ℝ)
    (hε : 0 < ε) (hR : 0 ≤ R) (hRs : s.radiusSquared = R * R)
    (hdist : (s.offset r).dot (s.offset r) = dist * dist)
    (hdir : r.direction = Vec3.smul (1 / dist) (Vec3.neg (s.offset r)))
    (hout : R + ε ≤ dist) :
    s.rayIntersection Real.sqrt ε r = .ok (true, r) ∧
    (ε ≤ 4 * R * R →
      stableQuadraticSolver Real.sqrt ε 1 (s.coeffB r) (s.coeffC r) 0 0
        = .ok (true, dist - R, dist + R)) ∧
    (4 * R * R < ε →
      stableQuadraticSolver Real.sqrt ε 1 (s.coeffB r) (s.coeffC r) 0 0
        = .ok (true, dist, dist)) := by
  have hpos : 0 < dist := by linarith
  obtain ⟨hb, hc, hD⟩ := through_centre_coeffs s r R dist hpos hRs hdist hdir
  have hD' : s.coeffB r * s.coeffB r - 4 * 1 * s.coeffC r = (2 * R) * (2 * R) := hD
  have hfar : ε ≤ 4 * R * R →
      stableQuadraticSolver Real.sqrt ε 1 (s.coeffB r) (s.coeffC r) 0 0
        = .ok (true, dist - R, dist + R) := by
    intro hge
    have h := solver_far Real.sqrt ε 1 (s.coeffB r) (s.coeffC r) 0 0 (2 * R) one_pos hε
      (by rw [hD']; linarith) (sqrt_of_mul_self (by linarith) hD') (by linarith) hD'.symm
    rw [h, hb]
    have e0 : (- -(2 * dist) - 2 * R) / (2 * 1) = dist - R := by ring
    have e1 : (- -(2 * dist) + 2 * R) / (2 * 1) = dist + R := by ring
    rw [e0, e1]
  have hnear : 4 * R * R < ε →
      stableQuadraticSolver Real.sqrt ε 1 (s.coeffB r) (s.coeffC r) 0 0
        = .ok (true, dist, dist) := by
    intro hlt
    have h := solver_near Real.sqrt ε 1 (s.coeffB r) (s.coeffC r) 0 0 one_ne_zero
      (by rw [hD']; nlinarith) (by rw [hD']; linarith)
    rw [h, hb]
    have e0 : -(1 / 2) * -(2 * dist) / 1 = dist := by ring
    rw [e0]
  refine ⟨?_, hfar, hnear⟩
  rcases le_or_lt ε (4 * R * R) with hge | hlt
  · have h := rayIntersection_of_solver_true Real.sqrt ε s r _ _ hε.le (by linarith) (hfar hge)
    rw [h]
    have h0 : 0 ≤ dist - R := by linarith
    have h1 : ε ≤ dist - R := by linarith
    simp [h0, h1]
  · have h := rayIntersection_of_solver_true Real.sqrt ε s r _ _ hε.le (le_refl _) (hnear hlt)
    rw [h]
    have h1 : ε ≤ dist := by linarith
    simp [hpos.le, h1]

/-- C7, as the code has it. For every sphere (centre `C`, radius `R ≥ 0`) and
every ray whose origin lies at least `EPSILON` outside the sphere
(`|O - C| ≥ R + EPSILON`) and whose unit direction points from `O` at `C`, the
solver succeeds with two positive root candidates and `rayIntersection`
returns `true`; the candidates are `|O - C| - R` and `|O - C| + R` when
`4 R^2 ≥ EPSILON`, and twice `|O - C|` when `4 R^2 < EPSILON`. -/
theorem ray_through_centre_hits (ε : ℝ) (s : ImplicitSphere ℝ) (r : Ray ℝ) (R dist : ℝ)
    (hε : 0 < ε) (hR : 0 ≤ R) (hRs : s.radiusSquared = R * R)
    (hdist : (s.offset r).dot (s.offset r) = dist * dist)
    (hdir : r.direction = Vec3.smul (1 / dist) (Vec3.neg (s.offset r)))
    (hout : R + ε ≤ dist) :
    (∃ r', s.rayIntersection Real.sqrt ε r = .ok (true, r')) ∧
    ∃ y0 y1, stableQuadraticSolver Real.sqrt ε 1 (s.coeffB r) (s.coeffC r) 0 0
        = .ok (true, y0, y1) ∧ 0 < y0 ∧ 0 < y1 ∧
      (ε ≤ 4 * R * R → y0 = dist - R ∧ y1 = dist + R) ∧
      (4 * R * R < ε → y0 = dist ∧ y1 = dist) := by
  obtain ⟨hhit, hfar, hnear⟩ := through_centre_eval ε s r R dist hε hR hRs hdist hdir hout
  refine ⟨⟨r, hhit⟩, ?_⟩
  rcases le_or_lt ε (4 * R * R) with hge | hlt
  · exact ⟨_, _, hfar hge, by linarith, by linarith, fun _ => ⟨rfl, rfl⟩,
      fun h => absurd h (not_lt.mpr hge)⟩
  · exact ⟨_, _, hnear hlt, by linarith, by linarith, fun h => absurd h (not_le.mpr hlt),
      fun _ => ⟨rfl, rfl⟩⟩

/-- Witness for C7: `zRayFrom 5` is aimed at the centre of the unit sphere
about the origin from distance `5`. -/
theorem ray_through_centre_hits_witness :
    (0 : ℝ) < 1 / 1000 ∧ (0 : ℝ) ≤ 1 ∧ (1 : ℝ) + 1 / 1000 ≤ 5 ∧
    (∃ r', (sphereAtOrigin 1 : ImplicitSphere ℝ).rayIntersection Real.sqrt (1 / 1000)
      (zRayFrom 5) = .ok (true, r')) ∧
    ∃ y0 y1, stableQuadraticSolver Real.sqrt (1 / 1000) 1
        ((sphereAtOrigin 1 : ImplicitSphere ℝ).coeffB (zRayFrom 5))
        ((sphereAtOrigin 1 : ImplicitSphere ℝ).coeffC (zRayFrom 5)) 0 0
        = .ok (true, y0, y1) ∧ 0 < y0 ∧ 0 < y1 ∧
      ((1 / 1000 : ℝ) ≤ 4 * 1 * 1 → y0 = 5 - 1 ∧ y1 = 5 + 1) ∧
      ((4 : ℝ) * 1 * 1 < 1 / 1000 → y0 = 5 ∧ y1 = 5) :=
  ⟨by norm_num, by norm_num, by norm_num,
    ray_through_centre_hits (1 / 1000) (sphereAtOrigin 1) (zRayFrom 5) 1 5
      (by norm_num) (by norm_num) (by simp [sphereAtOrigin])
      (by norm_num [ImplicitSphere.offset, Vec3.dot, Vec4.sub, Vec4.xyz, zRayFrom,
        rayWithoutHit, sphereAtOrigin])
      (by norm_num [ImplicitSphere.offset, Vec3.smul, Vec3.neg, Vec4.sub, Vec4.xyz, zRayFrom,
        rayWithoutHit, sphereAtOrigin])
      (by norm_num)⟩

/-- The unit sphere about the origin and the ray aimed at its centre from
distance `1 + ε / 2`: the ray is reported as a miss, whatever `ε > 0` is. -/
theorem near_surface_eval (ε : ℝ) (hε : 0 < ε) :
    (sphereAtOrigin 1 : ImplicitSphere ℝ).rayIntersection Real.sqrt ε (zRayFrom (1 + ε / 2))
      = .ok (false, zRayFrom (1 + ε / 2)) := by
  have hb : (sphereAtOrigin 1 : ImplicitSphere ℝ).coeffB (zRayFrom (1 + ε / 2)) = -(2 + ε) := by
    simp only [ImplicitSphere.coeffB, ImplicitSphere.offset, Vec3.dot, Vec4.sub, Vec4.xyz,
      zRayFrom, rayWithoutHit, sphereAtOrigin]
    ring
  have hD : (sphereAtOrigin 1 : ImplicitSphere ℝ).discriminant (zRayFrom (1 + ε / 2))
      = 2 * 2 := by
    simp only [ImplicitSphere.discriminant, ImplicitSphere.coeffB, ImplicitSphere.coeffC,
      ImplicitSphere.offset, Vec3.dot, Vec4.sub, Vec4.xyz, zRayFrom, rayWithoutHit,
      sphereAtOrigin]
    ring
  obtain ⟨_, hnear, hfar⟩ := rayIntersection_by_roots ε (sphereAtOrigin 1)
    (zRayFrom (1 + ε / 2)) hε
  rcases le_or_lt ε 4 with hge | hlt
  · have hroot : (sphereAtOrigin 1 : ImplicitSphere ℝ).nearRoot Real.sqrt
        (zRayFrom (1 + ε / 2)) = ε / 2 := by
      simp only [ImplicitSphere.nearRoot, hb, hD,
        sqrt_of_mul_self (show (0 : ℝ) ≤ 2 by norm_num) rfl]
      ring
    rw [hfar (by rw [hD]; linarith), hroot]
    have h0 : 0 ≤ ε / 2 := by linarith
    have h1 : ¬ ε ≤ ε / 2 := by linarith
    simp [h0, h1]
  · rw [hnear (by rw [hD]; norm_num) (by rw [hD]; linarith), hb]
    have h1 : ¬ ε ≤ -(-(2 + ε) / 2) := by
      intro h; linarith
    rw [decide_eq_false h1]

/-- C7 fails on the code. (1) For every `ε > 0` the ray `zRayFrom (1 + ε / 2)`
starts outside the unit sphere about the origin and its unit direction points
at the centre, yet for no `EPSILON = ε > 0` does `rayIntersection` return
`true` on it: the nearer root `ε / 2` is within `EPSILON` of zero.  (2) For no
`EPSILON = ε` in `(0, 4)` does the solver return the candidates `5 - ε / 4`
and `5 + ε / 4` on the sphere of radius `ε / 4` seen from distance `5`: it
returns the repeated value `5`. -/
theorem near_surface_origin_missed :
    (∀ ε : ℝ, 0 < ε →
      (sphereAtOrigin 1 : ImplicitSphere ℝ).radiusSquared = 1 * 1 ∧
      ((sphereAtOrigin 1 : ImplicitSphere ℝ).offset (zRayFrom (1 + ε / 2))).dot
        ((sphereAtOrigin 1 : ImplicitSphere ℝ).offset (zRayFrom (1 + ε / 2)))
        = (1 + ε / 2) * (1 + ε / 2) ∧
      1 < 1 + ε / 2 ∧
      (zRayFrom (1 + ε / 2) : Ray ℝ).direction = Vec3.smul (1 / (1 + ε / 2))
        (Vec3.neg ((sphereAtOrigin 1 : ImplicitSphere ℝ).offset (zRayFrom (1 + ε / 2)))) ∧
      (zRayFrom (1 + ε / 2) : Ray ℝ).direction.dot (zRayFrom (1 + ε / 2) : Ray ℝ).direction
        = 1) ∧
    (¬ ∃ (ε : ℝ) (r' : Ray ℝ), 0 < ε ∧
      (sphereAtOrigin 1 : ImplicitSphere ℝ).rayIntersection Real.sqrt ε (zRayFrom (1 + ε / 2))
        = .ok (true, r')) ∧
    (¬ ∃ ε : ℝ, 0 < ε ∧ ε < 4 ∧
      stableQuadraticSolver Real.sqrt ε 1
        ((sphereAtOrigin (ε / 4) : ImplicitSphere ℝ).coeffB (zRayFrom 5))
        ((sphereAtOrigin (ε / 4) : ImplicitSphere ℝ).coeffC (zRayFrom 5)) 0 0
        = .ok (true, 5 - ε / 4, 5 + ε / 4)) := by
  refine ⟨fun ε hε => ?_, ?_, ?_⟩
  · have hne : (1 + ε / 2) ≠ 0 := by
      intro h; linarith
    refine ⟨by simp [sphereAtOrigin], ?_, by linarith, ?_, ?_⟩
    · simp only [ImplicitSphere.offset, Vec3.dot, Vec4.sub, Vec4.xyz, zRayFrom, rayWithoutHit,
        sphereAtOrigin]
      ring
    · simp only [ImplicitSphere.offset, Vec3.smul, Vec3.neg, Vec4.sub, Vec4.xyz, zRayFrom,
        rayWithoutHit, sphereAtOrigin, Vec3.mk.injEq]
      refine ⟨by ring, by ring, ?_⟩
      field_simp
    · norm_num [Vec3.dot, zRayFrom, rayWithoutHit]
  · rintro ⟨ε, r', hε, h⟩
    rw [near_surface_eval ε hε] at h
    simp at h
  · rintro ⟨ε, hε, hε4, h⟩
    have hev := (through_centre_eval ε (sphereAtOrigin (ε / 4)) (zRayFrom 5) (ε / 4) 5 hε
      (by linarith) (by simp [sphereAtOrigin])
      (by norm_num [ImplicitSphere.offset, Vec3.dot, Vec4.sub, Vec4.xyz, zRayFrom,
        rayWithoutHit, sphereAtOrigin])
      (by norm_num [ImplicitSphere.offset, Vec3.smul, Vec3.neg, Vec4.sub, Vec4.xyz, zRayFrom,
        rayWithoutHit, sphereAtOrigin])
      (by linarith)).2.2 (by nlinarith)
    rw [hev] at h
    simp only [Except.ok.injEq, Prod.mk.injEq, true_and] at h
    linarith [h.1]

/-- C9, as the code has it. For every sphere and every ray, `rayIntersection`
returns `true` exactly when the root the code selects is at least `EPSILON`:
for a discriminant `D ≥ EPSILON` that is the nearer root `(-b - √D) / 2` when
it is non-negative and the farther root `(-b + √D) / 2` otherwise; for
`0 ≤ D < EPSILON` it is `-b / 2`.  In particular a ray whose nearer root lies
in `[0, EPSILON)` is reported as a miss, also when the farther root exceeds
`EPSILON`. -/
theorem sphere_hit_iff_roots (ε : ℝ) (s : ImplicitSphere ℝ) (r : Ray ℝ) (hε : 0 < ε) :
    ∃ ok r', s.rayIntersection Real.sqrt ε r = .ok (ok, r') ∧
      (ok = true ↔
        (ε ≤ s.discriminant r ∧
          (ε ≤ s.nearRoot Real.sqrt r ∨
            (s.nearRoot Real.sqrt r < 0 ∧ ε ≤ s.farRoot Real.sqrt r))) ∨
        (0 ≤ s.discriminant r ∧ s.discriminant r < ε ∧ ε ≤ -(s.coeffB r / 2))) ∧
      (ε ≤ s.discriminant r → 0 ≤ s.nearRoot Real.sqrt r → s.nearRoot Real.sqrt r < ε →
        ok = false) := by
  obtain ⟨hneg, hnear, hfar⟩ := rayIntersection_by_roots ε s r hε
  rcases lt_or_le (s.discriminant r) 0 with hD | hD
  · refine ⟨false, r, hneg hD, ?_, fun _ _ _ => rfl⟩
    constructor
    · intro h; exact absurd h (by simp)
    · rintro (⟨h, _⟩ | ⟨h, _⟩)
      · exact absurd (lt_of_lt_of_le hε h) (not_lt.mpr hD.le)
      · exact absurd hD (not_lt.mpr h)
  · rcases lt_or_le (s.discriminant r) ε with hlt | hge
    · refine ⟨_, r, hnear hD hlt, ?_, fun h => absurd hlt (not_lt.mpr h)⟩
      constructor
      · intro h; exact Or.inr ⟨hD, hlt, of_decide_eq_true h⟩
      · rintro (⟨h, _⟩ | ⟨_, _, h⟩)
        · exact absurd hlt (not_lt.mpr h)
        · exact decide_eq_true h
    · refine ⟨_, r, hfar hge, ?_, ?_⟩
      · constructor
        · intro h
          have h' := of_decide_eq_true h
          by_cases h0 : 0 ≤ s.nearRoot Real.sqrt r
          · rw [if_pos h0] at h'; exact Or.inl ⟨hge, Or.inl h'⟩
          · rw [if_neg h0] at h'; exact Or.inl ⟨hge, Or.inr ⟨not_le.mp h0, h'⟩⟩
        · rintro (⟨_, h | ⟨h0, h⟩⟩ | ⟨_, h, _⟩)
          · apply decide_eq_true
            rw [if_pos (le_trans hε.le h)]; exact h
          · apply decide_eq_true
            rw [if_neg (not_le.mpr h0)]; exact h
          · exact absurd h (not_lt.mpr hge)
      · intro _ h0 h1
        apply decide_eq_false
        rw [if_pos h0]; exact not_le.mpr h1

/-- Witness for C9 at `sphereTouchingOrigin` and `zRay`. -/
theorem sphere_hit_iff_roots_witness :
    (0 : ℝ) < 1 / 1000 ∧
    ∃ ok r', (sphereTouchingOrigin : ImplicitSphere ℝ).rayIntersection Real.sqrt (1 / 1000) zRay
        = .ok (ok, r') ∧
      (ok = true ↔
        (1 / 1000 ≤ (sphereTouchingOrigin : ImplicitSphere ℝ).discriminant zRay ∧
          (1 / 1000 ≤ (sphereTouchingOrigin : ImplicitSphere ℝ).nearRoot Real.sqrt zRay ∨
            ((sphereTouchingOrigin : ImplicitSphere ℝ).nearRoot Real.sqrt zRay < 0 ∧
              1 / 1000 ≤ (sphereTouchingOrigin : ImplicitSphere ℝ).farRoot Real.sqrt zRay))) ∨
        (0 ≤ (sphereTouchingOrigin : ImplicitSphere ℝ).discriminant zRay ∧
          (sphereTouchingOrigin : ImplicitSphere ℝ).discriminant zRay < 1 / 1000 ∧
          1 / 1000 ≤ -((sphereTouchingOrigin : ImplicitSphere ℝ).coeffB zRay / 2))) ∧
      (1 / 1000 ≤ (sphereTouchingOrigin : ImplicitSphere ℝ).discriminant zRay →
        0 ≤ (sphereTouchingOrigin : ImplicitSphere ℝ).nearRoot Real.sqrt zRay →
        (sphereTouchingOrigin : ImplicitSphere ℝ).nearRoot Real.sqrt zRay < 1 / 1000 →
        ok = false) :=
  ⟨by norm_num, sphere_hit_iff_roots (1 / 1000) sphereTouchingOrigin zRay (by norm_num)⟩

/-- C9 fails on the code. `zRay` has unit direction and starts on the surface
of `sphereTouchingOrigin`: the discriminant is `4`, the roots of the
intersection quadratic are `0` and `2`, and the recorded nearest hit `1000` is
farther than both.  For no `EPSILON` in `(0, 2)` does `rayIntersection` return
`true`, although the root `2` is greater than `EPSILON`. -/
theorem near_zero_root_masks_far_root :
    (zRay : Ray ℝ).direction.dot (zRay : Ray ℝ).direction = 1 ∧
    (sphereTouchingOrigin : ImplicitSphere ℝ).discriminant zRay = 4 ∧
    (sphereTouchingOrigin : ImplicitSphere ℝ).nearRoot Real.sqrt zRay = 0 ∧
    (sphereTouchingOrigin : ImplicitSphere ℝ).farRoot Real.sqrt zRay = 2 ∧
    (2 : ℝ) ^ 2 + (sphereTouchingOrigin : ImplicitSphere ℝ).coeffB zRay * 2
      + (sphereTouchingOrigin : ImplicitSphere ℝ).coeffC zRay = 0 ∧
    (2 : ℝ) < (zRay : Ray ℝ).closestIntersection ∧
    ¬ ∃ (ε : ℝ) (r' : Ray ℝ), 0 < ε ∧ ε < 2 ∧
      (sphereTouchingOrigin : ImplicitSphere ℝ).rayIntersection Real.sqrt ε zRay
        = .ok (true, r') := by
  have hb : (sphereTouchingOrigin : ImplicitSphere ℝ).coeffB zRay = -2 := by
    norm_num [ImplicitSphere.coeffB, ImplicitSphere.offset, Vec3.dot, Vec4.sub, Vec4.xyz, zRay,
      rayWithoutHit, sphereTouchingOrigin]
  have hc : (sphereTouchingOrigin : ImplicitSphere ℝ).coeffC zRay = 0 := by
    norm_num [ImplicitSphere.coeffC, ImplicitSphere.offset, Vec3.dot, Vec4.sub, Vec4.xyz, zRay,
      rayWithoutHit, sphereTouchingOrigin]
  have hD : (sphereTouchingOrigin : ImplicitSphere ℝ).discriminant zRay = 2 * 2 := by
    simp only [ImplicitSphere.discriminant, hb, hc]; norm_num
  have hs : Real.sqrt ((sphereTouchingOrigin : ImplicitSphere ℝ).discriminant zRay) = 2 :=
    sqrt_of_mul_self (by norm_num) hD
  have hnear : (sphereTouchingOrigin : ImplicitSphere ℝ).nearRoot Real.sqrt zRay = 0 := by
    simp only [ImplicitSphere.nearRoot, hs, hb]; norm_num
  have hfar : (sphereTouchingOrigin : ImplicitSphere ℝ).farRoot Real.sqrt zRay = 2 := by
    simp only [ImplicitSphere.farRoot, hs, hb]; norm_num
  refine ⟨by norm_num [Vec3.dot, zRay, rayWithoutHit], by rw [hD]; norm_num, hnear, hfar,
    by rw [hb, hc]; norm_num, by norm_num [zRay, rayWithoutHit], ?_⟩
  rintro ⟨ε, r', hε, hε2, h⟩
  rw [(rayIntersection_by_roots ε sphereTouchingOrigin zRay hε).2.2 (by rw [hD]; linarith),
    hnear] at h
  have h1 : ¬ ε ≤ 0 := not_le.mpr hε
  simp [h1] at h

/-- Witness for C8 at `sphereAhead` and `zRay`. -/
theorem sphere_hit_iff_selected_root_witness :
    (0 : ℝ) < 1 / 1000 ∧
    ∃ ok r' solved y0 y1,
      (sphereAhead : ImplicitSphere ℝ).rayIntersection Real.sqrt (1 / 1000) zRay
        = .ok (ok, r') ∧
      stableQuadraticSolver Real.sqrt (1 / 1000) 1
        ((sphereAhead : ImplicitSphere ℝ).coeffB zRay)
        ((sphereAhead : ImplicitSphere ℝ).coeffC zRay) 0 0 = .ok (solved, y0, y1) ∧
      y0 ≤ y1 ∧
      (ok = true ↔ solved = true ∧ 1 / 1000 ≤ (if 0 ≤ y0 then y0 else y1)) ∧
      (ok = true →
        0 < (if 0 ≤ y0 then y0 else y1) ∧ ¬ |if 0 ≤ y0 then y0 else y1| < 1 / 1000) ∧
      (solved = false → ok = false) ∧
      (y0 < 0 → y1 < 0 → ok = false) ∧
      (|if 0 ≤ y0 then y0 else y1| < 1 / 1000 → ok = false) ∧
      (ok = false → r' = zRay) :=
  ⟨by norm_num, sphere_hit_iff_selected_root (1 / 1000) sphereAhead zRay (by norm_num)⟩

/-! ## The scene -/

section SceneLemmas

variable {F G : Type} [LinearOrderedField F]

/-- The loop over the light sources does nothing when no light source has a
triangle. -/
theorem shadowLights_no_triangles (env : Env F G)
    (cast : Ray F → Nat → G → Except FpError (CastResult F G))
    (origin : Vec4 F) (normal : Vec3 F) (lights : List (LightSource F G))
    (h : ∀ l ∈ lights, l.getTriangles = []) (st : ShadowState F G) :
    shadowLights env cast origin normal lights st = .ok st := by
  induction lights with
  | nil => rfl
  | cons l rest ih =>
    have hl : l.getTriangles = [] := h l (List.mem_cons_self _ _)
    have hrest : ∀ l' ∈ rest, l'.getTriangles = [] :=
      fun l' hl' => h l' (List.mem_cons_of_mem _ hl')
    simp only [shadowLights, hl, shadowTriangles, bind, Except.bind]
    exact ih hrest

/-- At any depth other than the shadow depth, a hit on a perfect reflector
makes `castRay` call `castShadowRay`: the call log of a finished run starts
with that call. -/
theorem castRay_mirror_calls_castShadowRay
    (env : Env F G) (scene : Scene F G) (fuel : Nat) (ray traced : Ray F) (depth : Nat)
    (gen : G) (res : CastResult F G)
    (hi : scene.intersect ray = .ok traced) (hh : traced.hasIntersection = true)
    (hm : traced.intersectionMaterial = Material.PERFECT_REFLECTOR)
    (hd : depth ≠ SHADOW_DEPTH)
    (hres : castRay env scene (fuel + 1) ray depth gen = .ok res) :
    res.calls.head? = some Call.castShadowRay := by
  simp only [castRay, hi, hh, hd, hm, bind, Except.bind, Bool.not_true, Bool.false_eq_true,
    if_false] at hres
  cases hs : castShadowRayWith env scene (castRay env scene fuel) traced.intersectionPoint
      traced.intersectionNormal gen with
  | error e => simp [hs] at hres
  | ok sh =>
    simp only [hs] at hres
    by_cases hdepth : depth < env.MAX_DEPTH
    · simp only [hdepth, if_true] at hres
      split at hres
      · simp at hres
      · simp only [Except.ok.injEq] at hres
        rw [← hres]; rfl
    · simp only [hdepth, if_false, Except.ok.injEq] at hres
      rw [← hres]; rfl

end SceneLemmas

/-- C2 (the code on a scene without light triangles). When no light source has
a triangle, the loops of `castShadowRay` leave `lightCount` at `0` and the
final `lightContribution / (double)lightCount` is a division by zero: the call
has no real value, it does not return the zero colour. -/
theorem castShadowRay_without_lights_divides_by_zero {F G : Type} [LinearOrderedField F]
    (env : Env F G) (scene : Scene F G) (fuel : Nat) (origin : Vec4 F) (normal : Vec3 F)
    (gen : G) (h : ∀ l ∈ scene._lightSources, l.getTriangles = []) :
    shadowLights env (castRay env scene fuel) origin normal scene._lightSources
        { lightContribution := ⟨0, 0, 0⟩, lightCount := 0, lightArea := 0, gen := gen,
          calls := [] }
      = .ok { lightContribution := ⟨0, 0, 0⟩, lightCount := 0, lightArea := 0, gen := gen,
              calls := [] } ∧
    Vec3.divScalar (⟨0, 0, 0⟩ : Vec3 F) ((0 : Nat) : F) = .error .divByZero ∧
    castShadowRay env scene fuel origin normal gen = .error .divByZero := by
  have hloop := shadowLights_no_triangles env (castRay env scene fuel) origin normal
    scene._lightSources h
    { lightContribution := ⟨0, 0, 0⟩, lightCount := 0, lightArea := 0, gen := gen, calls := [] }
  have hdiv : Vec3.divScalar (⟨0, 0, 0⟩ : Vec3 F) ((0 : Nat) : F) = .error .divByZero := by
    simp [Vec3.divScalar, fdiv, bind, Except.bind]
  refine ⟨hloop, hdiv, ?_⟩
  simp only [castShadowRay, castShadowRayWith, hloop, bind, Except.bind, hdiv]

/-- Witness for C2: the scene with one light source that has no triangles. -/
theorem castShadowRay_without_lights_divides_by_zero_witness :
    (∀ l ∈ (sceneWithEmptyLight : Scene ℝ Unit)._lightSources, l.getTriangles = []) ∧
    castShadowRay (exampleEnv Real.pi Real.sqrt Real.sin Real.cos Real.arcsin)
      (sceneWithEmptyLight : Scene ℝ Unit) 3 ⟨0, 0, 0, 1⟩ ⟨0, 0, 1⟩ ()
      = .error .divByZero :=
  have h : ∀ l ∈ (sceneWithEmptyLight : Scene ℝ Unit)._lightSources, l.getTriangles = [] := by
    intro l hl
    simp only [sceneWithEmptyLight, List.mem_singleton] at hl
    rw [hl]; rfl
  ⟨h, (castShadowRay_without_lights_divides_by_zero
    (exampleEnv Real.pi Real.sqrt Real.sin Real.cos Real.arcsin)
    sceneWithEmptyLight 3 ⟨0, 0, 0, 1⟩ ⟨0, 0, 1⟩ () h).2.2⟩

/-- C10. `castRay` called with the shadow depth `-1` (`2^64 - 1` as `size_t`)
traces the scene and returns at once: it returns `true` exactly when the ray
has an intersection, the ray is as the intersection tests left it (the
material switch is not run), the generator is untouched, and no call of
`castShadowRay` or `castRay` is made, whatever the hit material is. -/
theorem castRay_shadow_depth_never_spawns {F G : Type} [LinearOrderedField F]
    (env : Env F G) (scene : Scene F G) (fuel : Nat) (ray : Ray F) (gen : G) :
    SHADOW_DEPTH = 2 ^ 64 - 1 ∧
    castRay env scene (fuel + 1) ray SHADOW_DEPTH gen
      = (scene.intersect ray).map fun traced =>
          { hit := traced.hasIntersection, ray := traced, gen := gen, calls := [] } := by
  refine ⟨rfl, ?_⟩
  cases hi : scene.intersect ray with
  | error e => simp [castRay, hi, bind, Except.bind, Except.map]
  | ok traced =>
    cases hh : traced.hasIntersection <;>
      simp [castRay, hi, hh, bind, Except.bind, Except.map]

/-! ## The solver against the textbook formula -/

/-- C18. For real `a > 0`, `b`, `c` with discriminant `D ≥ EPSILON`, the
cancellation-avoiding computation of the solver is well defined (its `q` is
not zero) and the solver returns exactly the textbook roots
`(-b - √D) / (2a)` and `(-b + √D) / (2a)`, in this order. -/
theorem stable_solver_matches_textbook (ε a b c x0 x1 : ℝ) (ha : 0 < a) (hε : 0 < ε)
    (hD : ε ≤ b ^ 2 - 4 * a * c) :
    (if b > 0 then -(1 / 2) * (b + Real.sqrt (b ^ 2 - 4 * a * c))
      else -(1 / 2) * (b - Real.sqrt (b ^ 2 - 4 * a * c))) ≠ 0 ∧
    stableQuadraticSolver Real.sqrt ε a b c x0 x1
      = .ok (true, (-b - Real.sqrt (b ^ 2 - 4 * a * c)) / (2 * a),
          (-b + Real.sqrt (b ^ 2 - 4 * a * c)) / (2 * a)) := by
  have hsq : b ^ 2 - 4 * a * c = b * b - 4 * a * c := by ring
  rw [hsq] at hD ⊢
  refine ⟨?_, solver_far_real ε a b c x0 x1 ha hε hD⟩
  have hs : 0 < Real.sqrt (b * b - 4 * a * c) := Real.sqrt_pos.mpr (lt_of_lt_of_le hε hD)
  by_cases hb : b > 0
  · rw [if_pos hb]; intro h; linarith
  · rw [if_neg hb]; intro h; linarith [not_lt.mp hb]

/-- Witness for C18 at `a = 1`, `b = -2`, `c = 0` (discriminant `4`). -/
theorem stable_solver_matches_textbook_witness :
    (0 : ℝ) < 1 ∧ (0 : ℝ) < 1 / 1000 ∧ (1 / 1000 : ℝ) ≤ (-2) ^ 2 - 4 * 1 * 0 ∧
    (if (-2 : ℝ) > 0 then -(1 / 2) * (-2 + Real.sqrt ((-2) ^ 2 - 4 * 1 * 0))
      else -(1 / 2) * (-2 - Real.sqrt ((-2) ^ 2 - 4 * 1 * 0))) ≠ 0 ∧
    stableQuadraticSolver Real.sqrt (1 / 1000) 1 (-2) 0 7 8
      = .ok (true, (-(-2) - Real.sqrt ((-2) ^ 2 - 4 * 1 * 0)) / (2 * 1),
          (-(-2) + Real.sqrt ((-2) ^ 2 - 4 * 1 * 0)) / (2 * 1)) :=
  ⟨by norm_num, by norm_num, by norm_num,
    stable_solver_matches_textbook (1 / 1000) 1 (-2) 0 7 8 (by norm_num) (by norm_num)
      (by norm_num)⟩

/-! ## The scene: empty scenes and the shadow depth -/

/-- A scene without primitives leaves every ray as it is. -/
theorem intersect_empty {F G : Type} (ray : Ray F) :
    (({ _triangles := [], _objects := [], _lightSources := [] } : Scene F G).intersect ray)
      = .ok ray := by
  simp [Scene.intersect, traceAll, bind, Except.bind]

section CastLemmas

variable {F G : Type} [LinearOrderedField F]

/-- At the shadow depth `castRay` returns right after the intersection loops. -/
theorem castRay_at_shadow_depth (env : Env F G) (scene : Scene F G) (fuel : Nat) (ray : Ray F)
    (gen : G) :
    castRay env scene (fuel + 1) ray SHADOW_DEPTH gen
      = (scene.intersect ray).map fun traced =>
          { hit := traced.hasIntersection, ray := traced, gen := gen, calls := [] } := by
  cases hi : scene.intersect ray with
  | error e => simp [castRay, hi, bind, Except.bind, Except.map]
  | ok traced =>
    cases hh : traced.hasIntersection <;>
      simp [castRay, hi, hh, bind, Except.bind, Except.map]

/-- A ray without a hit after the intersection loops: `castRay` returns `false`. -/
theorem castRay_of_miss (env : Env F G) (scene : Scene F G) (fuel : Nat) (ray traced : Ray F)
    (depth : Nat) (gen : G) (hi : scene.intersect ray = .ok traced)
    (hh : traced.hasIntersection = false) :
    castRay env scene (fuel + 1) ray depth gen
      = .ok { hit := false, ray := traced, gen := gen, calls := [] } := by
  simp [castRay, hi, hh, bind, Except.bind]

end CastLemmas

/-- C13, as the code has it. For every ray that has no intersection on record
and every depth (`0` and the shadow depth included), `castRay` on a scene
with no room triangles, no objects and no light sources returns `false` and
leaves the ray unchanged; it makes no call and draws no random number. -/
theorem castRay_empty_scene_misses {F G : Type} [LinearOrderedField F] (env : Env F G)
    (fuel : Nat) (ray : Ray F) (depth : Nat) (gen : G) (h : ray.hasIntersection = false) :
    castRay env { _triangles := [], _objects := [], _lightSources := [] } (fuel + 1) ray depth gen
      = .ok { hit := false, ray := ray, gen := gen, calls := [] } :=
  castRay_of_miss env _ fuel ray ray depth gen (intersect_empty ray) h

/-- Witness for C13: `zRay` in the empty scene at the shadow depth. -/
theorem castRay_empty_scene_misses_witness :
    (zRay : Ray ℝ).hasIntersection = false ∧
    castRay (exampleEnv Real.pi Real.sqrt Real.sin Real.cos Real.arcsin)
      { _triangles := [], _objects := [], _lightSources := [] } (0 + 1) zRay SHADOW_DEPTH ()
      = .ok { hit := false, ray := zRay, gen := (), calls := [] } :=
  ⟨rfl, castRay_empty_scene_misses _ 0 zRay SHADOW_DEPTH () rfl⟩

/-- C13 fails on the code for a ray that already carries a hit. In the empty
scene the ray `rayWithHit LIGHT_SOURCE` (hit flag set before the call) makes
`castRay` return `true` at the shadow depth, and at depth `0` it returns
`true` and multiplies the colour of the ray by `255`. -/
theorem castRay_empty_scene_keeps_old_hit :
    (emptyScene : Scene ℝ Unit)._triangles = [] ∧
    (emptyScene : Scene ℝ Unit)._objects = [] ∧
    (emptyScene : Scene ℝ Unit)._lightSources = [] ∧
    castRay (exampleEnv Real.pi Real.sqrt Real.sin Real.cos Real.arcsin) emptyScene 1
      (rayWithHit Material.LIGHT_SOURCE) SHADOW_DEPTH ()
      = .ok { hit := true, ray := rayWithHit Material.LIGHT_SOURCE, gen := (), calls := [] } ∧
    castRay (exampleEnv Real.pi Real.sqrt Real.sin Real.cos Real.arcsin) emptyScene 1
      (rayWithHit Material.LIGHT_SOURCE) 0 ()
      = .ok { hit := true
              ray := (rayWithHit Material.LIGHT_SOURCE : Ray ℝ).withColor
                (Vec3.smul 255 (rayWithHit Material.LIGHT_SOURCE : Ray ℝ).color)
              gen := (), calls := [] } ∧
    (rayWithHit Material.LIGHT_SOURCE : Ray ℝ).withColor
        (Vec3.smul 255 (rayWithHit Material.LIGHT_SOURCE : Ray ℝ).color)
      ≠ rayWithHit Material.LIGHT_SOURCE := by
  have hi : (emptyScene : Scene ℝ Unit).intersect (rayWithHit Material.LIGHT_SOURCE)
      = .ok (rayWithHit Material.LIGHT_SOURCE) := intersect_empty _
  refine ⟨rfl, rfl, rfl, ?_, ?_, ?_⟩
  · rw [castRay_at_shadow_depth, hi]; rfl
  · have hd : (0 : Nat) ≠ SHADOW_DEPTH := by decide
    simp only [castRay, hi, bind, Except.bind]
    simp [rayWithHit, Ray.updateIntersection, Ray.withColor, hd]
  · intro h
    have hc := congrArg (fun r => r.color.x) h
    simp [rayWithHit, Ray.updateIntersection, Ray.withColor, Vec3.smul] at hc
/-! ## The Lambertian bounce: sampling and the local frame -/

/-- C20 (the code on a variate above one). With `sqrt` the real square root,
a variate `yj > 1` makes `sqrt(yj) > 1`, which is outside the domain of
`asin`: the azimuth, and with it the sampled direction, has no real value. -/
theorem lambertian_azimuth_outside_asin_domain {G : Type} (env : Env ℝ G) (ray : Ray ℝ)
    (xi yj : ℝ) (hs : env.sqrt = Real.sqrt) (hy : 1 < yj) :
    fsqrt env.sqrt yj = .ok (Real.sqrt yj) ∧ 1 < Real.sqrt yj ∧
    fasin env.asin (Real.sqrt yj) = .error .domain ∧
    lambertianTarget env ray xi yj = .error .domain := by
  have h0 : ¬ yj < 0 := by intro h; linarith
  have h1 : 1 < Real.sqrt yj := by
    rw [Real.lt_sqrt (by norm_num)]; simpa using hy
  have hsq : fsqrt env.sqrt yj = .ok (Real.sqrt yj) := by simp [fsqrt, h0, hs]
  have has : fasin env.asin (Real.sqrt yj) = .error .domain := by simp [fasin, h1]
  refine ⟨hsq, h1, has, ?_⟩
  simp only [lambertianTarget, hsq, has, bind, Except.bind]

/-- Witness for C20: the variate `yj = 2` lies in the sampled range
`[EPSILON, 2π - EPSILON]` of `exampleEnv`. -/
theorem lambertian_azimuth_outside_asin_domain_witness :
    (exampleEnv Real.pi Real.sqrt Real.sin Real.cos Real.arcsin : Env ℝ Unit).EPSILON ≤ 2 ∧
    (2 : ℝ) ≤ 2 * (exampleEnv Real.pi Real.sqrt Real.sin Real.cos Real.arcsin : Env ℝ Unit).M_PI
      - (exampleEnv Real.pi Real.sqrt Real.sin Real.cos Real.arcsin : Env ℝ Unit).EPSILON ∧
    (1 : ℝ) < 2 ∧
    fsqrt (exampleEnv Real.pi Real.sqrt Real.sin Real.cos Real.arcsin : Env ℝ Unit).sqrt 2
      = .ok (Real.sqrt 2) ∧ 1 < Real.sqrt 2 ∧
    fasin (exampleEnv Real.pi Real.sqrt Real.sin Real.cos Real.arcsin : Env ℝ Unit).asin
      (Real.sqrt 2) = .error .domain ∧
    lambertianTarget (exampleEnv Real.pi Real.sqrt Real.sin Real.cos Real.arcsin)
      (rayWithHit Material.LAMBERTIAN) 1 2 = .error .domain :=
  ⟨by norm_num [exampleEnv],
    by
      have := Real.pi_gt_three
      simp only [exampleEnv]
      linarith,
    by norm_num,
    lambertian_azimuth_outside_asin_domain
      (exampleEnv Real.pi Real.sqrt Real.sin Real.cos Real.arcsin)
      (rayWithHit Material.LAMBERTIAN) 1 2 rfl (by norm_num)⟩

/-- The Lambertian target is computed from the azimuth, then the frame vector
`X`; when `X` has no value the target has none. -/
theorem lambertianTarget_of_frameX_error {G : Type} (env : Env ℝ G) (ray : Ray ℝ) (xi yj : ℝ)
    (e : FpError) (hs : env.sqrt = Real.sqrt) (hy0 : 0 ≤ yj) (hy1 : yj ≤ 1)
    (hX : frameX env.sqrt ray = .error e) :
    lambertianTarget env ray xi yj = .error e := by
  have h0 : ¬ yj < 0 := not_lt.mpr hy0
  have hle : Real.sqrt yj ≤ 1 := Real.sqrt_le_one.mpr hy1
  have hge : (-1 : ℝ) ≤ Real.sqrt yj := le_trans (by norm_num) (Real.sqrt_nonneg yj)
  have hsq : fsqrt env.sqrt yj = .ok (Real.sqrt yj) := by simp [fsqrt, h0, hs]
  have has : fasin env.asin (Real.sqrt yj) = .ok (env.asin (Real.sqrt yj)) := by
    simp [fasin, not_lt.mpr hle, not_lt.mpr hge]
  simp only [frameX, frameProjection] at hX
  simp only [lambertianTarget, hsq, has, hX, bind, Except.bind]

/-- C19 (the code at normal incidence). The ray `rayOntoFloor` arrives along
`-Z` on a surface with unit normal `Z = (0, 0, 1)`: the projection
`I - (I.Z) Z` is the zero vector, `glm::normalize` divides by its length `0`,
and the frame vector `X` (hence `Y` and the bounce direction) has no value. -/
theorem lambertian_frame_undefined_at_normal_incidence :
    (rayOntoFloor Material.LAMBERTIAN : Ray ℝ).intersectionNormal.dot
      (rayOntoFloor Material.LAMBERTIAN : Ray ℝ).intersectionNormal = 1 ∧
    (rayOntoFloor Material.LAMBERTIAN : Ray ℝ).intersectionPoint.sub
      (rayOntoFloor Material.LAMBERTIAN : Ray ℝ).start = ⟨0, 0, -1, 0⟩ ∧
    frameProjection (rayOntoFloor Material.LAMBERTIAN : Ray ℝ) = ⟨0, 0, 0, 0⟩ ∧
    frameX Real.sqrt (rayOntoFloor Material.LAMBERTIAN : Ray ℝ) = .error .divByZero ∧
    lambertianTarget (exampleEnv Real.pi Real.sqrt Real.sin Real.cos Real.arcsin)
      (rayOntoFloor Material.LAMBERTIAN) (1 / 2) (1 / 2) = .error .divByZero := by
  have hproj : frameProjection (rayOntoFloor Material.LAMBERTIAN : Ray ℝ) = ⟨0, 0, 0, 0⟩ := by
    norm_num [frameProjection, rayOntoFloor, rayWithoutHit, Ray.updateIntersection, Vec4.sub,
      Vec4.smul, Vec4.dot, Vec3.toVec4]
  have hX : frameX Real.sqrt (rayOntoFloor Material.LAMBERTIAN : Ray ℝ) = .error .divByZero := by
    simp [frameX, hproj, Vec4.normalize, Vec4.dot, fsqrt, fdiv, bind, Except.bind]
  refine ⟨?_, ?_, hproj, hX, ?_⟩
  · norm_num [rayOntoFloor, Ray.updateIntersection, Vec3.dot]
  · norm_num [rayOntoFloor, rayWithoutHit, Ray.updateIntersection, Vec4.sub]
  · exact lambertianTarget_of_frameX_error _ _ _ _ _ rfl (by norm_num) (by norm_num) hX

/-! ## The mirror bounce ray -/

/-- The bounce ray of the perfect-reflector case runs from its start to its
target along `999/1000` of the vector from the hit point to the point whose
coordinates are the components of `outDirection`. -/
theorem mirror_bounce_direction {F : Type} [LinearOrderedField F] (ray : Ray F) :
    (mirrorBounceTarget ray).sub (mirrorBounceStart ray)
      = Vec4.smul (999 / 1000) (((mirrorOutDirection ray).toVec4 1).sub ray.intersectionPoint) := by
  simp only [mirrorBounceTarget, mirrorBounceStart, Vec4.sub, Vec4.add, Vec4.smul, Vec3.toVec4,
    Vec4.mk.injEq]
  refine ⟨?_, ?_, ?_, ?_⟩ <;> ring

/-- C14 (the code at a failing input). A ray from `(1, 0, 1)` hits a mirror
with normal `+z` at `(1, 0, 0)`: the incoming direction is `(0, 0, -1)` and its
mirror reflection is `out = (0, 0, 1)`.  The bounce ray is built from the hit
point towards the point with coordinates `out`, so its direction
`end - start` is `(-0.999, 0, 0.999)`, which is no positive multiple of
`out`. -/
theorem mirror_bounce_not_along_reflection :
    ((rayOntoFloor Material.PERFECT_REFLECTOR : Ray ℝ).intersectionPoint.sub
      (rayOntoFloor Material.PERFECT_REFLECTOR : Ray ℝ).start).xyz = ⟨0, 0, -1⟩ ∧
    mirrorOutDirection (rayOntoFloor Material.PERFECT_REFLECTOR : Ray ℝ) = ⟨0, 0, 1⟩ ∧
    (mirrorBounceTarget (rayOntoFloor Material.PERFECT_REFLECTOR : Ray ℝ)).sub
      (mirrorBounceStart (rayOntoFloor Material.PERFECT_REFLECTOR : Ray ℝ))
      = ⟨-(999 / 1000), 0, 999 / 1000, 0⟩ ∧
    ¬ ∃ k : ℝ, 0 < k ∧
      ((mirrorBounceTarget (rayOntoFloor Material.PERFECT_REFLECTOR : Ray ℝ)).sub
        (mirrorBounceStart (rayOntoFloor Material.PERFECT_REFLECTOR : Ray ℝ))).xyz
        = Vec3.smul k (mirrorOutDirection (rayOntoFloor Material.PERFECT_REFLECTOR : Ray ℝ)) := by
  have hin : ((rayOntoFloor Material.PERFECT_REFLECTOR : Ray ℝ).intersectionPoint.sub
      (rayOntoFloor Material.PERFECT_REFLECTOR : Ray ℝ).start).xyz = ⟨0, 0, -1⟩ := by
    norm_num [rayOntoFloor, rayWithoutHit, Ray.updateIntersection, Vec4.sub, Vec4.xyz]
  have hout : mirrorOutDirection (rayOntoFloor Material.PERFECT_REFLECTOR : Ray ℝ)
      = ⟨0, 0, 1⟩ := by
    simp only [mirrorOutDirection, hin]
    norm_num [rayOntoFloor, Ray.updateIntersection, Vec3.reflect, Vec3.sub, Vec3.smul, Vec3.dot]
  have hdir : (mirrorBounceTarget (rayOntoFloor Material.PERFECT_REFLECTOR : Ray ℝ)).sub
      (mirrorBounceStart (rayOntoFloor Material.PERFECT_REFLECTOR : Ray ℝ))
      = ⟨-(999 / 1000), 0, 999 / 1000, 0⟩ := by
    rw [mirror_bounce_direction, hout]
    norm_num [rayOntoFloor, Ray.updateIntersection, Vec4.sub, Vec4.smul, Vec3.toVec4]
  refine ⟨hin, hout, hdir, ?_⟩
  rintro ⟨k, _, h⟩
  rw [hdir, hout] at h
  simp only [Vec4.xyz, Vec3.smul, Vec3.mk.injEq] at h
  have := h.1
  norm_num at this

/-! ## The shadow sampler against its specification -/

section ShadowLemmas

variable {F G : Type} [LinearOrderedField F]

/-- Adding the zero colour changes nothing. -/
theorem Vec3.add_zero_vec (u : Vec3 F) : u.add ⟨0, 0, 0⟩ = u := by
  cases u; simp [Vec3.add]

/-- The weight computed in `castShadowRay` (negate when negative) is the
absolute value. -/
theorem neg_when_negative_eq_abs (dt : F) : (if dt < 0 then dt * -1 else dt) = |dt| := by
  by_cases h : dt < 0
  · rw [if_pos h, abs_of_neg h]; ring
  · rw [if_neg h, abs_of_nonneg (not_lt.mp h)]

/-- The same with the product `dt * -1` written as `-dt`. -/
theorem neg_when_negative_eq_abs' (dt : F) : (if dt < 0 then -dt else dt) = |dt| := by
  by_cases h : dt < 0
  · rw [if_pos h, abs_of_neg h]
  · rw [if_neg h, abs_of_nonneg (not_lt.mp h)]

/-- No further sample: the locals are unchanged. -/
theorem ShadowState.advance_nil (st : ShadowState F G) :
    st.advance st.lightArea [] st.gen = st := by
  cases st; simp [ShadowState.advance]

/-- Samples followed by further samples. -/
theorem ShadowState.advance_append (st : ShadowState F G) (area area' : F)
    (cs cs' : List (Vec3 F)) (gen gen' : G) :
    (st.advance area cs gen).advance area' cs' gen' = st.advance area' (cs ++ cs') gen' := by
  simp only [ShadowState.advance, List.foldl_append, List.length_append, List.replicate_add,
    List.append_assoc, Nat.add_assoc]

/-- One sample followed by further samples. -/
theorem ShadowState.advance_cons (st : ShadowState F G) (area area' : F) (c : Vec3 F)
    (cs : List (Vec3 F)) (gen gen' : G) :
    (st.advance area [c] gen).advance area' cs gen' = st.advance area' (c :: cs) gen' := by
  rw [ShadowState.advance_append]; rfl

/-- The generator state after further samples. -/
theorem ShadowState.advance_gen (st : ShadowState F G) (area : F) (cs : List (Vec3 F))
    (gen : G) : (st.advance area cs gen).gen = gen := rfl

/-- The accumulated area after further samples. -/
theorem ShadowState.advance_lightArea (st : ShadowState F G) (area : F) (cs : List (Vec3 F))
    (gen : G) : (st.advance area cs gen).lightArea = area := rfl

/-- The locals after further samples do not depend on the area and the
generator state before them. -/
theorem ShadowState.advance_congr (st : ShadowState F G) (a0 : F) (g0 : G) (area : F)
    (cs : List (Vec3 F)) (gen : G) :
    ({ lightContribution := st.lightContribution, lightCount := st.lightCount, lightArea := a0,
       gen := g0, calls := st.calls } : ShadowState F G).advance area cs gen
      = st.advance area cs gen := rfl

/-- One pass of the sample loop, with `castRay` run at the shadow depth: the
shadow ray is traced through the scene and its contribution is added. -/
theorem shadowSample_eq (env : Env F G) (scene : Scene F G) (fuel : Nat) (origin : Vec4 F)
    (normal : Vec3 F) (tri : Triangle F G) (st : ShadowState F G) :
    shadowSample env (castRay env scene (fuel + 1)) origin normal tri st
      = (shadowContributionsSpec env scene origin normal [tri] st.gen).map
          fun p => st.advance st.lightArea p.1 p.2 := by
  simp only [shadowSample, shadowContributionsSpec, castRay_at_shadow_depth, shadowOrigin]
  cases hi : scene.intersect (env.newRay (origin.add (Vec4.smul (1 / 10) (normal.toVec4 0)))
      (tri.getRandomPoint st.gen).1) with
  | error e => simp [bind, Except.bind, Except.map]
  | ok traced =>
    by_cases hl : traced.hasIntersection = true ∧
        traced.intersectionMaterial = Material.LIGHT_SOURCE
    · cases hn : Vec4.normalize env.sqrt (traced.target.sub traced.start) with
      | error e =>
        simp [bind, Except.bind, Except.map, shadowContributionSpec, shadowWeightSpec, hl, hn]
      | ok dir =>
        simp [bind, Except.bind, Except.map, shadowContributionSpec, shadowWeightSpec, hl, hn,
          ShadowState.advance, neg_when_negative_eq_abs, neg_when_negative_eq_abs']
    · have hl' : (traced.hasIntersection && traced.intersectionMaterial == Material.LIGHT_SOURCE)
          = false := by
        cases hh : traced.hasIntersection
        · simp
        · simp only [hh, true_and] at hl
          simp [hl]
      simp [bind, Except.bind, Except.map, shadowContributionSpec, hl, hl',
        ShadowState.advance, Vec3.add_zero_vec]

/-- The specification of the samples over two schedules in a row. -/
theorem shadowContributionsSpec_append (env : Env F G) (scene : Scene F G) (origin : Vec4 F)
    (normal : Vec3 F) (l1 l2 : List (Triangle F G)) (gen : G) :
    shadowContributionsSpec env scene origin normal (l1 ++ l2) gen
      = (shadowContributionsSpec env scene origin normal l1 gen).bind fun p1 =>
          (shadowContributionsSpec env scene origin normal l2 p1.2).map fun p2 =>
            (p1.1 ++ p2.1, p2.2) := by
  induction l1 generalizing gen with
  | nil =>
    simp only [List.nil_append, shadowContributionsSpec, Except.bind]
    cases shadowContributionsSpec env scene origin normal l2 gen <;> simp [Except.map]
  | cons tri rest ih =>
    rw [List.cons_append, shadowContributionsSpec, shadowContributionsSpec]
    simp only [ih, bind, Except.bind]
    cases h1 : scene.intersect
        (env.newRay (shadowOrigin origin normal) (tri.getRandomPoint gen).1) with
    | error e => rfl
    | ok traced =>
      simp only []
      cases h2 : shadowContributionSpec env.sqrt traced with
      | error e => rfl
      | ok c =>
        simp only []
        cases h3 : shadowContributionsSpec env scene origin normal rest
            (tri.getRandomPoint gen).2 with
        | error e => rfl
        | ok p1 =>
          simp only []
          cases h4 : shadowContributionsSpec env scene origin normal l2 p1.2 with
          | error e => simp [Except.map, h4]
          | ok p2 => simp [Except.map, h4]

/-- The sample loop of one light triangle against the specification. -/
theorem shadowSamples_eq (env : Env F G) (scene : Scene F G) (fuel : Nat) (origin : Vec4 F)
    (normal : Vec3 F) (tri : Triangle F G) (k : Nat) (st : ShadowState F G) :
    shadowSamples env (castRay env scene (fuel + 1)) origin normal tri k st
      = (shadowContributionsSpec env scene origin normal (List.replicate k tri) st.gen).map
          fun p => st.advance st.lightArea p.1 p.2 := by
  induction k generalizing st with
  | zero =>
    simp [shadowSamples, shadowContributionsSpec, Except.map, ShadowState.advance_nil]
  | succ k ih =>
    have hrep : List.replicate (k + 1) tri = [tri] ++ List.replicate k tri := rfl
    rw [hrep, shadowContributionsSpec_append]
    simp only [shadowSamples, shadowSample_eq, bind, Except.bind]
    cases shadowContributionsSpec env scene origin normal [tri] st.gen with
    | error e => rfl
    | ok p1 =>
      simp only [Except.map, ih]
      have hg : (st.advance st.lightArea p1.1 p1.2).gen = p1.2 := rfl
      have ha : (st.advance st.lightArea p1.1 p1.2).lightArea = st.lightArea := rfl
      rw [hg, ha]
      cases shadowContributionsSpec env scene origin normal (List.replicate k tri) p1.2 with
      | error e => rfl
      | ok p2 => simp [Except.map, ShadowState.advance_append]

/-- The loop over the triangles of one light source against the specification. -/
theorem shadowTriangles_eq (env : Env F G) (scene : Scene F G) (fuel : Nat) (origin : Vec4 F)
    (normal : Vec3 F) (tris : List (Triangle F G)) (st : ShadowState F G) :
    shadowTriangles env (castRay env scene (fuel + 1)) origin normal tris st
      = (shadowContributionsSpec env scene origin normal
          (scheduleOfTriangles env.SHADOW_RAY_COUNT tris) st.gen).map
          fun p => st.advance (areaOfTriangles st.lightArea tris) p.1 p.2 := by
  induction tris generalizing st with
  | nil =>
    simp [shadowTriangles, scheduleOfTriangles, shadowContributionsSpec, Except.map,
      areaOfTriangles, ShadowState.advance_nil]
  | cons t rest ih =>
    simp only [shadowTriangles, scheduleOfTriangles, shadowContributionsSpec_append,
      shadowSamples_eq, bind, Except.bind]
    cases shadowContributionsSpec env scene origin normal
        (List.replicate env.SHADOW_RAY_COUNT t) st.gen with
    | error e => rfl
    | ok p1 =>
      simp only [Except.map, ih, ShadowState.advance_gen, ShadowState.advance_lightArea,
        ShadowState.advance_congr]
      cases shadowContributionsSpec env scene origin normal
          (scheduleOfTriangles env.SHADOW_RAY_COUNT rest) p1.2 with
      | error e => rfl
      | ok p2 =>
        simp only [ShadowState.advance_append]
        rfl

/-- The loop over the light sources against the specification. -/
theorem shadowLights_eq (env : Env F G) (scene : Scene F G) (fuel : Nat) (origin : Vec4 F)
    (normal : Vec3 F) (lights : List (LightSource F G)) (st : ShadowState F G) :
    shadowLights env (castRay env scene (fuel + 1)) origin normal lights st
      = (shadowContributionsSpec env scene origin normal
          (scheduleOfLights env.SHADOW_RAY_COUNT lights) st.gen).map
          fun p => st.advance (areaOfLights st.lightArea lights) p.1 p.2 := by
  induction lights generalizing st with
  | nil =>
    simp [shadowLights, scheduleOfLights, shadowContributionsSpec, Except.map,
      areaOfLights, ShadowState.advance_nil]
  | cons l rest ih =>
    simp only [shadowLights, scheduleOfLights, shadowContributionsSpec_append,
      shadowTriangles_eq, bind, Except.bind]
    cases shadowContributionsSpec env scene origin normal
        (scheduleOfTriangles env.SHADOW_RAY_COUNT l.getTriangles) st.gen with
    | error e => rfl
    | ok p1 =>
      simp only [Except.map, ih, ShadowState.advance_gen, ShadowState.advance_lightArea]
      cases shadowContributionsSpec env scene origin normal
          (scheduleOfLights env.SHADOW_RAY_COUNT rest) p1.2 with
      | error e => rfl
      | ok p2 =>
        simp only [ShadowState.advance_append]
        rfl

end ShadowLemmas
/-- The schedule of one light source holds each of its triangles `K` times. -/
theorem scheduleOfTriangles_length {F G : Type} (K : Nat) (tris : List (Triangle F G)) :
    (scheduleOfTriangles K tris).length = tris.length * K := by
  induction tris with
  | nil => simp [scheduleOfTriangles]
  | cons t rest ih =>
    simp only [scheduleOfTriangles, List.length_append, List.length_replicate, ih,
      List.length_cons]
    ring

/-- The schedule of a scene holds `N * K` triangles. -/
theorem scheduleOfLights_length {F G : Type} (K : Nat) (lights : List (LightSource F G)) :
    (scheduleOfLights K lights).length
      = (lights.map fun l => l.getTriangles.length).sum * K := by
  induction lights with
  | nil => simp [scheduleOfLights]
  | cons l rest ih =>
    simp only [scheduleOfLights, List.length_append, scheduleOfTriangles_length, ih,
      List.map_cons, List.sum_cons]
    ring

section ShadowResults

variable {F G : Type} [LinearOrderedField F]

/-- The specification yields one contribution per scheduled triangle. -/
theorem shadowContributionsSpec_length (env : Env F G) (scene : Scene F G) (origin : Vec4 F)
    (normal : Vec3 F) (l : List (Triangle F G)) (gen : G) (p : List (Vec3 F) × G)
    (h : shadowContributionsSpec env scene origin normal l gen = .ok p) :
    p.1.length = l.length := by
  induction l generalizing gen p with
  | nil =>
    simp only [shadowContributionsSpec, Except.ok.injEq] at h
    rw [← h]; rfl
  | cons tri rest ih =>
    rw [shadowContributionsSpec] at h
    simp only [bind, Except.bind] at h
    cases h1 : scene.intersect
        (env.newRay (shadowOrigin origin normal) (tri.getRandomPoint gen).1) with
    | error e => simp [h1] at h
    | ok traced =>
      simp only [h1] at h
      cases h2 : shadowContributionSpec env.sqrt traced with
      | error e => simp [h2] at h
      | ok c =>
        simp only [h2] at h
        cases h3 : shadowContributionsSpec env scene origin normal rest
            (tri.getRandomPoint gen).2 with
        | error e => simp [h3] at h
        | ok p1 =>
          simp only [h3, Except.ok.injEq] at h
          rw [← h]
          simp [ih _ _ h3]

/-- The result of `castShadowRay` in terms of the specification of the samples,
when the calls of `castRay` may nest at least one deep. -/
theorem castShadowRay_eq (env : Env F G) (scene : Scene F G) (fuel : Nat) (origin : Vec4 F)
    (normal : Vec3 F) (gen : G) :
    castShadowRay env scene (fuel + 1) origin normal gen
      = (shadowContributionsSpec env scene origin normal
          (scheduleOfLights env.SHADOW_RAY_COUNT scene._lightSources) gen).bind fun p =>
          (Vec3.divScalar (p.1.foldl Vec3.add ⟨0, 0, 0⟩) ((p.1.length : Nat) : F)).map
            fun color =>
              { color := color, gen := p.2, lightCount := p.1.length
                calls := List.replicate p.1.length (Call.castRay SHADOW_DEPTH) } := by
  simp only [castShadowRay, castShadowRayWith, shadowLights_eq, bind, Except.bind]
  cases shadowContributionsSpec env scene origin normal
      (scheduleOfLights env.SHADOW_RAY_COUNT scene._lightSources) gen with
  | error e => rfl
  | ok p =>
    simp only [Except.map, ShadowState.advance, Nat.zero_add, List.nil_append]

/-- A finished `castShadowRay` fired `N * K` samples, counted them all and
called `castRay` only at the shadow depth. -/
theorem castShadowRay_ok (env : Env F G) (scene : Scene F G) (fuel : Nat) (origin : Vec4 F)
    (normal : Vec3 F) (gen : G) (sh : ShadowResult F G)
    (h : castShadowRay env scene (fuel + 1) origin normal gen = .ok sh) :
    sh.lightCount = scene.lightTriangleCount * env.SHADOW_RAY_COUNT ∧
    sh.calls = List.replicate sh.lightCount (Call.castRay SHADOW_DEPTH) := by
  rw [castShadowRay_eq] at h
  cases hs : shadowContributionsSpec env scene origin normal
      (scheduleOfLights env.SHADOW_RAY_COUNT scene._lightSources) gen with
  | error e => simp [hs, Except.bind] at h
  | ok p =>
    have hlen := shadowContributionsSpec_length env scene origin normal _ gen p hs
    rw [scheduleOfLights_length] at hlen
    simp only [hs, Except.bind] at h
    cases hd : Vec3.divScalar (List.foldl Vec3.add ⟨0, 0, 0⟩ p.1) ((p.1.length : Nat) : F) with
    | error e => simp [hd, Except.map] at h
    | ok c =>
      simp only [hd, Except.map, Except.ok.injEq] at h
      rw [← h]
      exact ⟨hlen, rfl⟩

/-- When every shadow ray can be traced and weighted, the specification of
the samples has a value on every schedule. -/
theorem shadowContributionsSpec_total (env : Env F G) (scene : Scene F G) (origin : Vec4 F)
    (normal : Vec3 F)
    (hsample : ∀ r, ∃ t c, scene.intersect r = .ok t ∧
      shadowContributionSpec env.sqrt t = .ok c)
    (l : List (Triangle F G)) (gen : G) :
    ∃ p, shadowContributionsSpec env scene origin normal l gen = .ok p := by
  induction l generalizing gen with
  | nil => exact ⟨_, rfl⟩
  | cons tri rest ih =>
    obtain ⟨t, c, ht, hc⟩ := hsample
      (env.newRay (shadowOrigin origin normal) (tri.getRandomPoint gen).1)
    obtain ⟨p, hp⟩ := ih (tri.getRandomPoint gen).2
    refine ⟨(c :: p.1, p.2), ?_⟩
    rw [shadowContributionsSpec]
    simp only [bind, Except.bind, ht, hc, hp]

end ShadowResults

section ExampleSceneLemmas

variable {F : Type} [LinearOrderedField F]

/-- In `sceneOf m` every ray ends with the hit that the wall records. -/
theorem intersect_sceneOf (m : Material) (r : Ray F) :
    (sceneOf m : Scene F Unit).intersect r
      = .ok (r.updateIntersection 1 ⟨0, 0, 0, 1⟩ ⟨1, 1, 1⟩ ⟨0, 0, 1⟩ m) := by
  simp [Scene.intersect, sceneOf, wallOf, exampleLight, alwaysHit, neverHit, traceAll, bind,
    Except.bind]

/-- In `sceneOf m` with `m` not a light source every shadow ray can be traced
and contributes the zero colour. -/
theorem sceneOf_samples (sqrt : F → F) (m : Material) (hm : m ≠ Material.LIGHT_SOURCE)
    (r : Ray F) :
    ∃ t c, (sceneOf m : Scene F Unit).intersect r = .ok t ∧
      shadowContributionSpec sqrt t = .ok c :=
  ⟨_, ⟨0, 0, 0⟩, intersect_sceneOf m r, by
    simp [shadowContributionSpec, Ray.updateIntersection, hm]⟩

/-- The scene `sceneOf m` has one light triangle. -/
theorem sceneOf_lightTriangleCount (m : Material) :
    (sceneOf m : Scene F Unit).lightTriangleCount = 1 := rfl

end ExampleSceneLemmas

/-! ## The number of shadow rays -/

section ShadowCount

variable {F G : Type} [LinearOrderedField F]

/-- One shadow ray is constructed per scheduled light triangle. -/
theorem shadowRaysCast_length (env : Env F G) (origin : Vec4 F) (normal : Vec3 F)
    (l : List (Triangle F G)) (gen : G) :
    (shadowRaysCast env origin normal l gen).length = l.length := by
  induction l generalizing gen with
  | nil => rfl
  | cons tri rest ih => simp [shadowRaysCast, ih]

/-- When each of the shadow rays that are cast can be traced and weighted, the
specification of the samples has a value. -/
theorem shadowContributionsSpec_of_cast (env : Env F G) (scene : Scene F G) (origin : Vec4 F)
    (normal : Vec3 F) (l : List (Triangle F G)) (gen : G)
    (hcast : ∀ r ∈ shadowRaysCast env origin normal l gen, ∃ t c,
      scene.intersect r = .ok t ∧ shadowContributionSpec env.sqrt t = .ok c) :
    ∃ p, shadowContributionsSpec env scene origin normal l gen = .ok p := by
  induction l generalizing gen with
  | nil => exact ⟨_, rfl⟩
  | cons tri rest ih =>
    obtain ⟨t, c, ht, hc⟩ := hcast
      (env.newRay (shadowOrigin origin normal) (tri.getRandomPoint gen).1)
      (by simp [shadowRaysCast])
    obtain ⟨p, hp⟩ := ih (tri.getRandomPoint gen).2
      (fun r hr => hcast r (by simp [shadowRaysCast, hr]))
    refine ⟨(c :: p.1, p.2), ?_⟩
    rw [shadowContributionsSpec]
    simp only [bind, Except.bind, ht, hc, hp]

end ShadowCount

/-- C12. For a scene with `N` light triangles in total and `K =
SHADOW_RAY_COUNT`, one call of `castShadowRay` constructs `N * K` shadow rays;
when each of these `N * K` rays can be traced and weighted, the loops finish
with `lightCount = N * K` after exactly `N * K` calls of `castRay`, all at the
shadow depth `-1`, and the final division is by `N * K`. -/
theorem castShadowRay_fires_N_times_K {F G : Type} [LinearOrderedField F] (env : Env F G)
    (scene : Scene F G) (fuel : Nat) (origin : Vec4 F) (normal : Vec3 F) (gen : G)
    (hcast : ∀ r ∈ shadowRaysCast env origin normal
        (scheduleOfLights env.SHADOW_RAY_COUNT scene._lightSources) gen,
      ∃ t c, scene.intersect r = .ok t ∧ shadowContributionSpec env.sqrt t = .ok c) :
    (shadowRaysCast env origin normal
        (scheduleOfLights env.SHADOW_RAY_COUNT scene._lightSources) gen).length
      = scene.lightTriangleCount * env.SHADOW_RAY_COUNT ∧
    ∃ st, shadowLights env (castRay env scene (fuel + 1)) origin normal scene._lightSources
        { lightContribution := ⟨0, 0, 0⟩, lightCount := 0, lightArea := 0, gen := gen,
          calls := [] } = .ok st ∧
      st.lightCount = scene.lightTriangleCount * env.SHADOW_RAY_COUNT ∧
      st.calls = List.replicate (scene.lightTriangleCount * env.SHADOW_RAY_COUNT)
        (Call.castRay SHADOW_DEPTH) ∧
      castShadowRay env scene (fuel + 1) origin normal gen
        = (Vec3.divScalar st.lightContribution
            ((scene.lightTriangleCount * env.SHADOW_RAY_COUNT : Nat) : F)).map fun color =>
            { color := color, gen := st.gen
              lightCount := scene.lightTriangleCount * env.SHADOW_RAY_COUNT
              calls := st.calls } := by
  obtain ⟨p, hp⟩ := shadowContributionsSpec_of_cast env scene origin normal
    (scheduleOfLights env.SHADOW_RAY_COUNT scene._lightSources) gen hcast
  have hlen := shadowContributionsSpec_length env scene origin normal _ gen p hp
  rw [scheduleOfLights_length] at hlen
  have hlen' : p.1.length = scene.lightTriangleCount * env.SHADOW_RAY_COUNT := hlen
  refine ⟨?_, ShadowState.advance ⟨⟨0, 0, 0⟩, 0, 0, gen, []⟩
    (areaOfLights 0 scene._lightSources) p.1 p.2, ?_, ?_, ?_, ?_⟩
  · rw [shadowRaysCast_length, scheduleOfLights_length]; rfl
  · rw [shadowLights_eq, hp]; rfl
  · simp [ShadowState.advance, hlen']
  · simp [ShadowState.advance, hlen']
  · rw [castShadowRay_eq, hp]
    simp only [Except.bind, ShadowState.advance, hlen', List.nil_append]

section LitSceneLemmas

/-- In `litScene` every ray ends with the hit that the light sources record. -/
theorem intersect_litScene {F : Type} [LinearOrderedField F] (r : Ray F) :
    (litScene : Scene F Unit).intersect r
      = .ok (r.updateIntersection 1 ⟨0, 0, 0, 1⟩ ⟨1, 1, 1⟩ ⟨0, 0, 1⟩ Material.LIGHT_SOURCE) := by
  simp [Scene.intersect, litScene, brightLight, alwaysHit, traceAll, bind, Except.bind,
    Ray.updateIntersection]

/-- A shadow ray of length `19/10` along `+z` that ends on a white light source
with normal `+z` contributes white with weight `1`. -/
theorem head_on_contribution (r : Ray ℝ) (hr : r.target.sub r.start = ⟨0, 0, 19 / 10, 0⟩) :
    shadowContributionSpec Real.sqrt
      (r.updateIntersection 1 ⟨0, 0, 0, 1⟩ ⟨1, 1, 1⟩ ⟨0, 0, 1⟩ Material.LIGHT_SOURCE)
      = .ok ⟨1, 1, 1⟩ := by
  have hsqrt : Real.sqrt (361 / 100) = 19 / 10 :=
    sqrt_of_mul_self (by norm_num) (by norm_num)
  have hd : (⟨0, 0, 19 / 10, 0⟩ : Vec4 ℝ).dot ⟨0, 0, 19 / 10, 0⟩ = 361 / 100 := by
    norm_num [Vec4.dot]
  simp only [shadowContributionSpec, shadowWeightSpec, Ray.updateIntersection, hr,
    Vec4.normalize, hd, fsqrt, hsqrt, fdiv, bind, Except.bind]
  norm_num [Vec4.smul, Vec4.xyz, Vec3.dot, Vec3.smul]

/-- The six shadow rays cast in `litScene` from the point `(0, 0, 0)` with
normal `+z`: each runs from `(0, 0, 1/10)` to the point `(0, 0, 2)` drawn on its
light triangle, reaches a light source and contributes white. -/
theorem litScene_rays_cast :
    ∀ r ∈ shadowRaysCast (exampleEnv Real.pi Real.sqrt Real.sin Real.cos Real.arcsin)
        ⟨0, 0, 0, 1⟩ ⟨0, 0, 1⟩
        (scheduleOfLights
          (exampleEnv Real.pi Real.sqrt Real.sin Real.cos Real.arcsin : Env ℝ Unit).SHADOW_RAY_COUNT
          (litScene : Scene ℝ Unit)._lightSources) (),
      (litScene : Scene ℝ Unit).intersect r
          = .ok (r.updateIntersection 1 ⟨0, 0, 0, 1⟩ ⟨1, 1, 1⟩ ⟨0, 0, 1⟩ Material.LIGHT_SOURCE) ∧
        shadowContributionSpec
          (exampleEnv Real.pi Real.sqrt Real.sin Real.cos Real.arcsin : Env ℝ Unit).sqrt
          (r.updateIntersection 1 ⟨0, 0, 0, 1⟩ ⟨1, 1, 1⟩ ⟨0, 0, 1⟩ Material.LIGHT_SOURCE)
          = .ok ⟨1, 1, 1⟩ := by
  intro r hr
  refine ⟨intersect_litScene r, ?_⟩
  have hray : ((exampleEnv Real.pi Real.sqrt Real.sin Real.cos Real.arcsin : Env ℝ Unit).newRay
      (shadowOrigin ⟨0, 0, 0, 1⟩ ⟨0, 0, 1⟩) ⟨0, 0, 2, 1⟩).target.sub
      ((exampleEnv Real.pi Real.sqrt Real.sin Real.cos Real.arcsin : Env ℝ Unit).newRay
        (shadowOrigin ⟨0, 0, 0, 1⟩ ⟨0, 0, 1⟩) ⟨0, 0, 2, 1⟩).start = ⟨0, 0, 19 / 10, 0⟩ := by
    norm_num [exampleEnv, rayWithoutHit, shadowOrigin, Vec4.sub, Vec4.add, Vec4.smul,
      Vec4.xyz, Vec3.toVec4]
  have hsched : scheduleOfLights
      (exampleEnv Real.pi Real.sqrt Real.sin Real.cos Real.arcsin : Env ℝ Unit).SHADOW_RAY_COUNT
      (litScene : Scene ℝ Unit)._lightSources
      = List.replicate 6 exampleLightTriangle := rfl
  have hr' : r = (exampleEnv Real.pi Real.sqrt Real.sin Real.cos Real.arcsin : Env ℝ Unit).newRay
      (shadowOrigin ⟨0, 0, 0, 1⟩ ⟨0, 0, 1⟩) ⟨0, 0, 2, 1⟩ := by
    rw [hsched] at hr
    simp only [List.replicate, shadowRaysCast, exampleLightTriangle, List.mem_cons,
      List.mem_nil_iff, or_false, or_self] at hr
    exact hr
  rw [hr']
  exact head_on_contribution _ hray

/-- An evaluation of `castShadowRay` in `litScene`: all six samples from the
point `(0, 0, 0)` with normal `+z` reach a light head-on, so the average of
the six white contributions is white. -/
theorem castShadowRay_litScene :
    castShadowRay (exampleEnv Real.pi Real.sqrt Real.sin Real.cos Real.arcsin)
      litScene 1 ⟨0, 0, 0, 1⟩ ⟨0, 0, 1⟩ ()
      = .ok { color := ⟨1, 1, 1⟩, gen := (), lightCount := 6,
              calls := List.replicate 6 (Call.castRay SHADOW_DEPTH) } := by
  have hray : ((exampleEnv Real.pi Real.sqrt Real.sin Real.cos Real.arcsin : Env ℝ Unit).newRay
      (shadowOrigin ⟨0, 0, 0, 1⟩ ⟨0, 0, 1⟩) ⟨0, 0, 2, 1⟩).target.sub
      ((exampleEnv Real.pi Real.sqrt Real.sin Real.cos Real.arcsin : Env ℝ Unit).newRay
        (shadowOrigin ⟨0, 0, 0, 1⟩ ⟨0, 0, 1⟩) ⟨0, 0, 2, 1⟩).start = ⟨0, 0, 19 / 10, 0⟩ := by
    norm_num [exampleEnv, rayWithoutHit, shadowOrigin, Vec4.sub, Vec4.add, Vec4.smul,
      Vec4.xyz, Vec3.toVec4]
  have hstep := head_on_contribution _ hray
  have hs : (exampleEnv Real.pi Real.sqrt Real.sin Real.cos Real.arcsin : Env ℝ Unit).sqrt
      = Real.sqrt := rfl
  have hsched : scheduleOfLights
      (exampleEnv Real.pi Real.sqrt Real.sin Real.cos Real.arcsin : Env ℝ Unit).SHADOW_RAY_COUNT
      (litScene : Scene ℝ Unit)._lightSources
      = List.replicate 6 exampleLightTriangle := rfl
  have hspec : shadowContributionsSpec
      (exampleEnv Real.pi Real.sqrt Real.sin Real.cos Real.arcsin)
      litScene ⟨0, 0, 0, 1⟩ ⟨0, 0, 1⟩
      (scheduleOfLights (exampleEnv Real.pi Real.sqrt Real.sin Real.cos Real.arcsin :
        Env ℝ Unit).SHADOW_RAY_COUNT (litScene : Scene ℝ Unit)._lightSources)
      () = .ok (List.replicate 6 ⟨1, 1, 1⟩, ()) := by
    rw [hsched]
    simp only [List.replicate, shadowContributionsSpec, exampleLightTriangle, intersect_litScene,
      hs, hstep, bind, Except.bind]
  rw [castShadowRay_eq, hspec]
  simp only [Except.bind, List.replicate, List.foldl, Vec3.add, Vec3.divScalar, fdiv, bind,
    Except.map, List.length]
  norm_num

end LitSceneLemmas

/-- Witness for C12: `litScene` has `N = 3` light triangles in two light
sources, `exampleEnv` has `K = 2`, and each of the six shadow rays cast from
the point `(0, 0, 0)` with normal `+z` reaches a light source; the call
returns white with `lightCount = 6`. -/
theorem castShadowRay_fires_N_times_K_witness :
    (∀ r ∈ shadowRaysCast (exampleEnv Real.pi Real.sqrt Real.sin Real.cos Real.arcsin)
        ⟨0, 0, 0, 1⟩ ⟨0, 0, 1⟩
        (scheduleOfLights
          (exampleEnv Real.pi Real.sqrt Real.sin Real.cos Real.arcsin : Env ℝ Unit).SHADOW_RAY_COUNT
          (litScene : Scene ℝ Unit)._lightSources) (),
      ∃ t c, (litScene : Scene ℝ Unit).intersect r = .ok t ∧
        shadowContributionSpec
          (exampleEnv Real.pi Real.sqrt Real.sin Real.cos Real.arcsin : Env ℝ Unit).sqrt t
          = .ok c) ∧
    (shadowRaysCast (exampleEnv Real.pi Real.sqrt Real.sin Real.cos Real.arcsin)
        ⟨0, 0, 0, 1⟩ ⟨0, 0, 1⟩
        (scheduleOfLights
          (exampleEnv Real.pi Real.sqrt Real.sin Real.cos Real.arcsin : Env ℝ Unit).SHADOW_RAY_COUNT
          (litScene : Scene ℝ Unit)._lightSources) ()).length = 3 * 2 ∧
    ∃ st, shadowLights (exampleEnv Real.pi Real.sqrt Real.sin Real.cos Real.arcsin)
        (castRay (exampleEnv Real.pi Real.sqrt Real.sin Real.cos Real.arcsin) litScene (0 + 1))
        ⟨0, 0, 0, 1⟩ ⟨0, 0, 1⟩ (litScene : Scene ℝ Unit)._lightSources
        { lightContribution := ⟨0, 0, 0⟩, lightCount := 0, lightArea := 0, gen := (),
          calls := [] } = .ok st ∧
      st.lightCount = 3 * 2 ∧
      st.calls = List.replicate (3 * 2) (Call.castRay SHADOW_DEPTH) ∧
      (castShadowRay (exampleEnv Real.pi Real.sqrt Real.sin Real.cos Real.arcsin)
          litScene (0 + 1) ⟨0, 0, 0, 1⟩ ⟨0, 0, 1⟩ ()
        = (Vec3.divScalar st.lightContribution ((3 * 2 : Nat) : ℝ)).map fun color =>
            { color := color, gen := st.gen, lightCount := 3 * 2, calls := st.calls }) ∧
      castShadowRay (exampleEnv Real.pi Real.sqrt Real.sin Real.cos Real.arcsin)
          litScene (0 + 1) ⟨0, 0, 0, 1⟩ ⟨0, 0, 1⟩ ()
        = .ok { color := ⟨1, 1, 1⟩, gen := (), lightCount := 6,
                calls := List.replicate 6 (Call.castRay SHADOW_DEPTH) } :=
  have hcast := fun r hr => (⟨_, _, litScene_rays_cast r hr⟩ :
    ∃ t c, (litScene : Scene ℝ Unit).intersect r = .ok t ∧
      shadowContributionSpec
        (exampleEnv Real.pi Real.sqrt Real.sin Real.cos Real.arcsin : Env ℝ Unit).sqrt t
        = .ok c)
  have h := castShadowRay_fires_N_times_K
    (exampleEnv Real.pi Real.sqrt Real.sin Real.cos Real.arcsin)
    litScene 0 ⟨0, 0, 0, 1⟩ ⟨0, 0, 1⟩ () hcast
  ⟨hcast, h.1, h.2.imp fun _ hst => ⟨hst.1, hst.2.1, hst.2.2.1, hst.2.2.2,
    castShadowRay_litScene⟩⟩

/-- C15. The colour that `castShadowRay` returns is the specified average:
the sum of the contributions of all `N * K` shadow samples divided by `N * K`
(a value exactly when the samples have values and at least one is fired),
where a sample contributes its colour times the absolute value of the dot
product of its normalised direction with the hit normal when its nearest hit
is a light source, and zero otherwise.  The weight is the same for a normal
`n` and for `-n`. -/
theorem castShadowRay_is_global_average {F G : Type} [LinearOrderedField F] (env : Env F G)
    (scene : Scene F G) (fuel : Nat) (origin : Vec4 F) (normal : Vec3 F) (gen : G) :
    (castShadowRay env scene (fuel + 1) origin normal gen).map (fun sh => sh.color)
      = shadowAverageSpec env scene origin normal gen ∧
    (∀ p, shadowContributionsSpec env scene origin normal
        (scheduleOfLights env.SHADOW_RAY_COUNT scene._lightSources) gen = .ok p →
      p.1.length = scene.lightTriangleCount * env.SHADOW_RAY_COUNT) ∧
    (∀ (shadowRay : Ray F) (n : Vec3 F),
      shadowWeightSpec env.sqrt shadowRay n.neg = shadowWeightSpec env.sqrt shadowRay n) := by
  refine ⟨?_, ?_, ?_⟩
  · rw [castShadowRay_eq]
    simp only [shadowAverageSpec, bind, Except.bind]
    cases shadowContributionsSpec env scene origin normal
        (scheduleOfLights env.SHADOW_RAY_COUNT scene._lightSources) gen with
    | error e => rfl
    | ok p =>
      simp only [Except.map]
      cases Vec3.divScalar (List.foldl Vec3.add ⟨0, 0, 0⟩ p.1) ((p.1.length : Nat) : F) with
      | error e => rfl
      | ok c => rfl
  · intro p hp
    have hlen := shadowContributionsSpec_length env scene origin normal _ gen p hp
    rw [scheduleOfLights_length] at hlen
    exact hlen
  · intro shadowRay n
    simp only [shadowWeightSpec, bind, Except.bind]
    cases Vec4.normalize env.sqrt (shadowRay.target.sub shadowRay.start) with
    | error e => rfl
    | ok dir =>
      have h : dir.xyz.dot n.neg = -(dir.xyz.dot n) := by
        simp only [Vec3.dot, Vec3.neg]; ring
      simp only [h, abs_neg]
/-- An evaluation of `castShadowRay` with the light in view: in
`sceneOf LIGHT_SOURCE` both samples from the point `(0, 0, 0)` with normal `+z`
hit the light head-on (weight `1`, colour white), so the average is white. -/
theorem castShadowRay_example_light_in_view :
    castShadowRay (exampleEnv Real.pi Real.sqrt Real.sin Real.cos Real.arcsin)
      (sceneOf Material.LIGHT_SOURCE) 1 ⟨0, 0, 0, 1⟩ ⟨0, 0, 1⟩ ()
      = .ok { color := ⟨1, 1, 1⟩, gen := (), lightCount := 2,
              calls := [Call.castRay SHADOW_DEPTH, Call.castRay SHADOW_DEPTH] } := by
  have hsqrt : Real.sqrt (361 / 100) = 19 / 10 :=
    sqrt_of_mul_self (by norm_num) (by norm_num)
  have hw : ∀ r : Ray ℝ, r.target.sub r.start = ⟨0, 0, 19 / 10, 0⟩ →
      shadowContributionSpec Real.sqrt
        (r.updateIntersection 1 ⟨0, 0, 0, 1⟩ ⟨1, 1, 1⟩ ⟨0, 0, 1⟩ Material.LIGHT_SOURCE)
        = .ok ⟨1, 1, 1⟩ := by
    intro r hr
    have hd : (⟨0, 0, 19 / 10, 0⟩ : Vec4 ℝ).dot ⟨0, 0, 19 / 10, 0⟩ = 361 / 100 := by
      norm_num [Vec4.dot]
    simp only [shadowContributionSpec, shadowWeightSpec, Ray.updateIntersection, hr,
      Vec4.normalize, hd, fsqrt, hsqrt, fdiv, bind, Except.bind]
    norm_num [Vec4.smul, Vec4.xyz, Vec3.dot, Vec3.smul]
  have hray : ((exampleEnv Real.pi Real.sqrt Real.sin Real.cos Real.arcsin : Env ℝ Unit).newRay
      (shadowOrigin ⟨0, 0, 0, 1⟩ ⟨0, 0, 1⟩) ⟨0, 0, 2, 1⟩).target.sub
      ((exampleEnv Real.pi Real.sqrt Real.sin Real.cos Real.arcsin : Env ℝ Unit).newRay
        (shadowOrigin ⟨0, 0, 0, 1⟩ ⟨0, 0, 1⟩) ⟨0, 0, 2, 1⟩).start = ⟨0, 0, 19 / 10, 0⟩ := by
    norm_num [exampleEnv, rayWithoutHit, shadowOrigin, Vec4.sub, Vec4.add, Vec4.smul,
      Vec4.xyz, Vec3.toVec4]
  rw [castShadowRay_eq]
  have hspec : shadowContributionsSpec
      (exampleEnv Real.pi Real.sqrt Real.sin Real.cos Real.arcsin)
      (sceneOf Material.LIGHT_SOURCE) ⟨0, 0, 0, 1⟩ ⟨0, 0, 1⟩
      (scheduleOfLights (exampleEnv Real.pi Real.sqrt Real.sin Real.cos Real.arcsin :
        Env ℝ Unit).SHADOW_RAY_COUNT (sceneOf Material.LIGHT_SOURCE : Scene ℝ Unit)._lightSources)
      () = .ok ([⟨1, 1, 1⟩, ⟨1, 1, 1⟩], ()) := by
    have hsched : scheduleOfLights (exampleEnv Real.pi Real.sqrt Real.sin Real.cos Real.arcsin :
        Env ℝ Unit).SHADOW_RAY_COUNT (sceneOf Material.LIGHT_SOURCE : Scene ℝ Unit)._lightSources
        = [exampleLightTriangle, exampleLightTriangle] := rfl
    have hstep := hw _ hray
    have hs : (exampleEnv Real.pi Real.sqrt Real.sin Real.cos Real.arcsin : Env ℝ Unit).sqrt
        = Real.sqrt := rfl
    rw [hsched]
    simp only [shadowContributionsSpec, exampleLightTriangle, intersect_sceneOf, hs, hstep,
      bind, Except.bind]
  rw [hspec]
  simp only [Except.bind, List.foldl, Vec3.add, Vec3.divScalar, fdiv, bind, Except.map,
    List.length]
  norm_num [List.replicate]
/-! ## The perfect-reflector case -/

section MirrorLemmas

variable {F G : Type} [LinearOrderedField F]

/-- The successor of a `size_t` depth other than the shadow depth does not wrap. -/
theorem depth_succ_mod (depth : Nat) (hsize : depth < 2 ^ 64) (hd : depth ≠ SHADOW_DEPTH) :
    (depth + 1) % 2 ^ 64 = depth + 1 := by
  apply Nat.mod_eq_of_lt
  simp only [SHADOW_DEPTH] at hd
  omega

/-- A perfect-reflector hit at a depth that has reached `MAX_DEPTH`: the
colour becomes the direct-light term and no bounce is cast. -/
theorem castRay_mirror_cutoff (env : Env F G) (scene : Scene F G) (fuel : Nat)
    (ray traced : Ray F) (depth : Nat) (gen : G) (sh : ShadowResult F G)
    (hi : scene.intersect ray = .ok traced) (hh : traced.hasIntersection = true)
    (hm : traced.intersectionMaterial = Material.PERFECT_REFLECTOR)
    (hd : depth ≠ SHADOW_DEPTH) (hmax : env.MAX_DEPTH ≤ depth)
    (hsh : castShadowRay env scene fuel traced.intersectionPoint traced.intersectionNormal gen
      = .ok sh) :
    castRay env scene (fuel + 1) ray depth gen
      = .ok { hit := true, ray := traced.withColor sh.color, gen := sh.gen
              calls := Call.castShadowRay :: sh.calls } := by
  have hlt : ¬ depth < env.MAX_DEPTH := not_lt.mpr hmax
  simp only [castShadowRay] at hsh
  simp only [castRay, hi, hh, hd, hm, hsh, hlt, bind, Except.bind, Bool.not_true,
    Bool.false_eq_true, if_false, Ray.withColor]

/-- A perfect-reflector hit below `MAX_DEPTH`: one bounce ray is cast at the
next depth and the colour is the 20/80 blend. -/
theorem castRay_mirror_bounce (env : Env F G) (scene : Scene F G) (fuel : Nat)
    (ray traced : Ray F) (depth : Nat) (gen : G) (sh : ShadowResult F G) (res : CastResult F G)
    (hi : scene.intersect ray = .ok traced) (hh : traced.hasIntersection = true)
    (hm : traced.intersectionMaterial = Material.PERFECT_REFLECTOR)
    (hd : depth ≠ SHADOW_DEPTH) (hlt : depth < env.MAX_DEPTH)
    (hsh : castShadowRay env scene fuel traced.intersectionPoint traced.intersectionNormal gen
      = .ok sh)
    (hres : castRay env scene fuel
      (env.newRay (mirrorBounceStart traced) (mirrorBounceTarget traced))
      ((depth + 1) % 2 ^ 64) sh.gen = .ok res) :
    castRay env scene (fuel + 1) ray depth gen
      = .ok { hit := true
              ray := traced.withColor
                ((Vec3.smul (2 / 10) sh.color).add (Vec3.smul (8 / 10) res.ray.color))
              gen := res.gen
              calls := (Call.castShadowRay :: sh.calls)
                ++ Call.castRay ((depth + 1) % 2 ^ 64) :: res.calls } := by
  simp only [castShadowRay] at hsh
  simp only [mirrorBounceStart, mirrorBounceTarget, mirrorOutDirection] at hres
  simp only [castRay, hi, hh, hd, hm, hsh, hlt, hres, bind, Except.bind, Bool.not_true,
    Bool.false_eq_true, if_false, if_true, Ray.withColor]

/-- With at least one sample scheduled and every shadow ray traced and
weighted, `castShadowRay` has a value. -/
theorem castShadowRay_total (env : Env F G) (scene : Scene F G) (fuel : Nat) (origin : Vec4 F)
    (normal : Vec3 F) (gen : G)
    (hsample : ∀ r, ∃ t c, scene.intersect r = .ok t ∧
      shadowContributionSpec env.sqrt t = .ok c)
    (hpos : 0 < scene.lightTriangleCount * env.SHADOW_RAY_COUNT) :
    ∃ sh, castShadowRay env scene (fuel + 1) origin normal gen = .ok sh := by
  obtain ⟨p, hp⟩ := shadowContributionsSpec_total env scene origin normal hsample
    (scheduleOfLights env.SHADOW_RAY_COUNT scene._lightSources) gen
  have hlen := shadowContributionsSpec_length env scene origin normal _ gen p hp
  rw [scheduleOfLights_length] at hlen
  have hlen' : p.1.length = scene.lightTriangleCount * env.SHADOW_RAY_COUNT := hlen
  have hne : ((p.1.length : Nat) : F) ≠ 0 := by
    rw [hlen']; exact Nat.cast_ne_zero.mpr (Nat.pos_iff_ne_zero.mp hpos)
  rw [castShadowRay_eq, hp]
  simp only [Except.bind, Vec3.divScalar, fdiv, hne, if_false, bind, Except.map]
  exact ⟨_, rfl⟩

/-- In a scene where every hit is a perfect reflector, every shadow ray that
can be traced contributes the zero colour. -/
theorem mirror_scene_samples (sqrt : F → F) (scene : Scene F G)
    (hmirror : ∀ r, ∃ t, scene.intersect r = .ok t ∧
      (t.hasIntersection = true → t.intersectionMaterial = Material.PERFECT_REFLECTOR))
    (r : Ray F) :
    ∃ t c, scene.intersect r = .ok t ∧ shadowContributionSpec sqrt t = .ok c := by
  obtain ⟨t, ht, hmat⟩ := hmirror r
  refine ⟨t, ⟨0, 0, 0⟩, ht, ?_⟩
  have hnot : ¬ (t.hasIntersection = true ∧ t.intersectionMaterial = Material.LIGHT_SOURCE) := by
    rintro ⟨h1, h2⟩
    rw [hmat h1] at h2
    exact absurd h2 (by decide)
  simp [shadowContributionSpec, hnot]

/-- In a scene where every hit is a perfect reflector and at least one shadow
sample is scheduled, `castRay` finishes whenever its budget exceeds the
number of depths left below `MAX_DEPTH` by two, and every call of `castRay` it
makes is a shadow ray or a bounce at a greater depth up to `MAX_DEPTH`. -/
theorem castRay_mirror_scene (env : Env F G) (scene : Scene F G)
    (hmirror : ∀ r, ∃ t, scene.intersect r = .ok t ∧
      (t.hasIntersection = true → t.intersectionMaterial = Material.PERFECT_REFLECTOR))
    (hpos : 0 < scene.lightTriangleCount * env.SHADOW_RAY_COUNT) (n : Nat) :
    ∀ (fuel depth : Nat) (ray : Ray F) (gen : G), depth < 2 ^ 64 →
      env.MAX_DEPTH - depth ≤ n → n + 2 ≤ fuel →
      ∃ res, castRay env scene fuel ray depth gen = .ok res ∧
        ∀ d, Call.castRay d ∈ res.calls →
          d = SHADOW_DEPTH ∨ (depth < d ∧ d ≤ env.MAX_DEPTH) := by
  induction n with
  | zero =>
    intro fuel depth ray gen hsize hn hfuel
    obtain ⟨f, rfl⟩ : ∃ f, fuel = f + 2 := ⟨fuel - 2, by omega⟩
    obtain ⟨t, ht, hmat⟩ := hmirror ray
    cases hh : t.hasIntersection with
    | false => exact ⟨_, castRay_of_miss env scene (f + 1) ray t depth gen ht hh, by simp⟩
    | true =>
      by_cases hd : depth = SHADOW_DEPTH
      · subst hd
        refine ⟨_, by rw [castRay_at_shadow_depth, ht]; rfl, by simp⟩
      · obtain ⟨sh, hsh⟩ := castShadowRay_total env scene f t.intersectionPoint
          t.intersectionNormal gen (mirror_scene_samples env.sqrt scene hmirror) hpos
        have hcalls := (castShadowRay_ok env scene f _ _ gen sh hsh).2
        refine ⟨_, castRay_mirror_cutoff env scene (f + 1) ray t depth gen sh ht hh (hmat hh) hd
          (by omega) hsh, ?_⟩
        intro d hmem
        simp only [List.mem_cons, hcalls, List.mem_replicate] at hmem
        rcases hmem with h | ⟨_, h⟩
        · exact absurd h (by simp)
        · left; exact (Call.castRay.inj h)
  | succ n ih =>
    intro fuel depth ray gen hsize hn hfuel
    obtain ⟨f, rfl⟩ : ∃ f, fuel = f + 2 := ⟨fuel - 2, by omega⟩
    obtain ⟨t, ht, hmat⟩ := hmirror ray
    cases hh : t.hasIntersection with
    | false => exact ⟨_, castRay_of_miss env scene (f + 1) ray t depth gen ht hh, by simp⟩
    | true =>
      by_cases hd : depth = SHADOW_DEPTH
      · subst hd
        refine ⟨_, by rw [castRay_at_shadow_depth, ht]; rfl, by simp⟩
      · obtain ⟨sh, hsh⟩ := castShadowRay_total env scene f t.intersectionPoint
          t.intersectionNormal gen (mirror_scene_samples env.sqrt scene hmirror) hpos
        have hcalls := (castShadowRay_ok env scene f _ _ gen sh hsh).2
        by_cases hlt : depth < env.MAX_DEPTH
        · have hmod := depth_succ_mod depth hsize hd
          have hsucc : depth + 1 < 2 ^ 64 := by
            simp only [SHADOW_DEPTH] at hd
            omega
          obtain ⟨res, hres, hdepths⟩ := ih (f + 1) (depth + 1)
            (env.newRay (mirrorBounceStart t) (mirrorBounceTarget t)) sh.gen hsucc
            (by omega) (by omega)
          have hres' : castRay env scene (f + 1)
              (env.newRay (mirrorBounceStart t) (mirrorBounceTarget t))
              ((depth + 1) % 2 ^ 64) sh.gen = .ok res := by rw [hmod]; exact hres
          refine ⟨_, castRay_mirror_bounce env scene (f + 1) ray t depth gen sh res ht hh
            (hmat hh) hd hlt hsh hres', ?_⟩
          intro d hmem
          simp only [List.mem_append, List.mem_cons, hcalls, List.mem_replicate, hmod] at hmem
          rcases hmem with (h | ⟨_, h⟩) | h | h
          · exact absurd h (by simp)
          · left; exact (Call.castRay.inj h)
          · right
            have := Call.castRay.inj h
            omega
          · rcases hdepths d h with h' | ⟨h1, h2⟩
            · left; exact h'
            · right; exact ⟨by omega, h2⟩
        · refine ⟨_, castRay_mirror_cutoff env scene (f + 1) ray t depth gen sh ht hh (hmat hh)
            hd (not_lt.mp hlt) hsh, ?_⟩
          intro d hmem
          simp only [List.mem_cons, hcalls, List.mem_replicate] at hmem
          rcases hmem with h | ⟨_, h⟩
          · exact absurd h (by simp)
          · left; exact (Call.castRay.inj h)

end MirrorLemmas

/-! ## Mirrored enclosures, with and without light triangles -/

section LenientLemmas

variable {F G : Type} [LinearOrderedField F]

/-- With no colour given to the empty average, the lenient `castShadowRay` is
`castShadowRay` itself. -/
theorem castShadowRayLenient_none (env : Env F G) (scene : Scene F G)
    (cast : Ray F → Nat → G → Except FpError (CastResult F G))
    (origin : Vec4 F) (normal : Vec3 F) (gen : G) :
    castShadowRayLenient env scene cast none origin normal gen
      = castShadowRayWith env scene cast origin normal gen := by
  simp only [castShadowRayLenient, castShadowRayWith, bind, Except.bind]
  cases shadowLights env cast origin normal scene._lightSources
      { lightContribution := ⟨0, 0, 0⟩, lightCount := 0, lightArea := 0, gen := gen,
        calls := [] } with
  | error e => rfl
  | ok st =>
    by_cases h : st.lightCount = 0
    · simp [h, Vec3.divScalar, fdiv, bind, Except.bind]
    · simp [h]

/-- With no colour given to the empty average, the lenient `castRay` is
`castRay` itself. -/
theorem castRayLenient_none (env : Env F G) (scene : Scene F G) (fuel : Nat) :
    castRayLenient env scene none fuel = castRay env scene fuel := by
  induction fuel with
  | zero => rfl
  | succ n ih =>
    funext ray depth gen
    simp only [castRayLenient, castRay, ih, castShadowRayLenient_none]

/-- The lenient `castRay` at the shadow depth returns right after the
intersection loops. -/
theorem castRayLenient_at_shadow_depth (env : Env F G) (scene : Scene F G)
    (u : Option (Vec3 F)) (fuel : Nat) (ray : Ray F) (gen : G) :
    castRayLenient env scene u (fuel + 1) ray SHADOW_DEPTH gen
      = (scene.intersect ray).map fun traced =>
          { hit := traced.hasIntersection, ray := traced, gen := gen, calls := [] } := by
  cases hi : scene.intersect ray with
  | error e => simp [castRayLenient, hi, bind, Except.bind, Except.map]
  | ok traced =>
    cases hh : traced.hasIntersection <;>
      simp [castRayLenient, hi, hh, bind, Except.bind, Except.map]

/-- A ray without a hit after the intersection loops: the lenient `castRay`
returns `false`. -/
theorem castRayLenient_of_miss (env : Env F G) (scene : Scene F G) (u : Option (Vec3 F))
    (fuel : Nat) (ray traced : Ray F) (depth : Nat) (gen : G)
    (hi : scene.intersect ray = .ok traced) (hh : traced.hasIntersection = false) :
    castRayLenient env scene u (fuel + 1) ray depth gen
      = .ok { hit := false, ray := traced, gen := gen, calls := [] } := by
  simp [castRayLenient, hi, hh, bind, Except.bind]

/-- The sample loops use `castRay` only at the shadow depth: two functions
that agree there give the same loop. -/
theorem shadowSample_congr (env : Env F G)
    (cast cast' : Ray F → Nat → G → Except FpError (CastResult F G))
    (h : ∀ r g, cast r SHADOW_DEPTH g = cast' r SHADOW_DEPTH g)
    (origin : Vec4 F) (normal : Vec3 F) (tri : Triangle F G) (st : ShadowState F G) :
    shadowSample env cast origin normal tri st = shadowSample env cast' origin normal tri st := by
  simp only [shadowSample, h]

/-- The congruence of `shadowSample_congr` for the loop of one triangle. -/
theorem shadowSamples_congr (env : Env F G)
    (cast cast' : Ray F → Nat → G → Except FpError (CastResult F G))
    (h : ∀ r g, cast r SHADOW_DEPTH g = cast' r SHADOW_DEPTH g)
    (origin : Vec4 F) (normal : Vec3 F) (tri : Triangle F G) (k : Nat) (st : ShadowState F G) :
    shadowSamples env cast origin normal tri k st
      = shadowSamples env cast' origin normal tri k st := by
  induction k generalizing st with
  | zero => rfl
  | succ k ih =>
    simp only [shadowSamples, shadowSample_congr env cast cast' h, bind, Except.bind]
    cases shadowSample env cast' origin normal tri st with
    | error e => rfl
    | ok st' => exact ih st'

/-- The congruence of `shadowSample_congr` for the loop of one light source. -/
theorem shadowTriangles_congr (env : Env F G)
    (cast cast' : Ray F → Nat → G → Except FpError (CastResult F G))
    (h : ∀ r g, cast r SHADOW_DEPTH g = cast' r SHADOW_DEPTH g)
    (origin : Vec4 F) (normal : Vec3 F) (tris : List (Triangle F G)) (st : ShadowState F G) :
    shadowTriangles env cast origin normal tris st
      = shadowTriangles env cast' origin normal tris st := by
  induction tris generalizing st with
  | nil => rfl
  | cons t rest ih =>
    simp only [shadowTriangles, shadowSamples_congr env cast cast' h, bind, Except.bind]
    cases shadowSamples env cast' origin normal t env.SHADOW_RAY_COUNT
        { lightContribution := st.lightContribution, lightCount := st.lightCount,
          lightArea := st.lightArea + t.getArea, gen := st.gen, calls := st.calls } with
    | error e => rfl
    | ok st' => exact ih st'

/-- The congruence of `shadowSample_congr` for the loop over the light sources. -/
theorem shadowLights_congr (env : Env F G)
    (cast cast' : Ray F → Nat → G → Except FpError (CastResult F G))
    (h : ∀ r g, cast r SHADOW_DEPTH g = cast' r SHADOW_DEPTH g)
    (origin : Vec4 F) (normal : Vec3 F) (lights : List (LightSource F G))
    (st : ShadowState F G) :
    shadowLights env cast origin normal lights st
      = shadowLights env cast' origin normal lights st := by
  induction lights generalizing st with
  | nil => rfl
  | cons l rest ih =>
    simp only [shadowLights, shadowTriangles_congr env cast cast' h, bind, Except.bind]
    cases shadowTriangles env cast' origin normal l.getTriangles st with
    | error e => rfl
    | ok st' => exact ih st'

/-- The loops of the lenient `castShadowRay` against the specification of
the samples. -/
theorem shadowLights_lenient_eq (env : Env F G) (scene : Scene F G) (u : Option (Vec3 F))
    (fuel : Nat) (origin : Vec4 F) (normal : Vec3 F) (lights : List (LightSource F G))
    (st : ShadowState F G) :
    shadowLights env (castRayLenient env scene u (fuel + 1)) origin normal lights st
      = (shadowContributionsSpec env scene origin normal
          (scheduleOfLights env.SHADOW_RAY_COUNT lights) st.gen).map
          fun p => st.advance (areaOfLights st.lightArea lights) p.1 p.2 := by
  rw [shadowLights_congr env (castRayLenient env scene u (fuel + 1))
    (castRay env scene (fuel + 1))
    (fun r g => by rw [castRayLenient_at_shadow_depth, castRay_at_shadow_depth])]
  exact shadowLights_eq env scene fuel origin normal lights st

end LenientLemmas

section LenientMirrorLemmas

variable {F G : Type} [LinearOrderedField F]

/-- A perfect-reflector hit at a depth that has reached `MAX_DEPTH`, in the
lenient `castRay`: the colour becomes the direct-light term and no bounce is
cast. -/
theorem castRayLenient_mirror_cutoff (env : Env F G) (scene : Scene F G) (u : Option (Vec3 F))
    (fuel : Nat) (ray traced : Ray F) (depth : Nat) (gen : G) (sh : ShadowResult F G)
    (hi : scene.intersect ray = .ok traced) (hh : traced.hasIntersection = true)
    (hm : traced.intersectionMaterial = Material.PERFECT_REFLECTOR)
    (hd : depth ≠ SHADOW_DEPTH) (hmax : env.MAX_DEPTH ≤ depth)
    (hsh : castShadowRayLenient env scene (castRayLenient env scene u fuel) u
      traced.intersectionPoint traced.intersectionNormal gen = .ok sh) :
    castRayLenient env scene u (fuel + 1) ray depth gen
      = .ok { hit := true, ray := traced.withColor sh.color, gen := sh.gen
              calls := Call.castShadowRay :: sh.calls } := by
  have hlt : ¬ depth < env.MAX_DEPTH := not_lt.mpr hmax
  simp only [castRayLenient, hi, hh, hd, hm, hsh, hlt, bind, Except.bind, Bool.not_true,
    Bool.false_eq_true, if_false, Ray.withColor]

/-- A perfect-reflector hit below `MAX_DEPTH`, in the lenient `castRay`: one
bounce ray is cast at the next depth and the colour is the 20/80 blend. -/
theorem castRayLenient_mirror_bounce (env : Env F G) (scene : Scene F G) (u : Option (Vec3 F))
    (fuel : Nat) (ray traced : Ray F) (depth : Nat) (gen : G) (sh : ShadowResult F G)
    (res : CastResult F G)
    (hi : scene.intersect ray = .ok traced) (hh : traced.hasIntersection = true)
    (hm : traced.intersectionMaterial = Material.PERFECT_REFLECTOR)
    (hd : depth ≠ SHADOW_DEPTH) (hlt : depth < env.MAX_DEPTH)
    (hsh : castShadowRayLenient env scene (castRayLenient env scene u fuel) u
      traced.intersectionPoint traced.intersectionNormal gen = .ok sh)
    (hres : castRayLenient env scene u fuel
      (env.newRay (mirrorBounceStart traced) (mirrorBounceTarget traced))
      ((depth + 1) % 2 ^ 64) sh.gen = .ok res) :
    castRayLenient env scene u (fuel + 1) ray depth gen
      = .ok { hit := true
              ray := traced.withColor
                ((Vec3.smul (2 / 10) sh.color).add (Vec3.smul (8 / 10) res.ray.color))
              gen := res.gen
              calls := (Call.castShadowRay :: sh.calls)
                ++ Call.castRay ((depth + 1) % 2 ^ 64) :: res.calls } := by
  simp only [mirrorBounceStart, mirrorBounceTarget, mirrorOutDirection] at hres
  simp only [castRayLenient, hi, hh, hd, hm, hsh, hlt, hres, bind, Except.bind, Bool.not_true,
    Bool.false_eq_true, if_false, if_true, Ray.withColor]

/-- Every shadow ray that is cast comes from the `Ray` constructor. -/
theorem shadowRaysCast_fresh (env : Env F G) (origin : Vec4 F) (normal : Vec3 F)
    (l : List (Triangle F G)) (gen : G) (r : Ray F)
    (hr : r ∈ shadowRaysCast env origin normal l gen) :
    ∃ target, r = env.newRay (shadowOrigin origin normal) target := by
  induction l generalizing gen with
  | nil => simp [shadowRaysCast] at hr
  | cons tri rest ih =>
    simp only [shadowRaysCast, List.mem_cons] at hr
    rcases hr with h | h
    · exact ⟨_, h⟩
    · exact ih _ h

/-- A traced ray whose hit, if any, is a perfect reflector contributes the zero
colour as a shadow ray. -/
theorem mirror_hit_contribution (sqrt : F → F) (t : Ray F)
    (hmat : t.hasIntersection = true → t.intersectionMaterial = Material.PERFECT_REFLECTOR) :
    shadowContributionSpec sqrt t = .ok ⟨0, 0, 0⟩ := by
  have hnot : ¬ (t.hasIntersection = true ∧ t.intersectionMaterial = Material.LIGHT_SOURCE) := by
    rintro ⟨h1, h2⟩
    rw [hmat h1] at h2
    exact absurd h2 (by decide)
  simp [shadowContributionSpec, hnot]

/-- In a scene where every hit of a newly constructed ray is a perfect
reflector, the lenient `castShadowRay` has a value as soon as a shadow sample
is scheduled or the empty average is given a colour, and all its calls of
`castRay` are at the shadow depth. -/
theorem castShadowRayLenient_total (env : Env F G) (scene : Scene F G) (u : Option (Vec3 F))
    (hfresh : ∀ start target, ∃ t, scene.intersect (env.newRay start target) = .ok t ∧
      (t.hasIntersection = true → t.intersectionMaterial = Material.PERFECT_REFLECTOR))
    (hu : u.isSome = true ∨ 0 < scene.lightTriangleCount * env.SHADOW_RAY_COUNT)
    (fuel : Nat) (origin : Vec4 F) (normal : Vec3 F) (gen : G) :
    ∃ sh, castShadowRayLenient env scene (castRayLenient env scene u (fuel + 1)) u
        origin normal gen = .ok sh ∧
      sh.calls = List.replicate (scene.lightTriangleCount * env.SHADOW_RAY_COUNT)
        (Call.castRay SHADOW_DEPTH) := by
  obtain ⟨p, hp⟩ := shadowContributionsSpec_of_cast env scene origin normal
    (scheduleOfLights env.SHADOW_RAY_COUNT scene._lightSources) gen (by
      intro r hr
      obtain ⟨target, rfl⟩ := shadowRaysCast_fresh env origin normal _ gen r hr
      obtain ⟨t, ht, hmat⟩ := hfresh (shadowOrigin origin normal) target
      exact ⟨t, _, ht, mirror_hit_contribution env.sqrt t hmat⟩)
  have hlen := shadowContributionsSpec_length env scene origin normal _ gen p hp
  rw [scheduleOfLights_length] at hlen
  have hlen' : p.1.length = scene.lightTriangleCount * env.SHADOW_RAY_COUNT := hlen
  simp only [castShadowRayLenient, shadowLights_lenient_eq, hp, Except.map, bind, Except.bind,
    ShadowState.advance, Nat.zero_add, List.nil_append, hlen']
  by_cases hzero : scene.lightTriangleCount * env.SHADOW_RAY_COUNT = 0
  · rcases hu with hsome | hpos
    · obtain ⟨c, rfl⟩ := Option.isSome_iff_exists.mp hsome
      simp only [hzero, if_true]
      exact ⟨_, rfl, rfl⟩
    · omega
  · have hne : ((scene.lightTriangleCount * env.SHADOW_RAY_COUNT : Nat) : F) ≠ 0 :=
      Nat.cast_ne_zero.mpr hzero
    simp only [hzero, if_false, Vec3.divScalar, fdiv, hne]
    exact ⟨_, rfl, rfl⟩

/-- In a scene where every hit of a newly constructed ray is a perfect
reflector, the lenient `castRay` on a ray whose own hit, if any, is a perfect
reflector finishes whenever its budget exceeds the number of depths left below
`MAX_DEPTH` by two, and every call of `castRay` it makes is a shadow ray or a
bounce at a greater depth up to `MAX_DEPTH`.  When moreover every ray it
traces has a hit, a bounce is cast at every greater depth up to `MAX_DEPTH`. -/
theorem castRayLenient_mirror_scene (env : Env F G) (scene : Scene F G) (u : Option (Vec3 F))
    (hfresh : ∀ start target, ∃ t, scene.intersect (env.newRay start target) = .ok t ∧
      (t.hasIntersection = true → t.intersectionMaterial = Material.PERFECT_REFLECTOR))
    (hu : u.isSome = true ∨ 0 < scene.lightTriangleCount * env.SHADOW_RAY_COUNT) (n : Nat) :
    ∀ (fuel depth : Nat) (ray : Ray F) (gen : G),
      (∃ t, scene.intersect ray = .ok t ∧
        (t.hasIntersection = true → t.intersectionMaterial = Material.PERFECT_REFLECTOR)) →
      depth < 2 ^ 64 → env.MAX_DEPTH - depth ≤ n → n + 2 ≤ fuel →
      ∃ res, castRayLenient env scene u fuel ray depth gen = .ok res ∧
        (∀ d, Call.castRay d ∈ res.calls →
          d = SHADOW_DEPTH ∨ (depth < d ∧ d ≤ env.MAX_DEPTH)) ∧
        ((∀ t, scene.intersect ray = .ok t → t.hasIntersection = true) →
          (∀ start target t, scene.intersect (env.newRay start target) = .ok t →
            t.hasIntersection = true) →
          env.MAX_DEPTH < 2 ^ 64 →
          ∀ d, depth < d → d ≤ env.MAX_DEPTH → Call.castRay d ∈ res.calls) := by
  induction n with
  | zero =>
    intro fuel depth ray gen hray hsize hn hfuel
    obtain ⟨f, rfl⟩ : ∃ f, fuel = f + 2 := ⟨fuel - 2, by omega⟩
    obtain ⟨t, ht, hmat⟩ := hray
    have hnone : ∀ d, depth < d → d ≤ env.MAX_DEPTH → False := fun d h1 h2 => by omega
    cases hh : t.hasIntersection with
    | false =>
      exact ⟨_, castRayLenient_of_miss env scene u (f + 1) ray t depth gen ht hh, by simp,
        fun _ _ _ d h1 h2 => (hnone d h1 h2).elim⟩
    | true =>
      by_cases hd : depth = SHADOW_DEPTH
      · subst hd
        refine ⟨_, by rw [castRayLenient_at_shadow_depth, ht]; rfl, by simp,
          fun _ _ _ d h1 h2 => (hnone d h1 h2).elim⟩
      · obtain ⟨sh, hsh, hcalls⟩ := castShadowRayLenient_total env scene u hfresh hu f
          t.intersectionPoint t.intersectionNormal gen
        refine ⟨_, castRayLenient_mirror_cutoff env scene u (f + 1) ray t depth gen sh ht hh
          (hmat hh) hd (by omega) hsh, ?_, fun _ _ _ d h1 h2 => (hnone d h1 h2).elim⟩
        intro d hmem
        simp only [List.mem_cons, hcalls, List.mem_replicate] at hmem
        rcases hmem with h | ⟨_, h⟩
        · exact absurd h (by simp)
        · left; exact (Call.castRay.inj h)
  | succ n ih =>
    intro fuel depth ray gen hray hsize hn hfuel
    obtain ⟨f, rfl⟩ : ∃ f, fuel = f + 2 := ⟨fuel - 2, by omega⟩
    obtain ⟨t, ht, hmat⟩ := hray
    by_cases hlt : depth < env.MAX_DEPTH
    · by_cases hd : depth = SHADOW_DEPTH
      · subst hd
        refine ⟨_, by rw [castRayLenient_at_shadow_depth, ht]; rfl, by simp, ?_⟩
        intro _ _ hmax d h1 h2
        simp only [SHADOW_DEPTH] at h1
        omega
      · cases hh : t.hasIntersection with
        | false =>
          refine ⟨_, castRayLenient_of_miss env scene u (f + 1) ray t depth gen ht hh, by simp,
            ?_⟩
          intro hhit _ _ d _ _
          have := hhit t ht
          rw [hh] at this
          exact absurd this (by simp)
        | true =>
          obtain ⟨sh, hsh, hcalls⟩ := castShadowRayLenient_total env scene u hfresh hu f
            t.intersectionPoint t.intersectionNormal gen
          have hmod := depth_succ_mod depth hsize hd
          have hsucc : depth + 1 < 2 ^ 64 := by
            simp only [SHADOW_DEPTH] at hd
            omega
          obtain ⟨res, hres, hdepths, hall⟩ := ih (f + 1) (depth + 1)
            (env.newRay (mirrorBounceStart t) (mirrorBounceTarget t)) sh.gen
            (hfresh _ _) hsucc (by omega) (by omega)
          have hres' : castRayLenient env scene u (f + 1)
              (env.newRay (mirrorBounceStart t) (mirrorBounceTarget t))
              ((depth + 1) % 2 ^ 64) sh.gen = .ok res := by rw [hmod]; exact hres
          refine ⟨_, castRayLenient_mirror_bounce env scene u (f + 1) ray t depth gen sh res ht hh
            (hmat hh) hd hlt hsh hres', ?_, ?_⟩
          · intro d hmem
            simp only [List.mem_append, List.mem_cons, hcalls, List.mem_replicate, hmod] at hmem
            rcases hmem with (h | ⟨_, h⟩) | h | h
            · exact absurd h (by simp)
            · left; exact (Call.castRay.inj h)
            · right
              have := Call.castRay.inj h
              omega
            · rcases hdepths d h with h' | ⟨h1, h2⟩
              · left; exact h'
              · right; exact ⟨by omega, h2⟩
          · intro _ hhit hmax d h1 h2
            simp only [List.mem_append, List.mem_cons, hmod]
            right
            by_cases hd1 : d = depth + 1
            · left; rw [hd1]
            · right
              exact hall (fun t' ht' => hhit _ _ t' ht') hhit hmax d (by omega) h2
    · have hnone : ∀ d, depth < d → d ≤ env.MAX_DEPTH → False := fun d h1 h2 => by omega
      cases hh : t.hasIntersection with
      | false =>
        exact ⟨_, castRayLenient_of_miss env scene u (f + 1) ray t depth gen ht hh, by simp,
          fun _ _ _ d h1 h2 => (hnone d h1 h2).elim⟩
      | true =>
        by_cases hd : depth = SHADOW_DEPTH
        · subst hd
          refine ⟨_, by rw [castRayLenient_at_shadow_depth, ht]; rfl, by simp,
            fun _ _ _ d h1 h2 => (hnone d h1 h2).elim⟩
        · obtain ⟨sh, hsh, hcalls⟩ := castShadowRayLenient_total env scene u hfresh hu f
            t.intersectionPoint t.intersectionNormal gen
          refine ⟨_, castRayLenient_mirror_cutoff env scene u (f + 1) ray t depth gen sh ht hh
            (hmat hh) hd (not_lt.mp hlt) hsh, ?_, fun _ _ _ d h1 h2 => (hnone d h1 h2).elim⟩
          intro d hmem
          simp only [List.mem_cons, hcalls, List.mem_replicate] at hmem
          rcases hmem with h | ⟨_, h⟩
          · exact absurd h (by simp)
          · left; exact (Call.castRay.inj h)

end LenientMirrorLemmas

/-- C11. In a scene in which every hit of a newly constructed ray is a perfect
reflector, `castRay` on a start ray whose own hit, if any, is a perfect
reflector terminates: a budget of `MAX_DEPTH + 2` nested calls is enough for a
result at every depth, in particular at depth `0`.  Every call of `castRay`
made on the way is a shadow ray at the sentinel depth `-1` or a bounce at a
depth greater than the starting depth and at most `MAX_DEPTH` (from depth `0`:
between `1` and `MAX_DEPTH`; from a depth that has reached `MAX_DEPTH`: no
bounce at all).  When every ray traced has a hit (a closed enclosure), the
bounces at all these depths do take place.  The first part is for scenes with
at least one shadow sample (`0 < N * K`); the second part is for every scene,
lightless ones included, with the `0 / 0` of the empty shadow average carried
on as the colour `nan`, whatever it is. -/
theorem mirror_recursion_bounded {F G : Type} [LinearOrderedField F] (env : Env F G)
    (scene : Scene F G) (ray : Ray F) (gen : G) (fuel : Nat)
    (hstart : ∃ t, scene.intersect ray = .ok t ∧
      (t.hasIntersection = true → t.intersectionMaterial = Material.PERFECT_REFLECTOR))
    (hfresh : ∀ start target, ∃ t, scene.intersect (env.newRay start target) = .ok t ∧
      (t.hasIntersection = true → t.intersectionMaterial = Material.PERFECT_REFLECTOR))
    (hfuel : env.MAX_DEPTH + 2 ≤ fuel) :
    (0 < scene.lightTriangleCount * env.SHADOW_RAY_COUNT →
      ∀ depth, depth < 2 ^ 64 →
        ∃ res, castRay env scene fuel ray depth gen = .ok res ∧
          (∀ d, Call.castRay d ∈ res.calls →
            d = SHADOW_DEPTH ∨ (depth < d ∧ d ≤ env.MAX_DEPTH)) ∧
          ((∀ t, scene.intersect ray = .ok t → t.hasIntersection = true) →
            (∀ start target t, scene.intersect (env.newRay start target) = .ok t →
              t.hasIntersection = true) →
            env.MAX_DEPTH < 2 ^ 64 →
            ∀ d, depth < d → d ≤ env.MAX_DEPTH → Call.castRay d ∈ res.calls)) ∧
    (∀ (nan : Vec3 F) (depth : Nat), depth < 2 ^ 64 →
      ∃ res, castRayLenient env scene (some nan) fuel ray depth gen = .ok res ∧
        (∀ d, Call.castRay d ∈ res.calls →
          d = SHADOW_DEPTH ∨ (depth < d ∧ d ≤ env.MAX_DEPTH)) ∧
        ((∀ t, scene.intersect ray = .ok t → t.hasIntersection = true) →
          (∀ start target t, scene.intersect (env.newRay start target) = .ok t →
            t.hasIntersection = true) →
          env.MAX_DEPTH < 2 ^ 64 →
          ∀ d, depth < d → d ≤ env.MAX_DEPTH → Call.castRay d ∈ res.calls)) := by
  constructor
  · intro hpos depth hsize
    have h := castRayLenient_mirror_scene env scene none hfresh (Or.inr hpos) env.MAX_DEPTH
      fuel depth ray gen hstart hsize (by omega) hfuel
    rw [castRayLenient_none] at h
    exact h
  · intro nan depth hsize
    exact castRayLenient_mirror_scene env scene (some nan) hfresh (Or.inl rfl) env.MAX_DEPTH
      fuel depth ray gen hstart hsize (by omega) hfuel

section EnclosureLemmas

variable {F : Type} [LinearOrderedField F]

/-- In an enclosure without light sources, or with the light `exampleLight`
that no ray hits, a ray without a hit on record ends with the hit that the
wall records. -/
theorem intersect_enclosureOf (m : Material) (lights : List (LightSource F Unit))
    (hl : lights = [] ∨ lights = [exampleLight]) (r : Ray F) (hr : r.hasIntersection = false) :
    (enclosureOf m lights).intersect r
      = .ok (r.updateIntersection 1 ⟨0, 0, 0, 1⟩ ⟨1, 1, 1⟩ ⟨0, 0, 1⟩ m) := by
  rcases hl with rfl | rfl <;>
    simp [Scene.intersect, enclosureOf, nearerWallOf, hitIfNearer, exampleLight, neverHit,
      traceAll, bind, Except.bind, hr]

/-- In such an enclosure with a perfect-reflector wall, every ray without a
hit on record gets a perfect-reflector hit. -/
theorem enclosureOf_mirror (lights : List (LightSource F Unit))
    (hl : lights = [] ∨ lights = [exampleLight]) (r : Ray F) (hr : r.hasIntersection = false) :
    ∃ t, (enclosureOf Material.PERFECT_REFLECTOR lights).intersect r = .ok t ∧
      (t.hasIntersection = true → t.intersectionMaterial = Material.PERFECT_REFLECTOR) :=
  ⟨_, intersect_enclosureOf _ lights hl r hr, fun _ => rfl⟩

/-- In such an enclosure every ray without a hit on record gets a hit. -/
theorem enclosureOf_closed (m : Material) (lights : List (LightSource F Unit))
    (hl : lights = [] ∨ lights = [exampleLight]) (r : Ray F) (hr : r.hasIntersection = false)
    (t : Ray F) (ht : (enclosureOf m lights).intersect r = .ok t) :
    t.hasIntersection = true := by
  rw [intersect_enclosureOf m lights hl r hr] at ht
  cases ht
  rfl

end EnclosureLemmas

/-- Witness for C11: `zRay` in two enclosures with a perfect-reflector wall
that keeps nearer hits, with `MAX_DEPTH = 5` and a budget of `7`.  In the
enclosure with the light `exampleLight` (two shadow samples per hit) `castRay`
returns; in the enclosure without light sources the run with the empty average
carried on returns.  In both, the bounces are cast exactly at the depths `1`
to `5`. -/
theorem mirror_recursion_bounded_witness :
    (∃ t, (enclosureOf Material.PERFECT_REFLECTOR [] : Scene ℝ Unit).intersect zRay = .ok t ∧
      (t.hasIntersection = true → t.intersectionMaterial = Material.PERFECT_REFLECTOR)) ∧
    (∀ start target, ∃ t, (enclosureOf Material.PERFECT_REFLECTOR [] : Scene ℝ Unit).intersect
        ((exampleEnv Real.pi Real.sqrt Real.sin Real.cos Real.arcsin : Env ℝ Unit).newRay
          start target) = .ok t ∧
      (t.hasIntersection = true → t.intersectionMaterial = Material.PERFECT_REFLECTOR)) ∧
    (exampleEnv Real.pi Real.sqrt Real.sin Real.cos Real.arcsin : Env ℝ Unit).MAX_DEPTH + 2 ≤ 7 ∧
    (enclosureOf Material.PERFECT_REFLECTOR [] : Scene ℝ Unit).lightTriangleCount = 0 ∧
    (∃ res, castRayLenient (exampleEnv Real.pi Real.sqrt Real.sin Real.cos Real.arcsin)
        (enclosureOf Material.PERFECT_REFLECTOR []) (some ⟨0, 0, 0⟩) 7 zRay 0 () = .ok res ∧
      (∀ d, Call.castRay d ∈ res.calls → d = SHADOW_DEPTH ∨ (0 < d ∧ d ≤ 5)) ∧
      (∀ d, 0 < d → d ≤ 5 → Call.castRay d ∈ res.calls)) ∧
    0 < (enclosureOf Material.PERFECT_REFLECTOR [exampleLight] : Scene ℝ Unit).lightTriangleCount
      * (exampleEnv Real.pi Real.sqrt Real.sin Real.cos Real.arcsin : Env ℝ Unit).SHADOW_RAY_COUNT ∧
    (∃ res, castRay (exampleEnv Real.pi Real.sqrt Real.sin Real.cos Real.arcsin)
        (enclosureOf Material.PERFECT_REFLECTOR [exampleLight]) 7 zRay 0 () = .ok res ∧
      (∀ d, Call.castRay d ∈ res.calls → d = SHADOW_DEPTH ∨ (0 < d ∧ d ≤ 5)) ∧
      (∀ d, 0 < d → d ≤ 5 → Call.castRay d ∈ res.calls)) :=
  have hstart : ∀ lights : List (LightSource ℝ Unit), lights = [] ∨ lights = [exampleLight] →
      ∃ t, (enclosureOf Material.PERFECT_REFLECTOR lights).intersect zRay = .ok t ∧
        (t.hasIntersection = true → t.intersectionMaterial = Material.PERFECT_REFLECTOR) :=
    fun lights hl => enclosureOf_mirror lights hl zRay rfl
  have hfresh : ∀ lights : List (LightSource ℝ Unit), lights = [] ∨ lights = [exampleLight] →
      ∀ start target, ∃ t, (enclosureOf Material.PERFECT_REFLECTOR lights).intersect
          ((exampleEnv Real.pi Real.sqrt Real.sin Real.cos Real.arcsin : Env ℝ Unit).newRay
            start target) = .ok t ∧
        (t.hasIntersection = true → t.intersectionMaterial = Material.PERFECT_REFLECTOR) :=
    fun lights hl start target => enclosureOf_mirror lights hl _ rfl
  have hfuel : (exampleEnv Real.pi Real.sqrt Real.sin Real.cos Real.arcsin :
      Env ℝ Unit).MAX_DEPTH + 2 ≤ 7 := by decide
  have hpos : 0 < (enclosureOf Material.PERFECT_REFLECTOR [exampleLight] :
      Scene ℝ Unit).lightTriangleCount
      * (exampleEnv Real.pi Real.sqrt Real.sin Real.cos Real.arcsin :
        Env ℝ Unit).SHADOW_RAY_COUNT := by decide
  have hdark := (mirror_recursion_bounded
    (exampleEnv Real.pi Real.sqrt Real.sin Real.cos Real.arcsin)
    (enclosureOf Material.PERFECT_REFLECTOR []) zRay () 7 (hstart [] (Or.inl rfl))
    (hfresh [] (Or.inl rfl)) hfuel).2 ⟨0, 0, 0⟩ 0 (by norm_num)
  have hlit := (mirror_recursion_bounded
    (exampleEnv Real.pi Real.sqrt Real.sin Real.cos Real.arcsin)
    (enclosureOf Material.PERFECT_REFLECTOR [exampleLight]) zRay () 7
    (hstart [exampleLight] (Or.inr rfl)) (hfresh [exampleLight] (Or.inr rfl)) hfuel).1 hpos 0
    (by norm_num)
  ⟨hstart [] (Or.inl rfl), hfresh [] (Or.inl rfl), hfuel, rfl,
    hdark.imp fun _ h => ⟨h.1, h.2.1, h.2.2
      (fun t ht => enclosureOf_closed _ [] (Or.inl rfl) zRay rfl t ht)
      (fun _ _ t ht => enclosureOf_closed _ [] (Or.inl rfl) _ rfl t ht) (by decide)⟩,
    hpos,
    hlit.imp fun _ h => ⟨h.1, h.2.1, h.2.2
      (fun t ht => enclosureOf_closed _ [exampleLight] (Or.inr rfl) zRay rfl t ht)
      (fun _ _ t ht => enclosureOf_closed _ [exampleLight] (Or.inr rfl) _ rfl t ht)
      (by decide)⟩⟩

/-- C16. For a perfect-reflector hit with direct-light term `L` (the colour
returned by `castShadowRay` at the hit point and normal): when
`depth < MAX_DEPTH`, one bounce ray is cast at `depth + 1` and the resulting
colour is `0.2 L + 0.8` times the colour of the bounce ray; when
`depth ≥ MAX_DEPTH` the resulting colour is exactly `L` and no bounce ray is
cast (the only calls of `castRay` are the shadow rays of `castShadowRay`).  In
both cases distance, hit point, normal and material of the ray are the ones
the intersection tests left. -/
theorem mirror_hit_colour {F G : Type} [LinearOrderedField F] (env : Env F G)
    (scene : Scene F G) (fuel : Nat) (ray traced : Ray F) (depth : Nat) (gen : G)
    (sh : ShadowResult F G)
    (hi : scene.intersect ray = .ok traced) (hh : traced.hasIntersection = true)
    (hm : traced.intersectionMaterial = Material.PERFECT_REFLECTOR)
    (hd : depth ≠ SHADOW_DEPTH) (hsize : depth < 2 ^ 64)
    (hsh : castShadowRay env scene (fuel + 1) traced.intersectionPoint
      traced.intersectionNormal gen = .ok sh) :
    (depth < env.MAX_DEPTH → ∀ res,
      castRay env scene (fuel + 1)
        (env.newRay (mirrorBounceStart traced) (mirrorBounceTarget traced)) (depth + 1) sh.gen
        = .ok res →
      castRay env scene (fuel + 2) ray depth gen
        = .ok { hit := true
                ray := traced.withColor
                  ((Vec3.smul (2 / 10) sh.color).add (Vec3.smul (8 / 10) res.ray.color))
                gen := res.gen
                calls := (Call.castShadowRay :: sh.calls)
                  ++ Call.castRay (depth + 1) :: res.calls }) ∧
    (env.MAX_DEPTH ≤ depth →
      castRay env scene (fuel + 2) ray depth gen
        = .ok { hit := true, ray := traced.withColor sh.color, gen := sh.gen
                calls := Call.castShadowRay :: sh.calls }) ∧
    (∀ d, Call.castRay d ∈ sh.calls → d = SHADOW_DEPTH) ∧
    (∀ c, (traced.withColor c).color = c ∧
      (traced.withColor c).closestIntersection = traced.closestIntersection ∧
      (traced.withColor c).intersectionPoint = traced.intersectionPoint ∧
      (traced.withColor c).intersectionNormal = traced.intersectionNormal ∧
      (traced.withColor c).intersectionMaterial = traced.intersectionMaterial) := by
  refine ⟨fun hlt res hres => ?_, fun hmax => ?_, fun d hmem => ?_, fun c => ?_⟩
  · have hmod := depth_succ_mod depth hsize hd
    have h := castRay_mirror_bounce env scene (fuel + 1) ray traced depth gen sh res hi hh hm hd
      hlt hsh (by rw [hmod]; exact hres)
    rw [hmod] at h
    exact h
  · exact castRay_mirror_cutoff env scene (fuel + 1) ray traced depth gen sh hi hh hm hd hmax hsh
  · have hcalls := (castShadowRay_ok env scene fuel _ _ gen sh hsh).2
    rw [hcalls, List.mem_replicate] at hmem
    exact Call.castRay.inj hmem.2
  · exact ⟨rfl, rfl, rfl, rfl, rfl⟩
/-- Witness for C16: `zRay` hits the mirror of `sceneOf PERFECT_REFLECTOR` at
depth `4 < MAX_DEPTH = 5`; the bounce is evaluated at depth `5`. -/
theorem mirror_hit_colour_witness :
    ∃ (sh : ShadowResult ℝ Unit) (res : CastResult ℝ Unit),
      (sceneOf Material.PERFECT_REFLECTOR : Scene ℝ Unit).intersect zRay
        = .ok (rayWithHit Material.PERFECT_REFLECTOR) ∧
      (rayWithHit Material.PERFECT_REFLECTOR : Ray ℝ).hasIntersection = true ∧
      (rayWithHit Material.PERFECT_REFLECTOR : Ray ℝ).intersectionMaterial
        = Material.PERFECT_REFLECTOR ∧
      4 ≠ SHADOW_DEPTH ∧ 4 < 2 ^ 64 ∧
      castShadowRay (exampleEnv Real.pi Real.sqrt Real.sin Real.cos Real.arcsin)
        (sceneOf Material.PERFECT_REFLECTOR) (1 + 1)
        (rayWithHit Material.PERFECT_REFLECTOR : Ray ℝ).intersectionPoint
        (rayWithHit Material.PERFECT_REFLECTOR : Ray ℝ).intersectionNormal () = .ok sh ∧
      4 < (exampleEnv Real.pi Real.sqrt Real.sin Real.cos Real.arcsin : Env ℝ Unit).MAX_DEPTH ∧
      castRay (exampleEnv Real.pi Real.sqrt Real.sin Real.cos Real.arcsin)
        (sceneOf Material.PERFECT_REFLECTOR) (1 + 1)
        ((exampleEnv Real.pi Real.sqrt Real.sin Real.cos Real.arcsin : Env ℝ Unit).newRay
          (mirrorBounceStart (rayWithHit Material.PERFECT_REFLECTOR))
          (mirrorBounceTarget (rayWithHit Material.PERFECT_REFLECTOR))) (4 + 1) sh.gen
        = .ok res ∧
      castRay (exampleEnv Real.pi Real.sqrt Real.sin Real.cos Real.arcsin)
        (sceneOf Material.PERFECT_REFLECTOR) (1 + 2) zRay 4 ()
        = .ok { hit := true
                ray := (rayWithHit Material.PERFECT_REFLECTOR : Ray ℝ).withColor
                  ((Vec3.smul (2 / 10) sh.color).add (Vec3.smul (8 / 10) res.ray.color))
                gen := res.gen
                calls := (Call.castShadowRay :: sh.calls)
                  ++ Call.castRay (4 + 1) :: res.calls } := by
  have hmirror : ∀ r, ∃ t, (sceneOf Material.PERFECT_REFLECTOR : Scene ℝ Unit).intersect r
      = .ok t ∧
      (t.hasIntersection = true → t.intersectionMaterial = Material.PERFECT_REFLECTOR) :=
    fun r => ⟨_, intersect_sceneOf _ r, fun _ => rfl⟩
  have hpos : 0 < (sceneOf Material.PERFECT_REFLECTOR : Scene ℝ Unit).lightTriangleCount
      * (exampleEnv Real.pi Real.sqrt Real.sin Real.cos Real.arcsin :
        Env ℝ Unit).SHADOW_RAY_COUNT := by decide
  have hi : (sceneOf Material.PERFECT_REFLECTOR : Scene ℝ Unit).intersect zRay
      = .ok (rayWithHit Material.PERFECT_REFLECTOR) := intersect_sceneOf _ _
  obtain ⟨sh, hsh⟩ := castShadowRay_total
    (exampleEnv Real.pi Real.sqrt Real.sin Real.cos Real.arcsin)
    (sceneOf Material.PERFECT_REFLECTOR) 1
    (rayWithHit Material.PERFECT_REFLECTOR : Ray ℝ).intersectionPoint
    (rayWithHit Material.PERFECT_REFLECTOR : Ray ℝ).intersectionNormal ()
    (sceneOf_samples _ _ (by decide)) hpos
  obtain ⟨res, hres, _⟩ := castRay_mirror_scene
    (exampleEnv Real.pi Real.sqrt Real.sin Real.cos Real.arcsin)
    (sceneOf Material.PERFECT_REFLECTOR) hmirror hpos 0 (1 + 1) (4 + 1)
    ((exampleEnv Real.pi Real.sqrt Real.sin Real.cos Real.arcsin : Env ℝ Unit).newRay
      (mirrorBounceStart (rayWithHit Material.PERFECT_REFLECTOR))
      (mirrorBounceTarget (rayWithHit Material.PERFECT_REFLECTOR))) sh.gen
    (by norm_num) (by decide) (by decide)
  have hd : 4 ≠ SHADOW_DEPTH := by decide
  exact ⟨sh, res, hi, rfl, rfl, hd, by norm_num, hsh, by decide, hres,
    (mirror_hit_colour (exampleEnv Real.pi Real.sqrt Real.sin Real.cos Real.arcsin)
      (sceneOf Material.PERFECT_REFLECTOR) 1 zRay (rayWithHit Material.PERFECT_REFLECTOR) 4 ()
      sh hi rfl rfl hd (by norm_num) hsh).1 (by decide) res hres⟩

/-! ## The Lambertian case -/

section LambertianLemmas

variable {F G : Type} [LinearOrderedField F]

/-- The roulette test `1 - alpha > u` with `alpha = 0.25` is `u < 0.75`. -/
theorem roulette_iff (u : F) : (1 - 1 / 4 > u) ↔ u < 3 / 4 := by
  have h : (1 : F) - 1 / 4 = 3 / 4 := by norm_num
  rw [h]

/-- A Lambertian hit whose roulette draw fails: the ray keeps the
direct-lighting product and no bounce is cast. -/
theorem castRay_lambertian_fail (env : Env F G) (scene : Scene F G) (fuel : Nat)
    (ray traced : Ray F) (depth : Nat) (gen g1 : G) (sh : ShadowResult F G) (u : F)
    (hi : scene.intersect ray = .ok traced) (hh : traced.hasIntersection = true)
    (hm : traced.intersectionMaterial = Material.LAMBERTIAN)
    (hd : depth ≠ SHADOW_DEPTH)
    (hsh : castShadowRay env scene fuel traced.intersectionPoint traced.intersectionNormal gen
      = .ok sh)
    (hu : env.randMinMax 0 1 sh.gen = (u, g1)) (hfail : ¬ u < 3 / 4) :
    castRay env scene (fuel + 1) ray depth gen
      = .ok { hit := true, ray := traced.withColor (traced.color.mul sh.color), gen := g1
              calls := Call.castShadowRay :: sh.calls } := by
  have hfail' : ¬ (1 - 1 / 4 > u) := fun h => hfail ((roulette_iff u).mp h)
  simp only [castShadowRay] at hsh
  simp only [castRay, hi, hh, hd, hm, hsh, hu, hfail', bind, Except.bind, Bool.not_true,
    Bool.false_eq_true, if_false, Ray.withColor]

/-- A Lambertian hit whose roulette draw passes: two variates are drawn, the
bounce target is computed, one bounce ray is cast at the next depth and its
colour is blended in. -/
theorem castRay_lambertian_bounce (env : Env F G) (scene : Scene F G) (fuel : Nat)
    (ray traced : Ray F) (depth : Nat) (gen g1 g2 g3 : G) (sh : ShadowResult F G) (u xi yj : F)
    (hi : scene.intersect ray = .ok traced) (hh : traced.hasIntersection = true)
    (hm : traced.intersectionMaterial = Material.LAMBERTIAN)
    (hd : depth ≠ SHADOW_DEPTH)
    (hsh : castShadowRay env scene fuel traced.intersectionPoint traced.intersectionNormal gen
      = .ok sh)
    (hu : env.randMinMax 0 1 sh.gen = (u, g1))
    (hxi : env.randMinMax env.EPSILON (2 * env.M_PI - env.EPSILON) g1 = (xi, g2))
    (hyj : env.randMinMax env.EPSILON (2 * env.M_PI - env.EPSILON) g2 = (yj, g3))
    (hpass : u < 3 / 4) :
    castRay env scene (fuel + 1) ray depth gen
      = (lambertianTarget env (traced.withColor (traced.color.mul sh.color)) xi yj).bind
          fun target =>
        (castRay env scene fuel
          (env.newRay
            (traced.intersectionPoint.add
              (Vec4.smul (1 / 1000) (target.sub traced.intersectionPoint)))
            target)
          ((depth + 1) % 2 ^ 64) g3).bind fun res =>
        (fdiv (8 / 10) (env.M_PI * ((depth : F) + 1))).map fun REFLECTIVITY =>
          { hit := true
            ray := traced.withColor
              ((Vec3.smul (1 - REFLECTIVITY) (traced.color.mul sh.color)).add
                (Vec3.smul REFLECTIVITY res.ray.color))
            gen := res.gen
            calls := (Call.castShadowRay :: sh.calls)
              ++ Call.castRay ((depth + 1) % 2 ^ 64) :: res.calls } := by
  have hpass' : (1 - 1 / 4 > u) := (roulette_iff u).mpr hpass
  simp only [castShadowRay] at hsh
  simp only [castRay, hi, hh, hd, hm, hsh, hu, hxi, hyj, hpass', bind, Except.bind,
    Bool.not_true, Bool.false_eq_true, if_false, if_true, Ray.withColor,
    Ray.updateIntersection]
  cases lambertianTarget env { traced with
      closestIntersection := traced.closestIntersection
      intersectionPoint := traced.intersectionPoint
      color := traced.color.mul sh.color
      intersectionNormal := traced.intersectionNormal
      intersectionMaterial := Material.LAMBERTIAN
      hasIntersection := true } xi yj with
  | error e => rfl
  | ok target =>
    simp only []
    cases castRay env scene fuel
        (env.newRay
          (traced.intersectionPoint.add
            (Vec4.smul (1 / 1000) (target.sub traced.intersectionPoint)))
          target)
        ((depth + 1) % 2 ^ 64) g3 with
    | error e => rfl
    | ok res =>
      simp only []
      cases fdiv (8 / 10) (env.M_PI * ((depth : F) + 1)) with
      | error e => rfl
      | ok R => rfl

end LambertianLemmas

/-- C17. For a Lambertian hit at a depth other than the shadow depth,
`castRay` first replaces the colour of the ray by the surface colour times
the direct-light term `L` of `castShadowRay` at the hit point and normal.
With `u` the roulette draw `randMinMax(0, 1)`: when `u < 0.75` fails, the
result is that ray, and the only calls made are `castShadowRay` and its shadow
rays; when `u < 0.75` holds, two variates are drawn, the bounce target is
computed and one bounce ray is cast at `depth + 1`, whose colour is blended
in. -/
theorem lambertian_hit_roulette {F G : Type} [LinearOrderedField F] (env : Env F G)
    (scene : Scene F G) (fuel : Nat) (ray traced : Ray F) (depth : Nat) (gen g1 g2 g3 : G)
    (sh : ShadowResult F G) (u xi yj : F)
    (hi : scene.intersect ray = .ok traced) (hh : traced.hasIntersection = true)
    (hm : traced.intersectionMaterial = Material.LAMBERTIAN)
    (hd : depth ≠ SHADOW_DEPTH) (hsize : depth < 2 ^ 64)
    (hsh : castShadowRay env scene (fuel + 1) traced.intersectionPoint
      traced.intersectionNormal gen = .ok sh)
    (hu : env.randMinMax 0 1 sh.gen = (u, g1))
    (hxi : env.randMinMax env.EPSILON (2 * env.M_PI - env.EPSILON) g1 = (xi, g2))
    (hyj : env.randMinMax env.EPSILON (2 * env.M_PI - env.EPSILON) g2 = (yj, g3)) :
    (¬ u < 3 / 4 →
      castRay env scene (fuel + 2) ray depth gen
        = .ok { hit := true, ray := traced.withColor (traced.color.mul sh.color), gen := g1
                calls := Call.castShadowRay :: sh.calls }) ∧
    (u < 3 / 4 →
      castRay env scene (fuel + 2) ray depth gen
        = (lambertianTarget env (traced.withColor (traced.color.mul sh.color)) xi yj).bind
            fun target =>
          (castRay env scene (fuel + 1)
            (env.newRay
              (traced.intersectionPoint.add
                (Vec4.smul (1 / 1000) (target.sub traced.intersectionPoint)))
              target)
            (depth + 1) g3).bind fun res =>
          (fdiv (8 / 10) (env.M_PI * ((depth : F) + 1))).map fun REFLECTIVITY =>
            { hit := true
              ray := traced.withColor
                ((Vec3.smul (1 - REFLECTIVITY) (traced.color.mul sh.color)).add
                  (Vec3.smul REFLECTIVITY res.ray.color))
              gen := res.gen
              calls := (Call.castShadowRay :: sh.calls)
                ++ Call.castRay (depth + 1) :: res.calls }) ∧
    (∀ d, Call.castRay d ∈ sh.calls → d = SHADOW_DEPTH) := by
  have hmod := depth_succ_mod depth hsize hd
  refine ⟨fun hfail => ?_, fun hpass => ?_, fun d hmem => ?_⟩
  · exact castRay_lambertian_fail env scene (fuel + 1) ray traced depth gen g1 sh u hi hh hm hd
      hsh hu hfail
  · have h := castRay_lambertian_bounce env scene (fuel + 1) ray traced depth gen g1 g2 g3 sh
      u xi yj hi hh hm hd hsh hu hxi hyj hpass
    rw [hmod] at h
    exact h
  · have hcalls := (castShadowRay_ok env scene fuel _ _ gen sh hsh).2
    rw [hcalls, List.mem_replicate] at hmem
    exact Call.castRay.inj hmem.2

/-- Witness for C17: `zRay` hits the Lambertian wall of `sceneOf LAMBERTIAN` at
depth `0`; the generator of `exampleEnvHigh` draws `u = 1`, so the roulette
fails. -/
theorem lambertian_hit_roulette_witness :
    ∃ sh : ShadowResult ℝ Unit,
      (sceneOf Material.LAMBERTIAN : Scene ℝ Unit).intersect zRay
        = .ok (rayWithHit Material.LAMBERTIAN) ∧
      (rayWithHit Material.LAMBERTIAN : Ray ℝ).hasIntersection = true ∧
      (rayWithHit Material.LAMBERTIAN : Ray ℝ).intersectionMaterial = Material.LAMBERTIAN ∧
      0 ≠ SHADOW_DEPTH ∧ 0 < 2 ^ 64 ∧
      castShadowRay (exampleEnvHigh Real.pi Real.sqrt Real.sin Real.cos Real.arcsin)
        (sceneOf Material.LAMBERTIAN) (0 + 1)
        (rayWithHit Material.LAMBERTIAN : Ray ℝ).intersectionPoint
        (rayWithHit Material.LAMBERTIAN : Ray ℝ).intersectionNormal () = .ok sh ∧
      (exampleEnvHigh Real.pi Real.sqrt Real.sin Real.cos Real.arcsin : Env ℝ Unit).randMinMax
        0 1 sh.gen = (1, ()) ∧
      ¬ (1 : ℝ) < 3 / 4 ∧
      castRay (exampleEnvHigh Real.pi Real.sqrt Real.sin Real.cos Real.arcsin)
        (sceneOf Material.LAMBERTIAN) (0 + 2) zRay 0 ()
        = .ok { hit := true
                ray := (rayWithHit Material.LAMBERTIAN : Ray ℝ).withColor
                  ((rayWithHit Material.LAMBERTIAN : Ray ℝ).color.mul sh.color)
                gen := ()
                calls := Call.castShadowRay :: sh.calls } := by
  have hpos : 0 < (sceneOf Material.LAMBERTIAN : Scene ℝ Unit).lightTriangleCount
      * (exampleEnvHigh Real.pi Real.sqrt Real.sin Real.cos Real.arcsin :
        Env ℝ Unit).SHADOW_RAY_COUNT := by decide
  have hi : (sceneOf Material.LAMBERTIAN : Scene ℝ Unit).intersect zRay
      = .ok (rayWithHit Material.LAMBERTIAN) := intersect_sceneOf _ _
  obtain ⟨sh, hsh⟩ := castShadowRay_total
    (exampleEnvHigh Real.pi Real.sqrt Real.sin Real.cos Real.arcsin)
    (sceneOf Material.LAMBERTIAN) 0
    (rayWithHit Material.LAMBERTIAN : Ray ℝ).intersectionPoint
    (rayWithHit Material.LAMBERTIAN : Ray ℝ).intersectionNormal ()
    (sceneOf_samples _ _ (by decide)) hpos
  have hd : 0 ≠ SHADOW_DEPTH := by decide
  have hfail : ¬ (1 : ℝ) < 3 / 4 := by norm_num
  exact ⟨sh, hi, rfl, rfl, hd, by norm_num, hsh, rfl, hfail,
    (lambertian_hit_roulette (exampleEnvHigh Real.pi Real.sqrt Real.sin Real.cos Real.arcsin)
      (sceneOf Material.LAMBERTIAN) 0 zRay (rayWithHit Material.LAMBERTIAN) 0 () () () () sh
      1
      (2 * (exampleEnvHigh Real.pi Real.sqrt Real.sin Real.cos Real.arcsin : Env ℝ Unit).M_PI
        - (exampleEnvHigh Real.pi Real.sqrt Real.sin Real.cos Real.arcsin : Env ℝ Unit).EPSILON)
      (2 * (exampleEnvHigh Real.pi Real.sqrt Real.sin Real.cos Real.arcsin : Env ℝ Unit).M_PI
        - (exampleEnvHigh Real.pi Real.sqrt Real.sin Real.cos Real.arcsin : Env ℝ Unit).EPSILON)
      hi rfl rfl hd (by norm_num) hsh rfl rfl rfl).1 hfail⟩
/-! ## The local frame and the sampled direction away from the failing inputs -/

/-- The sampled local direction `(cos az sin alt, sin az sin alt, cos alt)` has
unit length for the real sine and cosine. -/
theorem localDirection_unit (azimuth altitude : ℝ) :
    (localDirection Real.sin Real.cos azimuth altitude).dot
      (localDirection Real.sin Real.cos azimuth altitude) = 1 := by
  have h1 := Real.sin_sq_add_cos_sq azimuth
  have h2 := Real.sin_sq_add_cos_sq altitude
  simp only [localDirection, Vec3.dot]
  calc Real.cos azimuth * Real.sin altitude * (Real.cos azimuth * Real.sin altitude)
        + Real.sin azimuth * Real.sin altitude * (Real.sin azimuth * Real.sin altitude)
        + Real.cos altitude * Real.cos altitude
      = (Real.sin azimuth ^ 2 + Real.cos azimuth ^ 2) * Real.sin altitude ^ 2
        + Real.cos altitude ^ 2 := by ring
    _ = 1 := by rw [h1, one_mul, h2]

/-- For a variate `yj` in `[0, 1]` the argument `sqrt(yj)` lies in the domain
of `asin`. -/
theorem azimuth_defined (asin : ℝ → ℝ) (yj : ℝ) (h0 : 0 ≤ yj) (h1 : yj ≤ 1) :
    fsqrt Real.sqrt yj = .ok (Real.sqrt yj) ∧
    fasin asin (Real.sqrt yj) = .ok (asin (Real.sqrt yj)) := by
  have hle : Real.sqrt yj ≤ 1 := Real.sqrt_le_one.mpr h1
  have hge : (-1 : ℝ) ≤ Real.sqrt yj := le_trans (by norm_num) (Real.sqrt_nonneg yj)
  exact ⟨by simp [fsqrt, not_lt.mpr h0], by simp [fasin, not_lt.mpr hle, not_lt.mpr hge]⟩

/-- Away from normal incidence the local frame of the Lambertian case is
defined and orthonormal: for a unit normal `Z`, a hit point and a ray start
with the same `w`, and a projection `I - (I.Z) Z` other than the zero vector,
`X` has a value, `X`, `Y = cross(-X, Z)` and `Z` have unit length and are
pairwise orthogonal, and `Y = Z x X`. -/
theorem frame_orthonormal (ray : Ray ℝ)
    (hZ : ray.intersectionNormal.dot ray.intersectionNormal = 1)
    (hw : ray.intersectionPoint.w = ray.start.w)
    (hne : (frameProjection ray).dot (frameProjection ray) ≠ 0) :
    ∃ X, frameX Real.sqrt ray = .ok X ∧ X.w = 0 ∧
      X.xyz.dot X.xyz = 1 ∧
      (frameY X ray).xyz.dot (frameY X ray).xyz = 1 ∧
      X.xyz.dot ray.intersectionNormal = 0 ∧
      X.xyz.dot (frameY X ray).xyz = 0 ∧
      (frameY X ray).xyz.dot ray.intersectionNormal = 0 ∧
      (frameY X ray).xyz = ray.intersectionNormal.cross X.xyz := by
  have hnn : 0 ≤ (frameProjection ray).dot (frameProjection ray) := by
    simp only [Vec4.dot]
    nlinarith [mul_self_nonneg (frameProjection ray).x, mul_self_nonneg (frameProjection ray).y,
      mul_self_nonneg (frameProjection ray).z, mul_self_nonneg (frameProjection ray).w]
  have hpos : 0 < (frameProjection ray).dot (frameProjection ray) :=
    lt_of_le_of_ne hnn (Ne.symm hne)
  have hs : 0 < Real.sqrt ((frameProjection ray).dot (frameProjection ray)) :=
    Real.sqrt_pos.mpr hpos
  have hss := Real.mul_self_sqrt hnn
  have hX : frameX Real.sqrt ray = .ok (Vec4.smul
      (1 / Real.sqrt ((frameProjection ray).dot (frameProjection ray))) (frameProjection ray)) := by
    simp [frameX, Vec4.normalize, fsqrt, fdiv, not_lt.mpr hnn, hs.ne', bind, Except.bind]
  have hvw : (frameProjection ray).w = 0 := by
    simp only [frameProjection, Vec4.sub, Vec4.smul, Vec3.toVec4, hw]
    ring
  have hvZ : (frameProjection ray).xyz.dot ray.intersectionNormal = 0 := by
    simp only [Vec3.dot] at hZ
    simp only [frameProjection, Vec4.sub, Vec4.smul, Vec4.dot, Vec3.toVec4, Vec4.xyz, Vec3.dot]
    linear_combination
      (-((ray.intersectionPoint.x - ray.start.x) * ray.intersectionNormal.x
        + (ray.intersectionPoint.y - ray.start.y) * ray.intersectionNormal.y
        + (ray.intersectionPoint.z - ray.start.z) * ray.intersectionNormal.z)) * hZ
  have hvv : (frameProjection ray).xyz.dot (frameProjection ray).xyz
      = (frameProjection ray).dot (frameProjection ray) := by
    simp only [Vec4.dot, Vec4.xyz, Vec3.dot, hvw]; ring
  generalize hk : Real.sqrt ((frameProjection ray).dot (frameProjection ray)) = s at hs hss hX
  generalize hv : frameProjection ray = v at hX hvw hvZ hvv hss
  have hs0 : s ≠ 0 := hs.ne'
  have hXX : (Vec4.smul (1 / s) v).xyz.dot (Vec4.smul (1 / s) v).xyz = 1 := by
    have : (Vec4.smul (1 / s) v).xyz.dot (Vec4.smul (1 / s) v).xyz
        = (1 / s) * (1 / s) * (v.xyz.dot v.xyz) := by
      simp only [Vec4.smul, Vec4.xyz, Vec3.dot]; ring
    rw [this, hvv, ← hss]
    field_simp
  have hXZ : (Vec4.smul (1 / s) v).xyz.dot ray.intersectionNormal = 0 := by
    have : (Vec4.smul (1 / s) v).xyz.dot ray.intersectionNormal
        = (1 / s) * (v.xyz.dot ray.intersectionNormal) := by
      simp only [Vec4.smul, Vec4.xyz, Vec3.dot]; ring
    rw [this, hvZ, mul_zero]
  refine ⟨_, hX, ?_, hXX, ?_, hXZ, ?_, ?_, ?_⟩
  · simp only [Vec4.smul, hvw, mul_zero]
  · -- Lagrange identity: |X x Z|^2 = |X|^2 |Z|^2 - (X.Z)^2
    have hlag : (frameY (Vec4.smul (1 / s) v) ray).xyz.dot (frameY (Vec4.smul (1 / s) v) ray).xyz
        = (Vec4.smul (1 / s) v).xyz.dot (Vec4.smul (1 / s) v).xyz
            * ray.intersectionNormal.dot ray.intersectionNormal
          - ((Vec4.smul (1 / s) v).xyz.dot ray.intersectionNormal) ^ 2 := by
      simp only [frameY, Vec3.toVec4, Vec4.xyz, Vec4.neg, Vec3.cross, Vec3.dot, Vec4.smul]
      ring
    rw [hlag, hXX, hZ, hXZ]; norm_num
  · simp only [frameY, Vec3.toVec4, Vec4.xyz, Vec4.neg, Vec3.cross, Vec3.dot, Vec4.smul]
    ring
  · simp only [frameY, Vec3.toVec4, Vec4.xyz, Vec4.neg, Vec3.cross, Vec3.dot, Vec4.smul]
    ring
  · simp only [frameY, Vec3.toVec4, Vec4.xyz, Vec4.neg, Vec3.cross, Vec4.smul, Vec3.mk.injEq]
    refine ⟨?_, ?_, ?_⟩ <;> ring

end GI
